import Mathlib

/-!
# CTL SIMD standard library: table lookups (`CtlSimdStdLibLookupTable.cpp`)

A shallow embedding of the six SIMD built-ins `simdLookup1D`, `simdLookup3D_f3`,
`simdLookup3D_f`, `simdLookup3D_h`, `simdInterpolateLinear1D` and
`simdInterpolateCubic1D`, together with the register, mask and argument-frame
abstractions they run on, and theorems about their dispatch behaviour.

Conventions of the embedding:

* a built-in is a function from the mask and the execution context to
  `Except Err` of the context after the call;
* the registers a built-in binds by `const SimdReg &` are read from the frame
  once; a register bound by `SimdReg &` is updated step by step and stored back
  into its frame slot at the end of the call (distinct frame offsets are
  distinct registers of the stack);
* the lane loop `for (int i = regSize; --i >= 0;)` is the recursion `forLanes`;
* the numeric kernels are parameters (`Kernels`); floats and halves are the
  abstract types `F` and `H`.
-/

namespace Ctl

/-! ## Data model -/

/-- Fatal outcomes of a built-in call: a failed `assert`, an element or frame
access outside the storage, and a slot whose element type is not the one the
built-in casts it to. -/
inductive Err where
  | assertionFailed
  | outOfRange
  | badCast
  deriving DecidableEq, Repr

/-- Results of fallible steps can be compared. -/
instance instDecidableEqExcept {ε α : Type} [DecidableEq ε] [DecidableEq α] :
    DecidableEq (Except ε α) := fun x y =>
  match x, y with
  | .ok a, .ok b =>
    if h : a = b then isTrue (by rw [h]) else isFalse (fun e => h (Except.ok.inj e))
  | .error a, .error b =>
    if h : a = b then isTrue (by rw [h]) else isFalse (fun e => h (Except.error.inj e))
  | .ok _, .error _ => isFalse (fun e => by cases e)
  | .error _, .ok _ => isFalse (fun e => by cases e)

/-- The three-component vectors `Imath::V3f` and `Imath::V3i`. -/
structure V3 (α : Type) where
  x : α
  y : α
  z : α
  deriving DecidableEq, Repr

/-- Modelled from the spec: the element held by one register slot
(`CtlSimdReg.h` is not part of the sources).  The element types are the ones
the spec lists: 32-bit signed integer, 32-bit float, 16-bit float, a 3-float
vector; a table argument is an array of floats stored in place.  `F` is the
type of floats and `H` the type of halves. -/
inductive Val (F H : Type) where
  | int (n : Int)
  | float (x : F)
  | half (h : H)
  | v3f (v : V3 F)
  | table (t : List F)
  deriving DecidableEq, Repr

/-- Modelled from the spec: a register (`SimdReg`, declared in `CtlSimdReg.h`,
not part of the sources): a varying flag and the storage, one element when
uniform and one element per lane when varying. -/
structure SimdReg (F H : Type) where
  varying : Bool
  data : List (Val F H)
  deriving DecidableEq, Repr

/-- Modelled from the spec: the active-lane mask (`SimdBoolMask`, declared in
`CtlSimdReg.h`, not part of the sources): a varying flag and one boolean per
lane, or a single boolean when not varying. -/
structure SimdBoolMask where
  varying : Bool
  data : List Bool
  deriving DecidableEq, Repr

/-- Modelled from the spec: the argument stack (`SimdStack`, declared in
`CtlSimdReg.h`, not part of the sources): a stack of registers and the frame
pointer of the current call. -/
structure SimdStack (F H : Type) where
  regs : List (SimdReg F H)
  fp : Nat
  deriving DecidableEq, Repr

/-- Modelled from the spec: the execution context (`SimdXContext`, not part of
the sources): the lane count shared by all registers and the argument stack. -/
structure SimdXContext (F H : Type) where
  regSize : Nat
  stack : SimdStack F H
  deriving DecidableEq, Repr

/-- The numeric kernels and conversions the dispatchers call; they are declared
in `CtlLookupTable.h` and `half.h` and are parameters of the embedding.  A table
pointer is passed as the float array it points to. -/
structure Kernels (F H : Type) where
  lookup1D : List F → Int → F → F → F → F
  lookup3D : List F → V3 Int → V3 F → V3 F → V3 F → V3 F
  interpolateLinear1D : List F → Int → F → F
  interpolateCubic1D : List F → Int → F → F
  halfToFloat : H → F
  floatToHalf : F → H

variable {F H : Type}

/-! ### Element casts -/

/-- The cast `*(int *)` of a slot. -/
def Val.toInt : Val F H → Except Err Int
  | .int n => .ok n
  | _ => .error .badCast

/-- The cast `*(float *)` of a slot. -/
def Val.toFloat : Val F H → Except Err F
  | .float x => .ok x
  | _ => .error .badCast

/-- The cast `*(half *)` of a slot. -/
def Val.toHalf : Val F H → Except Err H
  | .half h => .ok h
  | _ => .error .badCast

/-- The cast `*(V3f *)` of a slot. -/
def Val.toV3f : Val F H → Except Err (V3 F)
  | .v3f v => .ok v
  | _ => .error .badCast

/-- The casts `(float *)`, `(V3f *)` and `(float (*)[2])` of a table slot. -/
def Val.toTable : Val F H → Except Err (List F)
  | .table t => .ok t
  | _ => .error .badCast

/-! ### Registers and masks -/

/-- Modelled from the spec: `SimdReg::isVarying`. -/
def SimdReg.isVarying (r : SimdReg F H) : Bool := r.varying

/-- The storage index of lane `i`: `i` when varying, `0` when uniform. -/
def SimdReg.slot (r : SimdReg F H) (i : Nat) : Nat := if r.varying then i else 0

/-- Modelled from the spec: `SimdReg::operator []` used for reading: the
element at index `i` if varying, at index `0` if uniform (broadcast read). -/
def SimdReg.get (r : SimdReg F H) (i : Nat) : Except Err (Val F H) :=
  match r.data[r.slot i]? with
  | some v => .ok v
  | none => .error .outOfRange

/-- Modelled from the spec: `SimdReg::operator []` used for writing: the
element of lane `i` is replaced. -/
def SimdReg.set (r : SimdReg F H) (i : Nat) (v : Val F H) : Except Err (SimdReg F H) :=
  if r.slot i < r.data.length then .ok { r with data := r.data.set (r.slot i) v }
  else .error .outOfRange

/-- Modelled from the spec: `SimdReg::setVarying` in a context with `n` lanes.
The flag is set and the storage takes the matching shape (one element, or `n`
elements); the lanes keep the value they exposed before the change. -/
def SimdReg.setVarying (n : Nat) (r : SimdReg F H) (varying : Bool) : SimdReg F H :=
  if r.varying = varying then r
  else if varying then
    { varying := true,
      data := match r.data with
        | [] => []
        | v :: _ => List.replicate n v }
  else { varying := false, data := r.data.take 1 }

/-- Modelled from the spec: `SimdBoolMask::isVarying`. -/
def SimdBoolMask.isVarying (m : SimdBoolMask) : Bool := m.varying

/-- Modelled from the spec: `SimdBoolMask::operator []`: the boolean of lane
`i` if varying, the single boolean otherwise. -/
def SimdBoolMask.get (m : SimdBoolMask) (i : Nat) : Except Err Bool :=
  match m.data[if m.varying then i else 0]? with
  | some b => .ok b
  | none => .error .outOfRange

/-- Reads `*(int *)(r[i])`. -/
def SimdReg.getInt (r : SimdReg F H) (i : Nat) : Except Err Int :=
  (r.get i).bind Val.toInt

/-- Reads `*(float *)(r[i])`. -/
def SimdReg.getFloat (r : SimdReg F H) (i : Nat) : Except Err F :=
  (r.get i).bind Val.toFloat

/-- Reads `*(half *)(r[i])`. -/
def SimdReg.getHalf (r : SimdReg F H) (i : Nat) : Except Err H :=
  (r.get i).bind Val.toHalf

/-- Reads `*(V3f *)(r[i])`. -/
def SimdReg.getV3f (r : SimdReg F H) (i : Nat) : Except Err (V3 F) :=
  (r.get i).bind Val.toV3f

/-- Reads the table pointer `(float *)(r[i])`. -/
def SimdReg.getTable (r : SimdReg F H) (i : Nat) : Except Err (List F) :=
  (r.get i).bind Val.toTable

/-! ### Argument frame -/

/-- Modelled from the spec: `SimdStack::regFpRelative`: the register at a fixed
position relative to the frame pointer. -/
def SimdStack.regFpRelative (s : SimdStack F H) (offset : Int) : Except Err (SimdReg F H) :=
  if 0 ≤ (s.fp : Int) + offset then
    match s.regs[((s.fp : Int) + offset).toNat]? with
    | some r => .ok r
    | none => .error .outOfRange
  else .error .outOfRange

/-- Stores a register back into the slot `regFpRelative offset` refers to; this
is how a mutation through a `SimdReg &` reaches the stack. -/
def SimdStack.setRegFpRelative (s : SimdStack F H) (offset : Int) (r : SimdReg F H) :
    SimdStack F H :=
  if 0 ≤ (s.fp : Int) + offset then
    { s with regs := s.regs.set ((s.fp : Int) + offset).toNat r }
  else s

/-- Stores a register back into the frame of the context. -/
def SimdXContext.setRegFpRelative (xc : SimdXContext F H) (offset : Int) (r : SimdReg F H) :
    SimdXContext F H :=
  { xc with stack := xc.stack.setRegFpRelative offset r }

/-- The C `assert`. -/
def assert (c : Bool) : Except Err Unit :=
  if c then .ok () else .error .assertionFailed

/-- The lane loop `for (int i = regSize; --i >= 0;) body`: the body runs for
`i = n - 1` down to `0`. -/
def forLanes {σ : Type} (body : Nat → σ → Except Err σ) : Nat → σ → Except Err σ
  | 0, s => .ok s
  | i + 1, s => (body i s).bind (forLanes body i)

/-! ## The built-ins -/

/-- `simdLookup1D`: `float lookup1D (float table[], float pMin, float pMax, float p)`. -/
def simdLookup1D (K : Kernels F H) (mask : SimdBoolMask) (xcontext : SimdXContext F H) :
    Except Err (SimdXContext F H) := do
  let size ← xcontext.stack.regFpRelative (-1)
  let table ← xcontext.stack.regFpRelative (-2)
  let pMin ← xcontext.stack.regFpRelative (-3)
  let pMax ← xcontext.stack.regFpRelative (-4)
  let p ← xcontext.stack.regFpRelative (-5)
  let returnValue ← xcontext.stack.regFpRelative (-6)
  assert (!size.isVarying)
  let s ← size.getInt 0
  if table.isVarying || pMin.isVarying || pMax.isVarying || p.isVarying then
    let returnValue := returnValue.setVarying xcontext.regSize true
    if !mask.isVarying && !table.isVarying && !pMin.isVarying && !pMax.isVarying then
      -- Fast path -- only p is varying, everything else is uniform.
      let table0 ← table.getTable 0
      let pMin0 ← pMin.getFloat 0
      let pMax0 ← pMax.getFloat 0
      let returnValue ← forLanes (fun i returnValue => do
        let pi ← p.getFloat i
        returnValue.set i (.float (K.lookup1D table0 s pMin0 pMax0 pi)))
        xcontext.regSize returnValue
      pure (xcontext.setRegFpRelative (-6) returnValue)
    else
      let returnValue ← forLanes (fun i returnValue => do
        if (← mask.get i) then
          let tablei ← table.getTable i
          let pMini ← pMin.getFloat i
          let pMaxi ← pMax.getFloat i
          let pi ← p.getFloat i
          returnValue.set i (.float (K.lookup1D tablei s pMini pMaxi pi))
        else pure returnValue)
        xcontext.regSize returnValue
      pure (xcontext.setRegFpRelative (-6) returnValue)
  else
    let returnValue := returnValue.setVarying xcontext.regSize false
    let table0 ← table.getTable 0
    let pMin0 ← pMin.getFloat 0
    let pMax0 ← pMax.getFloat 0
    let p0 ← p.getFloat 0
    let returnValue ← returnValue.set 0 (.float (K.lookup1D table0 s pMin0 pMax0 p0))
    pure (xcontext.setRegFpRelative (-6) returnValue)

/-- `simdLookup3D_f3`:
`float[3] lookup3D_f3 (float table[][][][3], float pMin[3], float pMax[3], float p[3])`. -/
def simdLookup3D_f3 (K : Kernels F H) (mask : SimdBoolMask) (xcontext : SimdXContext F H) :
    Except Err (SimdXContext F H) := do
  let size2 ← xcontext.stack.regFpRelative (-1)
  let size1 ← xcontext.stack.regFpRelative (-2)
  let size0 ← xcontext.stack.regFpRelative (-3)
  let table ← xcontext.stack.regFpRelative (-4)
  let pMin ← xcontext.stack.regFpRelative (-5)
  let pMax ← xcontext.stack.regFpRelative (-6)
  let p ← xcontext.stack.regFpRelative (-7)
  let returnValue ← xcontext.stack.regFpRelative (-8)
  assert (!size0.isVarying && !size1.isVarying && !size2.isVarying)
  let s0 ← size0.getInt 0
  let s1 ← size1.getInt 0
  let s2 ← size2.getInt 0
  let s : V3 Int := ⟨s0, s1, s2⟩
  if table.isVarying || pMin.isVarying || pMax.isVarying || p.isVarying then
    let returnValue := returnValue.setVarying xcontext.regSize true
    let returnValue ← forLanes (fun i returnValue => do
      if (← mask.get i) then
        let tablei ← table.getTable i
        let pMini ← pMin.getV3f i
        let pMaxi ← pMax.getV3f i
        let pi ← p.getV3f i
        returnValue.set i (.v3f (K.lookup3D tablei s pMini pMaxi pi))
      else pure returnValue)
      xcontext.regSize returnValue
    pure (xcontext.setRegFpRelative (-8) returnValue)
  else
    let returnValue := returnValue.setVarying xcontext.regSize false
    let table0 ← table.getTable 0
    let pMin0 ← pMin.getV3f 0
    let pMax0 ← pMax.getV3f 0
    let p0 ← p.getV3f 0
    let returnValue ← returnValue.set 0 (.v3f (K.lookup3D table0 s pMin0 pMax0 p0))
    pure (xcontext.setRegFpRelative (-8) returnValue)

/-- The three output registers `q0`, `q1`, `q2` of `lookup3D_f` and `lookup3D_h`. -/
structure Out3 (F H : Type) where
  q0 : SimdReg F H
  q1 : SimdReg F H
  q2 : SimdReg F H

/-- The three stores `q0[i] = a; q1[i] = b; q2[i] = c`. -/
def Out3.set (q : Out3 F H) (i : Nat) (a b c : Val F H) : Except Err (Out3 F H) := do
  let q0 ← q.q0.set i a
  let q1 ← q.q1.set i b
  let q2 ← q.q2.set i c
  pure ⟨q0, q1, q2⟩

/-- `simdLookup3D_f`:
`void lookup3D_f (float table[][][][3], float pMin[3], float pMax[3],
float p0, float p1, float p2, float q0, float q1, float q2)`. -/
def simdLookup3D_f (K : Kernels F H) (mask : SimdBoolMask) (xcontext : SimdXContext F H) :
    Except Err (SimdXContext F H) := do
  let size2 ← xcontext.stack.regFpRelative (-1)
  let size1 ← xcontext.stack.regFpRelative (-2)
  let size0 ← xcontext.stack.regFpRelative (-3)
  let table ← xcontext.stack.regFpRelative (-4)
  let pMin ← xcontext.stack.regFpRelative (-5)
  let pMax ← xcontext.stack.regFpRelative (-6)
  let p0 ← xcontext.stack.regFpRelative (-7)
  let p1 ← xcontext.stack.regFpRelative (-8)
  let p2 ← xcontext.stack.regFpRelative (-9)
  let q0 ← xcontext.stack.regFpRelative (-10)
  let q1 ← xcontext.stack.regFpRelative (-11)
  let q2 ← xcontext.stack.regFpRelative (-12)
  assert (!size0.isVarying && !size1.isVarying && !size2.isVarying)
  let s0 ← size0.getInt 0
  let s1 ← size1.getInt 0
  let s2 ← size2.getInt 0
  let s : V3 Int := ⟨s0, s1, s2⟩
  if table.isVarying || pMin.isVarying || pMax.isVarying ||
      p0.isVarying || p1.isVarying || p2.isVarying then
    let q0 := q0.setVarying xcontext.regSize true
    let q1 := q1.setVarying xcontext.regSize true
    let q2 := q2.setVarying xcontext.regSize true
    let q ← forLanes (fun i (q : Out3 F H) => do
      if (← mask.get i) then
        let p0i ← p0.getFloat i
        let p1i ← p1.getFloat i
        let p2i ← p2.getFloat i
        let p : V3 F := ⟨p0i, p1i, p2i⟩
        let tablei ← table.getTable i
        let pMini ← pMin.getV3f i
        let pMaxi ← pMax.getV3f i
        let r := K.lookup3D tablei s pMini pMaxi p
        q.set i (.float r.x) (.float r.y) (.float r.z)
      else pure q)
      xcontext.regSize ⟨q0, q1, q2⟩
    pure (((xcontext.setRegFpRelative (-10) q.q0).setRegFpRelative (-11) q.q1).setRegFpRelative
      (-12) q.q2)
  else
    let q0 := q0.setVarying xcontext.regSize false
    let q1 := q1.setVarying xcontext.regSize false
    let q2 := q2.setVarying xcontext.regSize false
    let p00 ← p0.getFloat 0
    let p10 ← p1.getFloat 0
    let p20 ← p2.getFloat 0
    let p : V3 F := ⟨p00, p10, p20⟩
    let table0 ← table.getTable 0
    let pMin0 ← pMin.getV3f 0
    let pMax0 ← pMax.getV3f 0
    let r := K.lookup3D table0 s pMin0 pMax0 p
    let q ← Out3.set ⟨q0, q1, q2⟩ 0 (.float r.x) (.float r.y) (.float r.z)
    pure (((xcontext.setRegFpRelative (-10) q.q0).setRegFpRelative (-11) q.q1).setRegFpRelative
      (-12) q.q2)

/-- `simdLookup3D_h`:
`void lookup3D_h (float table[][][][3], float pMin[3], float pMax[3],
half p0, half p1, half p2, half q0, half q1, half q2)`. -/
def simdLookup3D_h (K : Kernels F H) (mask : SimdBoolMask) (xcontext : SimdXContext F H) :
    Except Err (SimdXContext F H) := do
  let size2 ← xcontext.stack.regFpRelative (-1)
  let size1 ← xcontext.stack.regFpRelative (-2)
  let size0 ← xcontext.stack.regFpRelative (-3)
  let table ← xcontext.stack.regFpRelative (-4)
  let pMin ← xcontext.stack.regFpRelative (-5)
  let pMax ← xcontext.stack.regFpRelative (-6)
  let p0 ← xcontext.stack.regFpRelative (-7)
  let p1 ← xcontext.stack.regFpRelative (-8)
  let p2 ← xcontext.stack.regFpRelative (-9)
  let q0 ← xcontext.stack.regFpRelative (-10)
  let q1 ← xcontext.stack.regFpRelative (-11)
  let q2 ← xcontext.stack.regFpRelative (-12)
  assert (!size0.isVarying && !size1.isVarying && !size2.isVarying)
  let s0 ← size0.getInt 0
  let s1 ← size1.getInt 0
  let s2 ← size2.getInt 0
  let s : V3 Int := ⟨s0, s1, s2⟩
  if table.isVarying || pMin.isVarying || pMax.isVarying ||
      p0.isVarying || p1.isVarying || p2.isVarying then
    let q0 := q0.setVarying xcontext.regSize true
    let q1 := q1.setVarying xcontext.regSize true
    let q2 := q2.setVarying xcontext.regSize true
    let q ← forLanes (fun i (q : Out3 F H) => do
      if (← mask.get i) then
        let p0i ← p0.getHalf i
        let p1i ← p1.getHalf i
        let p2i ← p2.getHalf i
        let p : V3 F := ⟨K.halfToFloat p0i, K.halfToFloat p1i, K.halfToFloat p2i⟩
        let tablei ← table.getTable i
        let pMini ← pMin.getV3f i
        let pMaxi ← pMax.getV3f i
        let r := K.lookup3D tablei s pMini pMaxi p
        q.set i (.half (K.floatToHalf r.x)) (.half (K.floatToHalf r.y))
          (.half (K.floatToHalf r.z))
      else pure q)
      xcontext.regSize ⟨q0, q1, q2⟩
    pure (((xcontext.setRegFpRelative (-10) q.q0).setRegFpRelative (-11) q.q1).setRegFpRelative
      (-12) q.q2)
  else
    let q0 := q0.setVarying xcontext.regSize false
    let q1 := q1.setVarying xcontext.regSize false
    let q2 := q2.setVarying xcontext.regSize false
    let p00 ← p0.getHalf 0
    let p10 ← p1.getHalf 0
    let p20 ← p2.getHalf 0
    let p : V3 F := ⟨K.halfToFloat p00, K.halfToFloat p10, K.halfToFloat p20⟩
    let table0 ← table.getTable 0
    let pMin0 ← pMin.getV3f 0
    let pMax0 ← pMax.getV3f 0
    let r := K.lookup3D table0 s pMin0 pMax0 p
    let q ← Out3.set ⟨q0, q1, q2⟩ 0 (.half (K.floatToHalf r.x)) (.half (K.floatToHalf r.y))
      (.half (K.floatToHalf r.z))
    pure (((xcontext.setRegFpRelative (-10) q.q0).setRegFpRelative (-11) q.q1).setRegFpRelative
      (-12) q.q2)

/-- `simdInterpolateLinear1D`: `float interpolateLinear1D (float table[][2], float p)`. -/
def simdInterpolateLinear1D (K : Kernels F H) (mask : SimdBoolMask)
    (xcontext : SimdXContext F H) : Except Err (SimdXContext F H) := do
  let size ← xcontext.stack.regFpRelative (-1)
  let table ← xcontext.stack.regFpRelative (-2)
  let p ← xcontext.stack.regFpRelative (-3)
  let returnValue ← xcontext.stack.regFpRelative (-4)
  assert (!size.isVarying)
  let s ← size.getInt 0
  if table.isVarying || p.isVarying then
    let returnValue := returnValue.setVarying xcontext.regSize true
    if !mask.isVarying && !table.isVarying then
      -- Fast path -- only p is varying, everything else is uniform.
      let table0 ← table.getTable 0
      let returnValue ← forLanes (fun i returnValue => do
        let pi ← p.getFloat i
        returnValue.set i (.float (K.interpolateLinear1D table0 s pi)))
        xcontext.regSize returnValue
      pure (xcontext.setRegFpRelative (-4) returnValue)
    else
      let returnValue ← forLanes (fun i returnValue => do
        if (← mask.get i) then
          let tablei ← table.getTable i
          let pi ← p.getFloat i
          returnValue.set i (.float (K.interpolateLinear1D tablei s pi))
        else pure returnValue)
        xcontext.regSize returnValue
      pure (xcontext.setRegFpRelative (-4) returnValue)
  else
    let returnValue := returnValue.setVarying xcontext.regSize false
    let table0 ← table.getTable 0
    let p0 ← p.getFloat 0
    let returnValue ← returnValue.set 0 (.float (K.interpolateLinear1D table0 s p0))
    pure (xcontext.setRegFpRelative (-4) returnValue)

/-- `simdInterpolateCubic1D`: `float interpolateCubic1D (float table[][2], float p)`. -/
def simdInterpolateCubic1D (K : Kernels F H) (mask : SimdBoolMask)
    (xcontext : SimdXContext F H) : Except Err (SimdXContext F H) := do
  let size ← xcontext.stack.regFpRelative (-1)
  let table ← xcontext.stack.regFpRelative (-2)
  let p ← xcontext.stack.regFpRelative (-3)
  let returnValue ← xcontext.stack.regFpRelative (-4)
  assert (!size.isVarying)
  let s ← size.getInt 0
  if table.isVarying || p.isVarying then
    let returnValue := returnValue.setVarying xcontext.regSize true
    if !mask.isVarying && !table.isVarying then
      -- Fast path -- only p is varying, everything else is uniform.
      let table0 ← table.getTable 0
      let returnValue ← forLanes (fun i returnValue => do
        let pi ← p.getFloat i
        returnValue.set i (.float (K.interpolateCubic1D table0 s pi)))
        xcontext.regSize returnValue
      pure (xcontext.setRegFpRelative (-4) returnValue)
    else
      let returnValue ← forLanes (fun i returnValue => do
        if (← mask.get i) then
          let tablei ← table.getTable i
          let pi ← p.getFloat i
          returnValue.set i (.float (K.interpolateCubic1D tablei s pi))
        else pure returnValue)
        xcontext.regSize returnValue
      pure (xcontext.setRegFpRelative (-4) returnValue)
  else
    let returnValue := returnValue.setVarying xcontext.regSize false
    let table0 ← table.getTable 0
    let p0 ← p.getFloat 0
    let returnValue ← returnValue.set 0 (.float (K.interpolateCubic1D table0 s p0))
    pure (xcontext.setRegFpRelative (-4) returnValue)

/-- The six built-ins `declareSimdStdLibLookupTable` registers. -/
inductive Builtin where
  | lookup1D
  | lookup3D_f3
  | lookup3D_f
  | lookup3D_h
  | interpolateLinear1D
  | interpolateCubic1D
  deriving DecidableEq, Repr

/-- The implementation `declareSimdStdLibLookupTable` binds to each name. -/
def Builtin.run (K : Kernels F H) : Builtin → SimdBoolMask → SimdXContext F H →
    Except Err (SimdXContext F H)
  | .lookup1D => simdLookup1D K
  | .lookup3D_f3 => simdLookup3D_f3 K
  | .lookup3D_f => simdLookup3D_f K
  | .lookup3D_h => simdLookup3D_h K
  | .interpolateLinear1D => simdInterpolateLinear1D K
  | .interpolateCubic1D => simdInterpolateCubic1D K

/-! ## Frame layout, well-formed calls and the per-lane reference result -/

/-- Element types of register slots. -/
inductive Ty where
  | int
  | float
  | half
  | v3f
  | table
  deriving DecidableEq, Repr

/-- Whether a slot holds an element of the given type. -/
def Val.hasTy : Ty → Val F H → Bool
  | .int, .int _ => true
  | .float, .float _ => true
  | .half, .half _ => true
  | .v3f, .v3f _ => true
  | .table, .table _ => true
  | _, _ => false

/-- Frame offsets of the size registers each built-in binds (`size`, or
`size0`, `size1`, `size2`). -/
def Builtin.sizeOffsets : Builtin → List Int
  | .lookup1D => [-1]
  | .lookup3D_f3 => [-3, -2, -1]
  | .lookup3D_f => [-3, -2, -1]
  | .lookup3D_h => [-3, -2, -1]
  | .interpolateLinear1D => [-1]
  | .interpolateCubic1D => [-1]

/-- Frame offsets and element types of the other inputs each built-in binds:
`table`, `pMin`, `pMax` and the position argument(s). -/
def Builtin.argOffsets : Builtin → List (Int × Ty)
  | .lookup1D => [(-2, .table), (-3, .float), (-4, .float), (-5, .float)]
  | .lookup3D_f3 => [(-4, .table), (-5, .v3f), (-6, .v3f), (-7, .v3f)]
  | .lookup3D_f =>
    [(-4, .table), (-5, .v3f), (-6, .v3f), (-7, .float), (-8, .float), (-9, .float)]
  | .lookup3D_h =>
    [(-4, .table), (-5, .v3f), (-6, .v3f), (-7, .half), (-8, .half), (-9, .half)]
  | .interpolateLinear1D => [(-2, .table), (-3, .float)]
  | .interpolateCubic1D => [(-2, .table), (-3, .float)]

/-- Frame offsets of the registers each built-in binds by non-const reference:
`returnValue`, or `q0`, `q1`, `q2`. -/
def Builtin.outOffsets : Builtin → List Int
  | .lookup1D => [-6]
  | .lookup3D_f3 => [-8]
  | .lookup3D_f => [-10, -11, -12]
  | .lookup3D_h => [-10, -11, -12]
  | .interpolateLinear1D => [-4]
  | .interpolateCubic1D => [-4]

/-- Frame offsets of all inputs of a built-in. -/
def Builtin.inputOffsets (b : Builtin) : List Int :=
  b.sizeOffsets ++ b.argOffsets.map Prod.fst

/-- The register invariant of the spec: one element when uniform, `n` elements
when varying. -/
def SimdReg.shaped (n : Nat) (r : SimdReg F H) : Bool :=
  r.data.length == (if r.varying then n else 1)

/-- The mask invariant of the spec: `n` booleans when varying, one otherwise. -/
def SimdBoolMask.shaped (n : Nat) (m : SimdBoolMask) : Bool :=
  m.data.length == (if m.varying then n else 1)

/-- The register at a frame offset exists, has the shape of the register
invariant and satisfies `P`. -/
def SimdXContext.regOk (xc : SimdXContext F H) (offset : Int) (P : SimdReg F H → Bool) : Bool :=
  match xc.stack.regFpRelative offset with
  | .ok r => r.shaped xc.regSize && P r
  | .error _ => false

/-- The varying flag of the register at a frame offset. -/
def SimdXContext.flag (xc : SimdXContext F H) (offset : Int) : Bool :=
  match xc.stack.regFpRelative offset with
  | .ok r => r.varying
  | .error _ => false

/-- The broadcast read of lane `i` of the register at a frame offset. -/
def SimdXContext.lane (xc : SimdXContext F H) (offset : Int) (i : Nat) :
    Except Err (Val F H) :=
  (xc.stack.regFpRelative offset).bind fun r => r.get i

/-- A well-formed call: at least one lane, a mask and frame registers that
satisfy the shape invariants, uniform integer size registers, and inputs whose
slots hold the element type of the signature. -/
def Builtin.wellFormed (b : Builtin) (mask : SimdBoolMask) (xc : SimdXContext F H) : Bool :=
  decide (1 ≤ xc.regSize) && mask.shaped xc.regSize &&
  (b.sizeOffsets.all fun o => xc.regOk o fun r => !r.varying && r.data.all (Val.hasTy .int)) &&
  (b.argOffsets.all fun a => xc.regOk a.1 fun r => r.data.all (Val.hasTy a.2)) &&
  (b.outOffsets.all fun o => xc.regOk o fun _ => true)

/-- Some non-size input register is varying. -/
def Builtin.anyVarying (b : Builtin) (xc : SimdXContext F H) : Bool :=
  b.argOffsets.any fun a => xc.flag a.1

/-- The condition under which a built-in takes its fast path: the mask is not
varying and the table and range arguments are uniform.  The 3D lookups have no
fast path. -/
def Builtin.fastPath (b : Builtin) (mask : SimdBoolMask) (xc : SimdXContext F H) : Bool :=
  match b with
  | .lookup1D => !mask.varying && !xc.flag (-2) && !xc.flag (-3) && !xc.flag (-4)
  | .interpolateLinear1D => !mask.varying && !xc.flag (-2)
  | .interpolateCubic1D => !mask.varying && !xc.flag (-2)
  | _ => false

/-- Whether lane `i` is computed when some input is varying: always on the
fast path, and where the mask is true on the general path. -/
def Builtin.writesLane (b : Builtin) (mask : SimdBoolMask) (xc : SimdXContext F H) (i : Nat) :
    Except Err Bool :=
  if b.fastPath mask xc then .ok true else mask.get i

/-- The kernel applied to the broadcast reads of the inputs at lane `i`: the
values of the output registers, in the order of `outOffsets`. -/
def Builtin.kernelAt (K : Kernels F H) (b : Builtin) (xc : SimdXContext F H) (i : Nat) :
    Except Err (List (Val F H)) :=
  match b with
  | .lookup1D => do
    let s ← (xc.lane (-1) 0).bind Val.toInt
    let t ← (xc.lane (-2) i).bind Val.toTable
    let pMin ← (xc.lane (-3) i).bind Val.toFloat
    let pMax ← (xc.lane (-4) i).bind Val.toFloat
    let p ← (xc.lane (-5) i).bind Val.toFloat
    pure [.float (K.lookup1D t s pMin pMax p)]
  | .lookup3D_f3 => do
    let s0 ← (xc.lane (-3) 0).bind Val.toInt
    let s1 ← (xc.lane (-2) 0).bind Val.toInt
    let s2 ← (xc.lane (-1) 0).bind Val.toInt
    let t ← (xc.lane (-4) i).bind Val.toTable
    let pMin ← (xc.lane (-5) i).bind Val.toV3f
    let pMax ← (xc.lane (-6) i).bind Val.toV3f
    let p ← (xc.lane (-7) i).bind Val.toV3f
    pure [.v3f (K.lookup3D t ⟨s0, s1, s2⟩ pMin pMax p)]
  | .lookup3D_f => do
    let s0 ← (xc.lane (-3) 0).bind Val.toInt
    let s1 ← (xc.lane (-2) 0).bind Val.toInt
    let s2 ← (xc.lane (-1) 0).bind Val.toInt
    let t ← (xc.lane (-4) i).bind Val.toTable
    let pMin ← (xc.lane (-5) i).bind Val.toV3f
    let pMax ← (xc.lane (-6) i).bind Val.toV3f
    let p0 ← (xc.lane (-7) i).bind Val.toFloat
    let p1 ← (xc.lane (-8) i).bind Val.toFloat
    let p2 ← (xc.lane (-9) i).bind Val.toFloat
    let q := K.lookup3D t ⟨s0, s1, s2⟩ pMin pMax ⟨p0, p1, p2⟩
    pure [.float q.x, .float q.y, .float q.z]
  | .lookup3D_h => do
    let s0 ← (xc.lane (-3) 0).bind Val.toInt
    let s1 ← (xc.lane (-2) 0).bind Val.toInt
    let s2 ← (xc.lane (-1) 0).bind Val.toInt
    let t ← (xc.lane (-4) i).bind Val.toTable
    let pMin ← (xc.lane (-5) i).bind Val.toV3f
    let pMax ← (xc.lane (-6) i).bind Val.toV3f
    let p0 ← (xc.lane (-7) i).bind Val.toHalf
    let p1 ← (xc.lane (-8) i).bind Val.toHalf
    let p2 ← (xc.lane (-9) i).bind Val.toHalf
    let q := K.lookup3D t ⟨s0, s1, s2⟩ pMin pMax
      ⟨K.halfToFloat p0, K.halfToFloat p1, K.halfToFloat p2⟩
    pure [.half (K.floatToHalf q.x), .half (K.floatToHalf q.y), .half (K.floatToHalf q.z)]
  | .interpolateLinear1D => do
    let s ← (xc.lane (-1) 0).bind Val.toInt
    let t ← (xc.lane (-2) i).bind Val.toTable
    let p ← (xc.lane (-3) i).bind Val.toFloat
    pure [.float (K.interpolateLinear1D t s p)]
  | .interpolateCubic1D => do
    let s ← (xc.lane (-1) 0).bind Val.toInt
    let t ← (xc.lane (-2) i).bind Val.toTable
    let p ← (xc.lane (-3) i).bind Val.toFloat
    pure [.float (K.interpolateCubic1D t s p)]

/-! ## The post-state relation -/

/-- The three output registers are varying with `N` elements each. -/
def Out3.ready (N : Nat) (q : Out3 F H) : Prop :=
  (q.q0.varying = true ∧ q.q0.data.length = N) ∧
  (q.q1.varying = true ∧ q.q1.data.length = N) ∧
  (q.q2.varying = true ∧ q.q2.data.length = N)

/-- The relation between the context before (`xc`) and after (`xc'`) a call:
nothing but the output registers changes, every output register carries the
flag `anyVarying`, has the shape of the register invariant, and holds the
kernel results in the lanes the call computes and the previous contents in the
others. -/
structure Builtin.Post (K : Kernels F H) (b : Builtin) (mask : SimdBoolMask)
    (xc xc' : SimdXContext F H) : Prop where
  regSize_eq : xc'.regSize = xc.regSize
  fp_eq : xc'.stack.fp = xc.stack.fp
  length_eq : xc'.stack.regs.length = xc.stack.regs.length
  frame : ∀ o : Int, o ∉ b.outOffsets →
    xc'.stack.regFpRelative o = xc.stack.regFpRelative o
  outs : ∀ (k : Nat) (o : Int), b.outOffsets[k]? = some o →
    ∃ r r', xc.stack.regFpRelative o = .ok r ∧ xc'.stack.regFpRelative o = .ok r' ∧
      r'.varying = b.anyVarying xc ∧ r'.shaped xc.regSize = true ∧
      (b.anyVarying xc = false →
        ∃ vs v, b.kernelAt K xc 0 = .ok vs ∧ vs[k]? = some v ∧ r'.get 0 = .ok v) ∧
      (b.anyVarying xc = true → ∀ i, i < xc.regSize →
        ∃ a, b.writesLane mask xc i = .ok a ∧
          (a = true → ∃ vs v, b.kernelAt K xc i = .ok vs ∧ vs[k]? = some v ∧
            r'.get i = .ok v) ∧
          (a = false → r'.get i = r.get i))

/-! ## The `lookup1D` kernel -/

/-- The `clamp` of `ImathFun.h`: `a` limited to the interval from `l` to `h`. -/
def clamp {α : Type} [LT α] [DecidableRel (fun x y : α => x < y)] (a l h : α) : α :=
  if a < l then l else if h < a then h else a

/-- The float `table[i]`, read as `0` outside the table. -/
def tableAt (table : List ℚ) (i : Int) : ℚ := table.getD i.toNat 0

/-- Modelled from the spec: the kernel `lookup1D` (`CtlLookupTable.h` is not
part of the sources), with floats taken as exact rationals.  The position is
mapped onto the index space `x = clamp((p - pMin) / (pMax - pMin), 0, 1) *
(size - 1)`, `i = floor(x)`, `f = x - i`, `i` is clamped to `[0, size - 2]`
(or is `size - 1` at the exact upper bound), and the result is
`table[i] * (1 - f) + table[i + 1] * f`; a degenerate range `pMax == pMin`
yields `table[0]`. -/
def lookup1D (table : List ℚ) (size : Int) (pMin pMax p : ℚ) : ℚ :=
  if pMax = pMin then tableAt table 0
  else
    let x : ℚ := clamp ((p - pMin) / (pMax - pMin)) 0 1 * ((size : ℚ) - 1)
    let f : ℚ := x - (⌊x⌋ : ℚ)
    let i : Int := if x = (size : ℚ) - 1 then size - 1 else clamp ⌊x⌋ 0 (size - 2)
    tableAt table i * (1 - f) + tableAt table (i + 1) * f

/-! ## Sample frames -/

/-- Sample kernels over integers, used to run the built-ins on concrete frames. -/
def demoKernels : Kernels Int Int where
  lookup1D := fun t s pMin pMax p => t.sum + s + pMin + pMax + p
  lookup3D := fun t s pMin pMax p =>
    ⟨t.sum + s.x + p.x, pMin.y + s.y + p.y, pMax.z + s.z + p.z⟩
  interpolateLinear1D := fun t s p => t.sum + s + p
  interpolateCubic1D := fun t s p => t.sum * s + p
  halfToFloat := fun h => 2 * h
  floatToHalf := fun x => x / 2

/-- Kernels over the rationals whose `lookup1D` is the kernel modelled above. -/
def demoKernelsQ : Kernels ℚ Int where
  lookup1D := lookup1D
  lookup3D := fun _ _ _ _ p => p
  interpolateLinear1D := fun _ _ p => p
  interpolateCubic1D := fun _ _ p => p
  halfToFloat := fun h => (h : ℚ)
  floatToHalf := fun x => ⌊x⌋

/-- A frame of `lookup1D` with three lanes: `p` varying, the other inputs
uniform, the return register varying. -/
def demoFrame1D : SimdXContext Int Int where
  regSize := 3
  stack :=
    { regs := [⟨true, [.float 7, .float 8, .float 9]⟩,
               ⟨true, [.float 1, .float 2, .float 3]⟩,
               ⟨false, [.float 100]⟩,
               ⟨false, [.float 10]⟩,
               ⟨false, [.table [1, 2]]⟩,
               ⟨false, [.int 2]⟩],
      fp := 6 }

/-- The frame `demoFrame1D` with other contents in the lanes 0 and 1 of `p` and
of the return register. -/
def demoFrame1DAlt : SimdXContext Int Int where
  regSize := 3
  stack :=
    { regs := [⟨true, [.float 0, .float 0, .float 9]⟩,
               ⟨true, [.float 5, .float 6, .float 3]⟩,
               ⟨false, [.float 100]⟩,
               ⟨false, [.float 10]⟩,
               ⟨false, [.table [1, 2]]⟩,
               ⟨false, [.int 2]⟩],
      fp := 6 }

/-- A frame of `lookup1D` in which every register is uniform. -/
def demoUniform1D : SimdXContext Int Int where
  regSize := 3
  stack :=
    { regs := [⟨false, [.float 0]⟩,
               ⟨false, [.float 2]⟩,
               ⟨false, [.float 100]⟩,
               ⟨false, [.float 10]⟩,
               ⟨false, [.table [1, 2]]⟩,
               ⟨false, [.int 2]⟩],
      fp := 6 }

/-- The frame `demoUniform1D` with the same scalars supplied in varying
registers, every lane holding the scalar. -/
def demoReplicated1D : SimdXContext Int Int where
  regSize := 3
  stack :=
    { regs := [⟨true, [.float 7, .float 8, .float 9]⟩,
               ⟨true, [.float 2, .float 2, .float 2]⟩,
               ⟨true, [.float 100, .float 100, .float 100]⟩,
               ⟨true, [.float 10, .float 10, .float 10]⟩,
               ⟨true, [.table [1, 2], .table [1, 2], .table [1, 2]]⟩,
               ⟨false, [.int 2]⟩],
      fp := 6 }

/-- A frame of `lookup3D_f` with two lanes: `p0` varying, the other inputs
uniform, the outputs `q0`, `q1`, `q2` uniform. -/
def demoFrame3D : SimdXContext Int Int where
  regSize := 2
  stack :=
    { regs := [⟨false, [.float 33]⟩,
               ⟨false, [.float 22]⟩,
               ⟨false, [.float 11]⟩,
               ⟨false, [.float 6]⟩,
               ⟨false, [.float 5]⟩,
               ⟨true, [.float 3, .float 4]⟩,
               ⟨false, [.v3f ⟨10, 20, 30⟩]⟩,
               ⟨false, [.v3f ⟨1, 2, 3⟩]⟩,
               ⟨false, [.table [1, 1, 1]]⟩,
               ⟨false, [.int 1]⟩,
               ⟨false, [.int 1]⟩,
               ⟨false, [.int 1]⟩],
      fp := 12 }

/-- A uniform frame of `lookup1D` over the rationals: the table `[0, 1, 2, 3]`
over the range `[0, 3]`, queried at `3 / 2`. -/
def demoLinear1D : SimdXContext ℚ Int where
  regSize := 1
  stack :=
    { regs := [⟨false, [.float 0]⟩,
               ⟨false, [.float (3 / 2)]⟩,
               ⟨false, [.float 3]⟩,
               ⟨false, [.float 0]⟩,
               ⟨false, [.table [0, 1, 2, 3]]⟩,
               ⟨false, [.int 4]⟩],
      fp := 6 }

/-- A varying mask with three lanes, the middle one inactive. -/
def demoMask : SimdBoolMask := ⟨true, [true, false, true]⟩

/-- A varying mask with three lanes, only the last one active. -/
def demoMaskAlt : SimdBoolMask := ⟨true, [false, false, true]⟩

/-- A varying mask with three lanes, all active. -/
def demoMaskAll : SimdBoolMask := ⟨true, [true, true, true]⟩

/-- A varying mask with two lanes, the second one inactive. -/
def demoMaskTwo : SimdBoolMask := ⟨true, [true, false]⟩

/-- The non-varying mask. -/
def demoMaskUniform : SimdBoolMask := ⟨false, [true]⟩

/-! ## The `interpolateLinear1D` kernel -/

/-- The `lerp` of `ImathFun.h`: `a * (1 - t) + b * t`. -/
def lerp (a b t : ℚ) : ℚ := a * (1 - t) + b * t

/-- The `x` of knot `k` of a control-point table, `table[k][0]`. -/
def knotX (table : List ℚ) (k : Nat) : ℚ := tableAt table (2 * (k : Int))

/-- The `y` of knot `k` of a control-point table, `table[k][1]`. -/
def knotY (table : List ℚ) (k : Nat) : ℚ := tableAt table (2 * (k : Int) + 1)

/-- Modelled from the spec: the binary search for the bracketing interval of
`p` between the knots `lo` and `hi`: the interval is halved until it is a
single one, keeping `table[lo].x <= p`. -/
def bracket (table : List ℚ) (p : ℚ) (lo hi : Nat) : Nat :=
  if lo + 1 < hi then
    if knotX table ((lo + hi) / 2) ≤ p then bracket table p ((lo + hi) / 2) hi
    else bracket table p lo ((lo + hi) / 2)
  else lo
termination_by hi - lo
decreasing_by all_goals omega

/-- Modelled from the spec: the kernel `interpolateLinear1D`
(`CtlLookupTable.h` is not part of the sources), with floats taken as exact
rationals.  `p` is clamped to `[table[0].x, table[size-1].x]`, the bracketing
interval `k` with `table[k].x <= p < table[k+1].x` is located by binary
search, and the result is `lerp(table[k].y, table[k+1].y, t)` with
`t = (p - table[k].x) / (table[k+1].x - table[k].x)`. -/
def interpolateLinear1D (table : List ℚ) (size : Int) (p : ℚ) : ℚ :=
  let q : ℚ := clamp p (knotX table 0) (knotX table (size.toNat - 1))
  let k : Nat := bracket table q 0 (size.toNat - 1)
  lerp (knotY table k) (knotY table (k + 1))
    ((q - knotX table k) / (knotX table (k + 1) - knotX table k))


/-! ## Further sample frames -/

/-- A frame of `lookup1D` over the rationals with the degenerate range
`pMin = pMax = 1` and two lanes, `p` varying. -/
def demoDegenerate1D : SimdXContext ℚ Int where
  regSize := 2
  stack :=
    { regs := [⟨false, [.float 0]⟩,
               ⟨true, [.float 5, .float 7]⟩,
               ⟨false, [.float 1]⟩,
               ⟨false, [.float 1]⟩,
               ⟨false, [.table [9, 8]]⟩,
               ⟨false, [.int 2]⟩],
      fp := 6 }

/-- A control-point table with three knots, `[(0,0), (1,10), (2,10)]`. -/
def demoKnots : List ℚ := [0, 0, 1, 10, 2, 10]

/-- Kernels over the rationals whose `interpolateLinear1D` is the kernel modelled
above. -/
def demoKernelsLinear : Kernels ℚ Int where
  lookup1D := lookup1D
  lookup3D := fun _ _ _ _ p => p
  interpolateLinear1D := interpolateLinear1D
  interpolateCubic1D := fun _ _ p => p
  halfToFloat := fun h => (h : ℚ)
  floatToHalf := fun x => ⌊x⌋

/-- A uniform frame of `interpolateLinear1D` over the rationals: the table
`demoKnots`, queried at `1 / 2`. -/
def demoKnotsFrame : SimdXContext ℚ Int where
  regSize := 1
  stack :=
    { regs := [⟨false, [.float 0]⟩,
               ⟨false, [.float (1 / 2)]⟩,
               ⟨false, [.table demoKnots]⟩,
               ⟨false, [.int 3]⟩],
      fp := 4 }

/-- A varying mask with two lanes, both active. -/
def demoMaskTwoAll : SimdBoolMask := ⟨true, [true, true]⟩

/-! ## Further masks, frames and call conditions -/

/-- A non-varying mask whose single element is false. -/
def demoMaskUniformFalse : SimdBoolMask := ⟨false, [false]⟩

/-- The non-varying mask of the spec: a single flag meaning "true for all lanes". -/
def SimdBoolMask.allTrue : SimdBoolMask := ⟨false, [true]⟩

/-- A well-formed frame: the call is well formed under the non-varying all-true
mask, that is, there is at least one lane, the frame registers satisfy the
shape invariant, the size registers are uniform integers and the inputs hold
the element types of the signature. -/
def Builtin.frameWellFormed (b : Builtin) (xc : SimdXContext F H) : Bool :=
  b.wellFormed SimdBoolMask.allTrue xc

/-- A varying mask with three lanes, none active. -/
def demoMaskNone : SimdBoolMask := ⟨true, [false, false, false]⟩

/-- A call that is well formed except that its size registers may be varying:
at least one lane, a mask and frame registers that satisfy the shape
invariants, integer size registers, and inputs whose slots hold the element
type of the signature. -/
def Builtin.wellFormedUpToSizes (b : Builtin) (mask : SimdBoolMask) (xc : SimdXContext F H) :
    Bool :=
  decide (1 ≤ xc.regSize) && mask.shaped xc.regSize &&
  (b.sizeOffsets.all fun o => xc.regOk o fun r => r.data.all (Val.hasTy .int)) &&
  (b.argOffsets.all fun a => xc.regOk a.1 fun r => r.data.all (Val.hasTy a.2)) &&
  (b.outOffsets.all fun o => xc.regOk o fun _ => true)

/-- The frame `demoFrame1D` with a varying size register. -/
def demoVaryingSize1D : SimdXContext Int Int where
  regSize := 3
  stack :=
    { regs := [⟨true, [.float 7, .float 8, .float 9]⟩,
               ⟨true, [.float 1, .float 2, .float 3]⟩,
               ⟨false, [.float 100]⟩,
               ⟨false, [.float 10]⟩,
               ⟨false, [.table [1, 2]]⟩,
               ⟨true, [.int 2, .int 2, .int 2]⟩],
      fp := 6 }

/-- The shape preconditions of a call: at least one lane, a mask and frame
registers that satisfy the shape invariants, and uniform size registers.
Nothing is required of the element types. -/
def Builtin.shapeOk (b : Builtin) (mask : SimdBoolMask) (xc : SimdXContext F H) : Bool :=
  decide (1 ≤ xc.regSize) && mask.shaped xc.regSize &&
  (b.sizeOffsets.all fun o => xc.regOk o fun r => !r.varying) &&
  (b.argOffsets.all fun a => xc.regOk a.1 fun _ => true) &&
  (b.outOffsets.all fun o => xc.regOk o fun _ => true)

/-- A fallible step that does not leave through the out-of-range branch, and
whose result, when there is one, satisfies `P`. -/
def inBounds {α : Type} (P : α → Prop) (x : Except Err α) : Prop :=
  match x with
  | .ok a => P a
  | .error e => e ≠ .outOfRange

/-- The frame of `lookup3D_f3` that corresponds to `demoFrame3D`: the packed
position `p` holds `(p0[i], p1[i], p2[i])` in lane `i`. -/
def demoPacked3D : SimdXContext Int Int where
  regSize := 2
  stack :=
    { regs := [⟨false, [.v3f ⟨11, 22, 33⟩]⟩,
               ⟨true, [.v3f ⟨3, 5, 6⟩, .v3f ⟨4, 5, 6⟩]⟩,
               ⟨false, [.v3f ⟨10, 20, 30⟩]⟩,
               ⟨false, [.v3f ⟨1, 2, 3⟩]⟩,
               ⟨false, [.table [1, 1, 1]]⟩,
               ⟨false, [.int 1]⟩,
               ⟨false, [.int 1]⟩,
               ⟨false, [.int 1]⟩],
      fp := 8 }

/-- A frame of `lookup3D_h` with two lanes: `p0` varying, the other inputs
uniform, the outputs `q0`, `q1`, `q2` uniform. -/
def demoHalf3D : SimdXContext Int Int where
  regSize := 2
  stack :=
    { regs := [⟨false, [.half 33]⟩,
               ⟨false, [.half 22]⟩,
               ⟨false, [.half 11]⟩,
               ⟨false, [.half 4]⟩,
               ⟨false, [.half 3]⟩,
               ⟨true, [.half 1, .half 2]⟩,
               ⟨false, [.v3f ⟨10, 20, 30⟩]⟩,
               ⟨false, [.v3f ⟨1, 2, 3⟩]⟩,
               ⟨false, [.table [1, 1, 1]]⟩,
               ⟨false, [.int 1]⟩,
               ⟨false, [.int 1]⟩,
               ⟨false, [.int 1]⟩],
      fp := 12 }

/-- The frame of `lookup3D_f` that corresponds to `demoHalf3D` under
`demoKernels`: each position holds the half-to-float conversion of the half
position. -/
def demoFloat3D : SimdXContext Int Int where
  regSize := 2
  stack :=
    { regs := [⟨false, [.float 33]⟩,
               ⟨false, [.float 22]⟩,
               ⟨false, [.float 11]⟩,
               ⟨false, [.float 8]⟩,
               ⟨false, [.float 6]⟩,
               ⟨true, [.float 2, .float 4]⟩,
               ⟨false, [.v3f ⟨10, 20, 30⟩]⟩,
               ⟨false, [.v3f ⟨1, 2, 3⟩]⟩,
               ⟨false, [.table [1, 1, 1]]⟩,
               ⟨false, [.int 1]⟩,
               ⟨false, [.int 1]⟩,
               ⟨false, [.int 1]⟩],
      fp := 12 }

/-! ## Basic facts about the `Except` monad, registers and frames -/

@[simp] theorem ok_bind {α β : Type} (a : α) (f : α → Except Err β) :
    (Except.ok a >>= f) = f a := rfl

@[simp] theorem error_bind {α β : Type} (e : Err) (f : α → Except Err β) :
    ((Except.error e : Except Err α) >>= f) = Except.error e := rfl

@[simp] theorem ok_bind_fn {α β : Type} (a : α) (f : α → Except Err β) :
    (Except.ok a : Except Err α).bind f = f a := rfl

@[simp] theorem pure_eq_ok {α : Type} (a : α) : (pure a : Except Err α) = Except.ok a := rfl

@[simp] theorem assert_true : assert true = Except.ok () := rfl

theorem Val.eq_int_of_hasTy {v : Val F H} (h : v.hasTy .int = true) : ∃ n, v = .int n := by
  cases v <;> simp [Val.hasTy] at h ⊢

theorem Val.eq_float_of_hasTy {v : Val F H} (h : v.hasTy .float = true) :
    ∃ x, v = .float x := by
  cases v <;> simp [Val.hasTy] at h ⊢

theorem Val.eq_half_of_hasTy {v : Val F H} (h : v.hasTy .half = true) : ∃ x, v = .half x := by
  cases v <;> simp [Val.hasTy] at h ⊢

theorem Val.eq_v3f_of_hasTy {v : Val F H} (h : v.hasTy .v3f = true) : ∃ x, v = .v3f x := by
  cases v <;> simp [Val.hasTy] at h ⊢

theorem Val.eq_table_of_hasTy {v : Val F H} (h : v.hasTy .table = true) :
    ∃ t, v = .table t := by
  cases v <;> simp [Val.hasTy] at h ⊢

theorem SimdReg.slot_lt {n : Nat} {r : SimdReg F H} (hs : r.shaped n = true) {i : Nat}
    (hi : i < n) : r.slot i < r.data.length := by
  unfold SimdReg.shaped at hs
  unfold SimdReg.slot
  cases hv : r.varying <;> simp [hv] at hs ⊢ <;> omega

/-- In a shaped register every lane below the lane count can be read, and the
element has the type all slots have. -/
theorem SimdReg.get_of_shaped {n : Nat} {r : SimdReg F H} {ty : Ty}
    (hs : r.shaped n = true) (ht : r.data.all (Val.hasTy ty) = true) {i : Nat} (hi : i < n) :
    ∃ v, r.get i = .ok v ∧ v.hasTy ty = true := by
  have hlt := SimdReg.slot_lt hs hi
  refine ⟨r.data[r.slot i], ?_, ?_⟩
  · simp [SimdReg.get, List.getElem?_eq_getElem hlt]
  · exact (List.all_eq_true.mp ht) _ (List.getElem_mem hlt)

theorem SimdReg.getInt_of_shaped {n : Nat} {r : SimdReg F H} (hs : r.shaped n = true)
    (ht : r.data.all (Val.hasTy .int) = true) {i : Nat} (hi : i < n) :
    ∃ x, r.get i = .ok (.int x) := by
  obtain ⟨v, hv, hty⟩ := SimdReg.get_of_shaped hs ht hi
  obtain ⟨x, rfl⟩ := Val.eq_int_of_hasTy hty
  exact ⟨x, hv⟩

theorem SimdReg.getFloat_of_shaped {n : Nat} {r : SimdReg F H} (hs : r.shaped n = true)
    (ht : r.data.all (Val.hasTy .float) = true) {i : Nat} (hi : i < n) :
    ∃ x, r.get i = .ok (.float x) := by
  obtain ⟨v, hv, hty⟩ := SimdReg.get_of_shaped hs ht hi
  obtain ⟨x, rfl⟩ := Val.eq_float_of_hasTy hty
  exact ⟨x, hv⟩

theorem SimdReg.getHalf_of_shaped {n : Nat} {r : SimdReg F H} (hs : r.shaped n = true)
    (ht : r.data.all (Val.hasTy .half) = true) {i : Nat} (hi : i < n) :
    ∃ x, r.get i = .ok (.half x) := by
  obtain ⟨v, hv, hty⟩ := SimdReg.get_of_shaped hs ht hi
  obtain ⟨x, rfl⟩ := Val.eq_half_of_hasTy hty
  exact ⟨x, hv⟩

theorem SimdReg.getV3f_of_shaped {n : Nat} {r : SimdReg F H} (hs : r.shaped n = true)
    (ht : r.data.all (Val.hasTy .v3f) = true) {i : Nat} (hi : i < n) :
    ∃ x, r.get i = .ok (.v3f x) := by
  obtain ⟨v, hv, hty⟩ := SimdReg.get_of_shaped hs ht hi
  obtain ⟨x, rfl⟩ := Val.eq_v3f_of_hasTy hty
  exact ⟨x, hv⟩

theorem SimdReg.getTable_of_shaped {n : Nat} {r : SimdReg F H} (hs : r.shaped n = true)
    (ht : r.data.all (Val.hasTy .table) = true) {i : Nat} (hi : i < n) :
    ∃ x, r.get i = .ok (.table x) := by
  obtain ⟨v, hv, hty⟩ := SimdReg.get_of_shaped hs ht hi
  obtain ⟨x, rfl⟩ := Val.eq_table_of_hasTy hty
  exact ⟨x, hv⟩

/-- A uniform register exposes the same element at every lane. -/
theorem SimdReg.get_uniform {r : SimdReg F H} (hv : r.varying = false) (i : Nat) :
    r.get i = r.get 0 := by
  simp [SimdReg.get, SimdReg.slot, hv]

theorem SimdReg.setVarying_varying (n : Nat) (r : SimdReg F H) (b : Bool) :
    (r.setVarying n b).varying = b := by
  unfold SimdReg.setVarying
  by_cases h : r.varying = b
  · simp [h]
  · cases b <;> simp [h]

theorem SimdReg.setVarying_shaped {n : Nat} {r : SimdReg F H} (hs : r.shaped n = true)
    (hn : 1 ≤ n) (b : Bool) : (r.setVarying n b).shaped n = true := by
  unfold SimdReg.setVarying
  by_cases h : r.varying = b
  · simp [h, hs]
  · unfold SimdReg.shaped at hs ⊢
    cases b
    · have hv : r.varying = true := by simpa using h
      simp [hv] at hs ⊢
      omega
    · have hv : r.varying = false := by simpa using h
      simp only [hv, Bool.false_eq_true, if_false, beq_iff_eq] at hs
      match hd : r.data, hs with
      | [v], _ => simp [hv]

/-- Setting a register varying keeps what every lane below the lane count
exposes. -/
theorem SimdReg.setVarying_true_get {n : Nat} {r : SimdReg F H} (hs : r.shaped n = true)
    {i : Nat} (hi : i < n) : (r.setVarying n true).get i = r.get i := by
  unfold SimdReg.setVarying
  by_cases h : r.varying = true
  · simp [h]
  · have hv : r.varying = false := by simpa using h
    unfold SimdReg.shaped at hs
    simp only [hv, Bool.false_eq_true, if_false, beq_iff_eq] at hs
    match hd : r.data, hs with
    | [v], _ => simp [hv, SimdReg.get, SimdReg.slot, hd, hi]

theorem SimdReg.set_varying {r : SimdReg F H} (hv : r.varying = true) {i : Nat}
    (hi : i < r.data.length) (v : Val F H) :
    r.set i v = .ok { varying := true, data := r.data.set i v } := by
  cases r with
  | mk var data =>
    simp only at hv hi
    subst hv
    simp [SimdReg.set, SimdReg.slot, hi]

theorem SimdReg.get_mk_set (data : List (Val F H)) {i : Nat} (hi : i < data.length)
    (v : Val F H) (j : Nat) :
    (SimdReg.mk true (data.set i v)).get j =
      if j = i then .ok v else (SimdReg.mk true data).get j := by
  by_cases h : j = i
  · subst h
    simp [SimdReg.get, SimdReg.slot, hi]
  · have h' : i ≠ j := fun e => h e.symm
    simp [SimdReg.get, SimdReg.slot, h, List.getElem?_set_ne h']

/-- The store of the all-uniform path. -/
theorem SimdReg.setVarying_false_set {n : Nat} {r : SimdReg F H} (hs : r.shaped n = true)
    (hn : 1 ≤ n) (v : Val F H) :
    ((r.setVarying n false).set 0 v) = .ok { varying := false, data := [v] } := by
  have h1 := SimdReg.setVarying_shaped hs hn false
  have h2 := SimdReg.setVarying_varying n r false
  generalize r.setVarying n false = r' at h1 h2
  cases r' with
  | mk var data =>
    simp only at h2
    subst h2
    unfold SimdReg.shaped at h1
    simp only [Bool.false_eq_true, if_false, beq_iff_eq] at h1
    match data, h1 with
    | [w], _ => simp [SimdReg.set, SimdReg.slot]

/-! ## The lane loop -/

/-- The lane loop over one output register: when the body stores `v` at lane
`i` or leaves the register alone, the loop succeeds, every lane below `n` it
stores to holds the stored value and every other lane is unchanged. -/
theorem forLanes_reg {W : Nat → Bool → Val F H → Prop}
    (body : Nat → SimdReg F H → Except Err (SimdReg F H)) (N : Nat) :
    ∀ (n : Nat) (r0 : SimdReg F H), n ≤ N → r0.varying = true → r0.data.length = N →
      (∀ i, i < n → ∃ a v, W i a v ∧
        ∀ r, body i r = if a = true then r.set i v else .ok r) →
      ∃ r', forLanes body n r0 = .ok r' ∧ r'.varying = true ∧ r'.data.length = N ∧
        (∀ i, i < n → ∃ a v, W i a v ∧ r'.get i = if a = true then .ok v else r0.get i) ∧
        (∀ i, n ≤ i → r'.get i = r0.get i) := by
  intro n
  induction n with
  | zero =>
    intro r0 _ hv hl _
    exact ⟨r0, rfl, hv, hl, fun i hi => absurd hi (Nat.not_lt_zero i), fun _ _ => rfl⟩
  | succ n ih =>
    intro r0 hn hv hl hbody
    obtain ⟨a, v, hW, hb⟩ := hbody n (Nat.lt_succ_self n)
    have hrest : ∀ i, i < n → ∃ a v, W i a v ∧
        ∀ r, body i r = if a = true then r.set i v else .ok r :=
      fun i hi => hbody i (Nat.lt_succ_of_lt hi)
    have hr0 : r0 = SimdReg.mk true r0.data := by
      cases r0 with
      | mk var data =>
        simp only at hv
        subst hv
        rfl
    cases a with
    | false =>
      obtain ⟨r', hrun, hv', hl', hlow, hhigh⟩ := ih r0 (Nat.le_of_succ_le hn) hv hl hrest
      refine ⟨r', ?_, hv', hl', ?_, ?_⟩
      · simp [forLanes, hb, hrun]
      · intro i hi
        rcases Nat.lt_succ_iff_lt_or_eq.mp hi with h | h
        · exact hlow i h
        · subst h
          exact ⟨false, v, hW, by simpa using hhigh i (Nat.le_refl i)⟩
      · intro i hi
        exact hhigh i (Nat.le_of_succ_le hi)
    | true =>
      have hlt : n < r0.data.length := by omega
      have hset := SimdReg.set_varying hv hlt v
      obtain ⟨r', hrun, hv', hl', hlow, hhigh⟩ :=
        ih (SimdReg.mk true (r0.data.set n v)) (Nat.le_of_succ_le hn) rfl
          (by simp [hl]) hrest
      have hget : ∀ j, (SimdReg.mk true (r0.data.set n v)).get j =
          if j = n then .ok v else r0.get j := by
        intro j
        rw [SimdReg.get_mk_set r0.data hlt v j, ← hr0]
      refine ⟨r', ?_, hv', hl', ?_, ?_⟩
      · simp [forLanes, hb, hset, hrun]
      · intro i hi
        rcases Nat.lt_succ_iff_lt_or_eq.mp hi with h | h
        · obtain ⟨a, w, hW', hg⟩ := hlow i h
          refine ⟨a, w, hW', ?_⟩
          rw [hg, hget i, if_neg (Nat.ne_of_lt h)]
        · subst h
          refine ⟨true, v, hW, ?_⟩
          rw [hhigh i (Nat.le_refl i), hget i]
          simp
      · intro i hi
        rw [hhigh i (Nat.le_of_succ_le hi), hget i, if_neg]
        omega

/-- The lane loop over the three output registers of `lookup3D_f` and
`lookup3D_h`: a lane is stored in all three registers or in none. -/
theorem forLanes_out3 {W : Nat → Bool → Val F H → Val F H → Val F H → Prop}
    (body : Nat → Out3 F H → Except Err (Out3 F H)) (N : Nat) :
    ∀ (n : Nat) (q : Out3 F H), n ≤ N → q.ready N →
      (∀ i, i < n → ∃ a v0 v1 v2, W i a v0 v1 v2 ∧
        ∀ q, body i q = if a = true then q.set i v0 v1 v2 else .ok q) →
      ∃ q', forLanes body n q = .ok q' ∧ q'.ready N ∧
        (∀ i, i < n → ∃ a v0 v1 v2, W i a v0 v1 v2 ∧
          (q'.q0.get i = if a = true then .ok v0 else q.q0.get i) ∧
          (q'.q1.get i = if a = true then .ok v1 else q.q1.get i) ∧
          (q'.q2.get i = if a = true then .ok v2 else q.q2.get i)) ∧
        (∀ i, n ≤ i → q'.q0.get i = q.q0.get i ∧ q'.q1.get i = q.q1.get i ∧
          q'.q2.get i = q.q2.get i) := by
  intro n
  induction n with
  | zero =>
    intro q _ hq _
    exact ⟨q, rfl, hq, fun i hi => absurd hi (Nat.not_lt_zero i), fun _ _ => ⟨rfl, rfl, rfl⟩⟩
  | succ n ih =>
    intro q hn hq hbody
    obtain ⟨a, v0, v1, v2, hW, hb⟩ := hbody n (Nat.lt_succ_self n)
    have hrest : ∀ i, i < n → ∃ a v0 v1 v2, W i a v0 v1 v2 ∧
        ∀ q, body i q = if a = true then q.set i v0 v1 v2 else .ok q :=
      fun i hi => hbody i (Nat.lt_succ_of_lt hi)
    obtain ⟨⟨hv0, hl0⟩, ⟨hv1, hl1⟩, ⟨hv2, hl2⟩⟩ := hq
    have hmk : ∀ r : SimdReg F H, r.varying = true → r = SimdReg.mk true r.data := by
      intro r hv
      cases r with
      | mk var data =>
        simp only at hv
        subst hv
        rfl
    cases a with
    | false =>
      obtain ⟨q', hrun, hq', hlow, hhigh⟩ :=
        ih q (Nat.le_of_succ_le hn) ⟨⟨hv0, hl0⟩, ⟨hv1, hl1⟩, ⟨hv2, hl2⟩⟩ hrest
      refine ⟨q', ?_, hq', ?_, ?_⟩
      · simp [forLanes, hb, hrun]
      · intro i hi
        rcases Nat.lt_succ_iff_lt_or_eq.mp hi with h | h
        · exact hlow i h
        · subst h
          exact ⟨false, v0, v1, v2, hW, by simpa using hhigh i (Nat.le_refl i)⟩
      · intro i hi
        exact hhigh i (Nat.le_of_succ_le hi)
    | true =>
      have hlt0 : n < q.q0.data.length := by omega
      have hlt1 : n < q.q1.data.length := by omega
      have hlt2 : n < q.q2.data.length := by omega
      have hset0 := SimdReg.set_varying hv0 hlt0 v0
      have hset1 := SimdReg.set_varying hv1 hlt1 v1
      have hset2 := SimdReg.set_varying hv2 hlt2 v2
      obtain ⟨q', hrun, hq', hlow, hhigh⟩ :=
        ih ⟨SimdReg.mk true (q.q0.data.set n v0), SimdReg.mk true (q.q1.data.set n v1),
            SimdReg.mk true (q.q2.data.set n v2)⟩ (Nat.le_of_succ_le hn)
          ⟨⟨rfl, by simp [hl0]⟩, ⟨rfl, by simp [hl1]⟩, ⟨rfl, by simp [hl2]⟩⟩ hrest
      have hget0 : ∀ j, (SimdReg.mk true (q.q0.data.set n v0)).get j =
          if j = n then .ok v0 else q.q0.get j := by
        intro j
        rw [SimdReg.get_mk_set q.q0.data hlt0 v0 j, ← hmk q.q0 hv0]
      have hget1 : ∀ j, (SimdReg.mk true (q.q1.data.set n v1)).get j =
          if j = n then .ok v1 else q.q1.get j := by
        intro j
        rw [SimdReg.get_mk_set q.q1.data hlt1 v1 j, ← hmk q.q1 hv1]
      have hget2 : ∀ j, (SimdReg.mk true (q.q2.data.set n v2)).get j =
          if j = n then .ok v2 else q.q2.get j := by
        intro j
        rw [SimdReg.get_mk_set q.q2.data hlt2 v2 j, ← hmk q.q2 hv2]
      refine ⟨q', ?_, hq', ?_, ?_⟩
      · simp [forLanes, hb, Out3.set, hset0, hset1, hset2, hrun]
      · intro i hi
        rcases Nat.lt_succ_iff_lt_or_eq.mp hi with h | h
        · obtain ⟨a, w0, w1, w2, hW', hg0, hg1, hg2⟩ := hlow i h
          refine ⟨a, w0, w1, w2, hW', ?_, ?_, ?_⟩
          · rw [hg0, hget0 i, if_neg (Nat.ne_of_lt h)]
          · rw [hg1, hget1 i, if_neg (Nat.ne_of_lt h)]
          · rw [hg2, hget2 i, if_neg (Nat.ne_of_lt h)]
        · subst h
          obtain ⟨h0, h1, h2⟩ := hhigh i (Nat.le_refl i)
          refine ⟨true, v0, v1, v2, hW, ?_, ?_, ?_⟩
          · rw [h0, hget0 i]; simp
          · rw [h1, hget1 i]; simp
          · rw [h2, hget2 i]; simp
      · intro i hi
        obtain ⟨h0, h1, h2⟩ := hhigh i (Nat.le_of_succ_le hi)
        have hne : i ≠ n := by omega
        refine ⟨?_, ?_, ?_⟩
        · rw [h0, hget0 i, if_neg hne]
        · rw [h1, hget1 i, if_neg hne]
        · rw [h2, hget2 i, if_neg hne]

/-! ## Frame addressing -/

@[simp] theorem SimdStack.setRegFpRelative_fp (s : SimdStack F H) (o : Int) (r : SimdReg F H) :
    (s.setRegFpRelative o r).fp = s.fp := by
  unfold SimdStack.setRegFpRelative
  split <;> rfl

@[simp] theorem SimdStack.setRegFpRelative_length (s : SimdStack F H) (o : Int)
    (r : SimdReg F H) : (s.setRegFpRelative o r).regs.length = s.regs.length := by
  unfold SimdStack.setRegFpRelative
  split <;> simp

/-- Storing a register at one frame offset leaves every other offset alone. -/
theorem SimdStack.regFpRelative_set_other (s : SimdStack F H) {o o' : Int} (h : o ≠ o')
    (r : SimdReg F H) : (s.setRegFpRelative o r).regFpRelative o' = s.regFpRelative o' := by
  unfold SimdStack.regFpRelative
  rw [SimdStack.setRegFpRelative_fp]
  by_cases h' : 0 ≤ (s.fp : Int) + o'
  · simp only [h', if_true]
    unfold SimdStack.setRegFpRelative
    by_cases ho : 0 ≤ (s.fp : Int) + o
    · simp only [ho, if_true]
      have hne : ((s.fp : Int) + o).toNat ≠ ((s.fp : Int) + o').toNat := by omega
      rw [List.getElem?_set_ne hne]
    · simp only [ho, if_false]
  · simp only [h', if_false]

/-- Storing a register at a valid frame offset and reading it back. -/
theorem SimdStack.regFpRelative_set_same (s : SimdStack F H) {o : Int} {r0 : SimdReg F H}
    (h : s.regFpRelative o = .ok r0) (r : SimdReg F H) :
    (s.setRegFpRelative o r).regFpRelative o = .ok r := by
  unfold SimdStack.regFpRelative at h ⊢
  rw [SimdStack.setRegFpRelative_fp]
  by_cases h' : 0 ≤ (s.fp : Int) + o
  · simp only [h', if_true] at h ⊢
    unfold SimdStack.setRegFpRelative
    simp only [h', if_true]
    have hlt : ((s.fp : Int) + o).toNat < s.regs.length := by
      by_contra hc
      rw [List.getElem?_eq_none (Nat.le_of_not_lt hc)] at h
      simp at h
    simp [List.getElem?_set_self, hlt]
  · simp [h'] at h

theorem SimdXContext.regOk_iff (xc : SimdXContext F H) (o : Int) (P : SimdReg F H → Bool) :
    xc.regOk o P = true ↔
      ∃ r, xc.stack.regFpRelative o = .ok r ∧ r.shaped xc.regSize = true ∧ P r = true := by
  unfold SimdXContext.regOk
  cases h : xc.stack.regFpRelative o with
  | ok r => simp
  | error e => simp

/-! ## The post-state of each built-in -/

theorem SimdBoolMask.getMask_of_shaped {n : Nat} {m : SimdBoolMask} (hs : m.shaped n = true)
    {i : Nat} (hi : i < n) : ∃ a, m.get i = .ok a := by
  unfold SimdBoolMask.shaped at hs
  unfold SimdBoolMask.get
  have hlt : (if m.varying = true then i else 0) < m.data.length := by
    cases hv : m.varying <;> simp [hv] at hs ⊢ <;> omega
  exact ⟨m.data[if m.varying = true then i else 0], by
    simp [List.getElem?_eq_getElem hlt]⟩

theorem bind_ok_exists {α β : Type} {x : Except Err α} {k : α → Except Err β}
    {P : β → Prop} {Q : α → Prop} (hx : ∃ a, x = .ok a ∧ Q a)
    (hk : ∀ a, Q a → ∃ b, k a = .ok b ∧ P b) : ∃ b, (x >>= k) = .ok b ∧ P b := by
  obtain ⟨a, rfl, ha⟩ := hx
  exact hk a ha

/-- The post-state of a built-in with one output register. -/
theorem Builtin.Post.of_single (K : Kernels F H) (b : Builtin) (mask : SimdBoolMask)
    (xc : SimdXContext F H) (o : Int) (hout : b.outOffsets = [o]) (r r' : SimdReg F H)
    (hr : xc.stack.regFpRelative o = .ok r)
    (hflag : r'.varying = b.anyVarying xc) (hshape : r'.shaped xc.regSize = true)
    (huni : b.anyVarying xc = false →
      ∃ v, b.kernelAt K xc 0 = .ok [v] ∧ r'.get 0 = .ok v)
    (hvar : b.anyVarying xc = true → ∀ i, i < xc.regSize →
      ∃ a v, (b.writesLane mask xc i = .ok a ∧ (a = true → b.kernelAt K xc i = .ok [v])) ∧
        r'.get i = if a = true then .ok v else r.get i) :
    Builtin.Post K b mask xc (xc.setRegFpRelative o r') where
  regSize_eq := rfl
  fp_eq := by simp [SimdXContext.setRegFpRelative]
  length_eq := by simp [SimdXContext.setRegFpRelative]
  frame := by
    intro o' ho'
    rw [hout] at ho'
    have hne : o ≠ o' := by
      intro e
      exact ho' (by simp [e])
    exact SimdStack.regFpRelative_set_other _ hne _
  outs := by
    intro k o' hk
    rw [hout] at hk
    match k, hk with
    | 0, hk =>
      simp only [List.getElem?_cons_zero, Option.some.injEq] at hk
      subst hk
      refine ⟨r, r', hr, SimdStack.regFpRelative_set_same _ hr _, hflag, hshape, ?_, ?_⟩
      · intro h
        obtain ⟨v, hk, hg⟩ := huni h
        exact ⟨[v], v, hk, rfl, hg⟩
      · intro h i hi
        obtain ⟨a, v, ⟨hw, hk⟩, hg⟩ := hvar h i hi
        refine ⟨a, hw, ?_, ?_⟩
        · intro ha
          exact ⟨[v], v, hk ha, rfl, by simpa [ha] using hg⟩
        · intro ha
          simpa [ha] using hg

theorem simdLookup1D_post (K : Kernels F H) (mask : SimdBoolMask) (xc : SimdXContext F H)
    (h : Builtin.wellFormed .lookup1D mask xc = true) :
    ∃ xc', simdLookup1D K mask xc = .ok xc' ∧ Builtin.Post K .lookup1D mask xc xc' := by
  simp only [Builtin.wellFormed, Builtin.sizeOffsets, Builtin.argOffsets, Builtin.outOffsets,
    List.all_cons, List.all_nil, Bool.and_true, Bool.and_eq_true, decide_eq_true_eq,
    SimdXContext.regOk_iff, Bool.not_eq_true'] at h
  obtain ⟨⟨⟨⟨hn, hm⟩, size, hsz, hszs, hszv, hszt⟩, ⟨table, ht, hts, htt⟩, ⟨pMin, hpm, hpms, hpmt⟩,
    ⟨pMax, hpx, hpxs, hpxt⟩, p, hp, hps, hpt⟩, rv, hrv, hrvs, -⟩ := h
  have h0 : 0 < xc.regSize := hn
  obtain ⟨s, hs⟩ := SimdReg.getInt_of_shaped hszs hszt h0
  have hany : Builtin.anyVarying .lookup1D xc =
      (table.isVarying || pMin.isVarying || pMax.isVarying || p.isVarying) := by
    simp [Builtin.anyVarying, Builtin.argOffsets, SimdXContext.flag, ht, hpm, hpx, hp,
      SimdReg.isVarying, Bool.or_assoc]
  have hfast : ∀ m : SimdBoolMask, Builtin.fastPath .lookup1D m xc =
      (!m.isVarying && !table.isVarying && !pMin.isVarying && !pMax.isVarying) := by
    intro m
    simp [Builtin.fastPath, SimdXContext.flag, ht, hpm, hpx, SimdReg.isVarying,
      SimdBoolMask.isVarying, Bool.and_assoc]
  unfold simdLookup1D
  simp only [hsz, ht, hpm, hpx, hp, hrv, ok_bind, SimdReg.isVarying, hszv, Bool.not_false,
    assert_true, SimdReg.getInt, hs, ok_bind_fn, Val.toInt]
  have hrv0v := SimdReg.setVarying_varying xc.regSize rv true
  have hrv0s := SimdReg.setVarying_shaped hrvs hn true
  have hrv0l : (rv.setVarying xc.regSize true).data.length = xc.regSize := by
    simpa [SimdReg.shaped, hrv0v] using hrv0s
  have hlanes : ∀ i, i < xc.regSize → ∃ t a b x, table.get i = .ok (.table t) ∧
      pMin.get i = .ok (.float a) ∧ pMax.get i = .ok (.float b) ∧ p.get i = .ok (.float x) := by
    intro i hi
    obtain ⟨t, ht'⟩ := SimdReg.getTable_of_shaped hts htt hi
    obtain ⟨a, ha'⟩ := SimdReg.getFloat_of_shaped hpms hpmt hi
    obtain ⟨b, hb'⟩ := SimdReg.getFloat_of_shaped hpxs hpxt hi
    obtain ⟨x, hx'⟩ := SimdReg.getFloat_of_shaped hps hpt hi
    exact ⟨t, a, b, x, ht', ha', hb', hx'⟩
  have hkernel : ∀ i t a b x, table.get i = .ok (.table t) →
      pMin.get i = .ok (.float a) → pMax.get i = .ok (.float b) → p.get i = .ok (.float x) →
      Builtin.kernelAt K .lookup1D xc i = .ok [.float (K.lookup1D t s a b x)] := by
    intro i t a b x h1 h2 h3 h4
    simp [Builtin.kernelAt, SimdXContext.lane, hsz, ht, hpm, hpx, hp, hs, h1, h2, h3, h4,
      Val.toInt, Val.toTable, Val.toFloat]
  by_cases hA : (table.varying || pMin.varying || pMax.varying || p.varying) = true
  · rw [if_pos hA]
    by_cases hF : (!mask.isVarying && !table.varying && !pMin.varying && !pMax.varying) = true
    · rw [if_pos hF]
      have hF' := hF
      simp only [Bool.and_eq_true, Bool.not_eq_true'] at hF'
      obtain ⟨⟨⟨-, htv⟩, hpmv⟩, hpxv⟩ := hF'
      obtain ⟨t0, a0, b0, -, ht0, ha0, hb0, -⟩ := hlanes 0 h0
      simp only [SimdReg.getTable, SimdReg.getFloat, ht0, ha0, hb0, ok_bind, ok_bind_fn,
        Val.toTable, Val.toFloat]
      refine bind_ok_exists (forLanes_reg
        (W := fun i a v => Builtin.writesLane .lookup1D mask xc i = .ok a ∧
          (a = true → Builtin.kernelAt K .lookup1D xc i = .ok [v]))
        _ xc.regSize xc.regSize _ (Nat.le_refl _) hrv0v hrv0l ?_) ?_
      · intro i hi
        obtain ⟨t, a, b, x, ht', ha', hb', hx'⟩ := hlanes i hi
        rw [SimdReg.get_uniform htv i, ht0] at ht'
        rw [SimdReg.get_uniform hpmv i, ha0] at ha'
        rw [SimdReg.get_uniform hpxv i, hb0] at hb'
        cases ht'
        cases ha'
        cases hb'
        refine ⟨true, .float (K.lookup1D t0 s a0 b0 x), ⟨?_, fun _ => ?_⟩, ?_⟩
        · simp [Builtin.writesLane, hfast, SimdReg.isVarying, hF]
        · apply hkernel i t0 a0 b0 x
          · rw [SimdReg.get_uniform htv i, ht0]
          · rw [SimdReg.get_uniform hpmv i, ha0]
          · rw [SimdReg.get_uniform hpxv i, hb0]
          · exact hx'
        · intro r
          simp [hx', Val.toFloat]
      · rintro r' ⟨hv', hl', hlow, -⟩
        refine ⟨_, rfl, Builtin.Post.of_single K .lookup1D mask xc (-6) rfl rv r' hrv ?_ ?_ ?_ ?_⟩
        · rw [hv', hany]; simp [SimdReg.isVarying, hA]
        · simp [SimdReg.shaped, hv', hl']
        · intro hc
          rw [hany] at hc
          simp [SimdReg.isVarying, hA] at hc
        · intro _ i hi
          obtain ⟨a, v, hW, hg⟩ := hlow i hi
          exact ⟨a, v, hW, by rw [hg, SimdReg.setVarying_true_get hrvs hi]⟩
    · rw [if_neg hF]
      refine bind_ok_exists (forLanes_reg
        (W := fun i a v => Builtin.writesLane .lookup1D mask xc i = .ok a ∧
          (a = true → Builtin.kernelAt K .lookup1D xc i = .ok [v]))
        _ xc.regSize xc.regSize _ (Nat.le_refl _) hrv0v hrv0l ?_) ?_
      · intro i hi
        obtain ⟨t, a, b, x, ht', ha', hb', hx'⟩ := hlanes i hi
        obtain ⟨m, hm'⟩ := SimdBoolMask.getMask_of_shaped hm hi
        refine ⟨m, .float (K.lookup1D t s a b x), ⟨?_, fun _ => ?_⟩, ?_⟩
        · simp [Builtin.writesLane, hfast, SimdReg.isVarying, hF, hm']
        · exact hkernel i t a b x ht' ha' hb' hx'
        · intro r
          simp [hm', SimdReg.getTable, SimdReg.getFloat, ht', ha', hb', hx', Val.toFloat,
            Val.toTable]
      · rintro r' ⟨hv', hl', hlow, -⟩
        refine ⟨_, rfl, Builtin.Post.of_single K .lookup1D mask xc (-6) rfl rv r' hrv ?_ ?_ ?_ ?_⟩
        · rw [hv', hany]; simp [SimdReg.isVarying, hA]
        · simp [SimdReg.shaped, hv', hl']
        · intro hc
          rw [hany] at hc
          simp [SimdReg.isVarying, hA] at hc
        · intro _ i hi
          obtain ⟨a, v, hW, hg⟩ := hlow i hi
          exact ⟨a, v, hW, by rw [hg, SimdReg.setVarying_true_get hrvs hi]⟩
  · rw [if_neg hA]
    obtain ⟨t0, a0, b0, x0, ht0, ha0, hb0, hx0⟩ := hlanes 0 h0
    simp only [SimdReg.getTable, SimdReg.getFloat, ht0, ha0, hb0, hx0, ok_bind, ok_bind_fn,
      Val.toTable, Val.toFloat, SimdReg.setVarying_false_set hrvs hn, pure_eq_ok]
    refine ⟨_, rfl, Builtin.Post.of_single K .lookup1D mask xc (-6) rfl rv _ hrv ?_ ?_ ?_ ?_⟩
    · rw [hany]; simp [SimdReg.isVarying, hA]
    · simp [SimdReg.shaped]
    · intro _
      exact ⟨_, hkernel 0 t0 a0 b0 x0 ht0 ha0 hb0 hx0, by simp [SimdReg.get, SimdReg.slot]⟩
    · intro hc
      rw [hany] at hc
      simp [SimdReg.isVarying, hA] at hc

theorem simdInterpolateLinear1D_post (K : Kernels F H) (mask : SimdBoolMask)
    (xc : SimdXContext F H) (h : Builtin.wellFormed .interpolateLinear1D mask xc = true) :
    ∃ xc', simdInterpolateLinear1D K mask xc = .ok xc' ∧
      Builtin.Post K .interpolateLinear1D mask xc xc' := by
  simp only [Builtin.wellFormed, Builtin.sizeOffsets, Builtin.argOffsets, Builtin.outOffsets,
    List.all_cons, List.all_nil, Bool.and_true, Bool.and_eq_true, decide_eq_true_eq,
    SimdXContext.regOk_iff, Bool.not_eq_true'] at h
  obtain ⟨⟨⟨⟨hn, hm⟩, size, hsz, hszs, hszv, hszt⟩, ⟨table, ht, hts, htt⟩, p, hp, hps, hpt⟩,
    rv, hrv, hrvs, -⟩ := h
  have h0 : 0 < xc.regSize := hn
  obtain ⟨s, hs⟩ := SimdReg.getInt_of_shaped hszs hszt h0
  have hany : Builtin.anyVarying .interpolateLinear1D xc =
      (table.isVarying || p.isVarying) := by
    simp [Builtin.anyVarying, Builtin.argOffsets, SimdXContext.flag, ht, hp, SimdReg.isVarying]
  have hfast : ∀ m : SimdBoolMask, Builtin.fastPath .interpolateLinear1D m xc =
      (!m.isVarying && !table.isVarying) := by
    intro m
    simp [Builtin.fastPath, SimdXContext.flag, ht, SimdReg.isVarying, SimdBoolMask.isVarying]
  unfold simdInterpolateLinear1D
  simp only [hsz, ht, hp, hrv, ok_bind, SimdReg.isVarying, hszv, Bool.not_false,
    assert_true, SimdReg.getInt, hs, ok_bind_fn, Val.toInt]
  have hrv0v := SimdReg.setVarying_varying xc.regSize rv true
  have hrv0s := SimdReg.setVarying_shaped hrvs hn true
  have hrv0l : (rv.setVarying xc.regSize true).data.length = xc.regSize := by
    simpa [SimdReg.shaped, hrv0v] using hrv0s
  have hlanes : ∀ i, i < xc.regSize → ∃ t x, table.get i = .ok (.table t) ∧
      p.get i = .ok (.float x) := by
    intro i hi
    obtain ⟨t, ht'⟩ := SimdReg.getTable_of_shaped hts htt hi
    obtain ⟨x, hx'⟩ := SimdReg.getFloat_of_shaped hps hpt hi
    exact ⟨t, x, ht', hx'⟩
  have hkernel : ∀ i t x, table.get i = .ok (.table t) → p.get i = .ok (.float x) →
      Builtin.kernelAt K .interpolateLinear1D xc i =
        .ok [.float (K.interpolateLinear1D t s x)] := by
    intro i t x h1 h4
    simp [Builtin.kernelAt, SimdXContext.lane, hsz, ht, hp, hs, h1, h4,
      Val.toInt, Val.toTable, Val.toFloat]
  by_cases hA : (table.varying || p.varying) = true
  · rw [if_pos hA]
    by_cases hF : (!mask.isVarying && !table.varying) = true
    · rw [if_pos hF]
      have hF' := hF
      simp only [Bool.and_eq_true, Bool.not_eq_true'] at hF'
      obtain ⟨-, htv⟩ := hF'
      obtain ⟨t0, -, ht0, -⟩ := hlanes 0 h0
      simp only [SimdReg.getTable, SimdReg.getFloat, ht0, ok_bind, ok_bind_fn,
        Val.toTable, Val.toFloat]
      refine bind_ok_exists (forLanes_reg
        (W := fun i a v => Builtin.writesLane .interpolateLinear1D mask xc i = .ok a ∧
          (a = true → Builtin.kernelAt K .interpolateLinear1D xc i = .ok [v]))
        _ xc.regSize xc.regSize _ (Nat.le_refl _) hrv0v hrv0l ?_) ?_
      · intro i hi
        obtain ⟨t, x, ht', hx'⟩ := hlanes i hi
        refine ⟨true, .float (K.interpolateLinear1D t0 s x), ⟨?_, fun _ => ?_⟩, ?_⟩
        · simp [Builtin.writesLane, hfast, SimdReg.isVarying, hF]
        · apply hkernel i t0 x
          · rw [SimdReg.get_uniform htv i, ht0]
          · exact hx'
        · intro r
          simp [hx', Val.toFloat]
      · rintro r' ⟨hv', hl', hlow, -⟩
        refine ⟨_, rfl,
          Builtin.Post.of_single K .interpolateLinear1D mask xc (-4) rfl rv r' hrv ?_ ?_ ?_ ?_⟩
        · rw [hv', hany]; simp [SimdReg.isVarying, hA]
        · simp [SimdReg.shaped, hv', hl']
        · intro hc
          rw [hany] at hc
          simp [SimdReg.isVarying, hA] at hc
        · intro _ i hi
          obtain ⟨a, v, hW, hg⟩ := hlow i hi
          exact ⟨a, v, hW, by rw [hg, SimdReg.setVarying_true_get hrvs hi]⟩
    · rw [if_neg hF]
      refine bind_ok_exists (forLanes_reg
        (W := fun i a v => Builtin.writesLane .interpolateLinear1D mask xc i = .ok a ∧
          (a = true → Builtin.kernelAt K .interpolateLinear1D xc i = .ok [v]))
        _ xc.regSize xc.regSize _ (Nat.le_refl _) hrv0v hrv0l ?_) ?_
      · intro i hi
        obtain ⟨t, x, ht', hx'⟩ := hlanes i hi
        obtain ⟨m, hm'⟩ := SimdBoolMask.getMask_of_shaped hm hi
        refine ⟨m, .float (K.interpolateLinear1D t s x), ⟨?_, fun _ => ?_⟩, ?_⟩
        · simp [Builtin.writesLane, hfast, SimdReg.isVarying, hF, hm']
        · exact hkernel i t x ht' hx'
        · intro r
          simp [hm', SimdReg.getTable, SimdReg.getFloat, ht', hx', Val.toFloat, Val.toTable]
      · rintro r' ⟨hv', hl', hlow, -⟩
        refine ⟨_, rfl,
          Builtin.Post.of_single K .interpolateLinear1D mask xc (-4) rfl rv r' hrv ?_ ?_ ?_ ?_⟩
        · rw [hv', hany]; simp [SimdReg.isVarying, hA]
        · simp [SimdReg.shaped, hv', hl']
        · intro hc
          rw [hany] at hc
          simp [SimdReg.isVarying, hA] at hc
        · intro _ i hi
          obtain ⟨a, v, hW, hg⟩ := hlow i hi
          exact ⟨a, v, hW, by rw [hg, SimdReg.setVarying_true_get hrvs hi]⟩
  · rw [if_neg hA]
    obtain ⟨t0, x0, ht0, hx0⟩ := hlanes 0 h0
    simp only [SimdReg.getTable, SimdReg.getFloat, ht0, hx0, ok_bind, ok_bind_fn,
      Val.toTable, Val.toFloat, SimdReg.setVarying_false_set hrvs hn, pure_eq_ok]
    refine ⟨_, rfl,
      Builtin.Post.of_single K .interpolateLinear1D mask xc (-4) rfl rv _ hrv ?_ ?_ ?_ ?_⟩
    · rw [hany]; simp [SimdReg.isVarying, hA]
    · simp [SimdReg.shaped]
    · intro _
      exact ⟨_, hkernel 0 t0 x0 ht0 hx0, by simp [SimdReg.get, SimdReg.slot]⟩
    · intro hc
      rw [hany] at hc
      simp [SimdReg.isVarying, hA] at hc

theorem simdInterpolateCubic1D_post (K : Kernels F H) (mask : SimdBoolMask)
    (xc : SimdXContext F H) (h : Builtin.wellFormed .interpolateCubic1D mask xc = true) :
    ∃ xc', simdInterpolateCubic1D K mask xc = .ok xc' ∧
      Builtin.Post K .interpolateCubic1D mask xc xc' := by
  simp only [Builtin.wellFormed, Builtin.sizeOffsets, Builtin.argOffsets, Builtin.outOffsets,
    List.all_cons, List.all_nil, Bool.and_true, Bool.and_eq_true, decide_eq_true_eq,
    SimdXContext.regOk_iff, Bool.not_eq_true'] at h
  obtain ⟨⟨⟨⟨hn, hm⟩, size, hsz, hszs, hszv, hszt⟩, ⟨table, ht, hts, htt⟩, p, hp, hps, hpt⟩,
    rv, hrv, hrvs, -⟩ := h
  have h0 : 0 < xc.regSize := hn
  obtain ⟨s, hs⟩ := SimdReg.getInt_of_shaped hszs hszt h0
  have hany : Builtin.anyVarying .interpolateCubic1D xc =
      (table.isVarying || p.isVarying) := by
    simp [Builtin.anyVarying, Builtin.argOffsets, SimdXContext.flag, ht, hp, SimdReg.isVarying]
  have hfast : ∀ m : SimdBoolMask, Builtin.fastPath .interpolateCubic1D m xc =
      (!m.isVarying && !table.isVarying) := by
    intro m
    simp [Builtin.fastPath, SimdXContext.flag, ht, SimdReg.isVarying, SimdBoolMask.isVarying]
  unfold simdInterpolateCubic1D
  simp only [hsz, ht, hp, hrv, ok_bind, SimdReg.isVarying, hszv, Bool.not_false,
    assert_true, SimdReg.getInt, hs, ok_bind_fn, Val.toInt]
  have hrv0v := SimdReg.setVarying_varying xc.regSize rv true
  have hrv0s := SimdReg.setVarying_shaped hrvs hn true
  have hrv0l : (rv.setVarying xc.regSize true).data.length = xc.regSize := by
    simpa [SimdReg.shaped, hrv0v] using hrv0s
  have hlanes : ∀ i, i < xc.regSize → ∃ t x, table.get i = .ok (.table t) ∧
      p.get i = .ok (.float x) := by
    intro i hi
    obtain ⟨t, ht'⟩ := SimdReg.getTable_of_shaped hts htt hi
    obtain ⟨x, hx'⟩ := SimdReg.getFloat_of_shaped hps hpt hi
    exact ⟨t, x, ht', hx'⟩
  have hkernel : ∀ i t x, table.get i = .ok (.table t) → p.get i = .ok (.float x) →
      Builtin.kernelAt K .interpolateCubic1D xc i =
        .ok [.float (K.interpolateCubic1D t s x)] := by
    intro i t x h1 h4
    simp [Builtin.kernelAt, SimdXContext.lane, hsz, ht, hp, hs, h1, h4,
      Val.toInt, Val.toTable, Val.toFloat]
  by_cases hA : (table.varying || p.varying) = true
  · rw [if_pos hA]
    by_cases hF : (!mask.isVarying && !table.varying) = true
    · rw [if_pos hF]
      have hF' := hF
      simp only [Bool.and_eq_true, Bool.not_eq_true'] at hF'
      obtain ⟨-, htv⟩ := hF'
      obtain ⟨t0, -, ht0, -⟩ := hlanes 0 h0
      simp only [SimdReg.getTable, SimdReg.getFloat, ht0, ok_bind, ok_bind_fn,
        Val.toTable, Val.toFloat]
      refine bind_ok_exists (forLanes_reg
        (W := fun i a v => Builtin.writesLane .interpolateCubic1D mask xc i = .ok a ∧
          (a = true → Builtin.kernelAt K .interpolateCubic1D xc i = .ok [v]))
        _ xc.regSize xc.regSize _ (Nat.le_refl _) hrv0v hrv0l ?_) ?_
      · intro i hi
        obtain ⟨t, x, ht', hx'⟩ := hlanes i hi
        refine ⟨true, .float (K.interpolateCubic1D t0 s x), ⟨?_, fun _ => ?_⟩, ?_⟩
        · simp [Builtin.writesLane, hfast, SimdReg.isVarying, hF]
        · apply hkernel i t0 x
          · rw [SimdReg.get_uniform htv i, ht0]
          · exact hx'
        · intro r
          simp [hx', Val.toFloat]
      · rintro r' ⟨hv', hl', hlow, -⟩
        refine ⟨_, rfl,
          Builtin.Post.of_single K .interpolateCubic1D mask xc (-4) rfl rv r' hrv ?_ ?_ ?_ ?_⟩
        · rw [hv', hany]; simp [SimdReg.isVarying, hA]
        · simp [SimdReg.shaped, hv', hl']
        · intro hc
          rw [hany] at hc
          simp [SimdReg.isVarying, hA] at hc
        · intro _ i hi
          obtain ⟨a, v, hW, hg⟩ := hlow i hi
          exact ⟨a, v, hW, by rw [hg, SimdReg.setVarying_true_get hrvs hi]⟩
    · rw [if_neg hF]
      refine bind_ok_exists (forLanes_reg
        (W := fun i a v => Builtin.writesLane .interpolateCubic1D mask xc i = .ok a ∧
          (a = true → Builtin.kernelAt K .interpolateCubic1D xc i = .ok [v]))
        _ xc.regSize xc.regSize _ (Nat.le_refl _) hrv0v hrv0l ?_) ?_
      · intro i hi
        obtain ⟨t, x, ht', hx'⟩ := hlanes i hi
        obtain ⟨m, hm'⟩ := SimdBoolMask.getMask_of_shaped hm hi
        refine ⟨m, .float (K.interpolateCubic1D t s x), ⟨?_, fun _ => ?_⟩, ?_⟩
        · simp [Builtin.writesLane, hfast, SimdReg.isVarying, hF, hm']
        · exact hkernel i t x ht' hx'
        · intro r
          simp [hm', SimdReg.getTable, SimdReg.getFloat, ht', hx', Val.toFloat, Val.toTable]
      · rintro r' ⟨hv', hl', hlow, -⟩
        refine ⟨_, rfl,
          Builtin.Post.of_single K .interpolateCubic1D mask xc (-4) rfl rv r' hrv ?_ ?_ ?_ ?_⟩
        · rw [hv', hany]; simp [SimdReg.isVarying, hA]
        · simp [SimdReg.shaped, hv', hl']
        · intro hc
          rw [hany] at hc
          simp [SimdReg.isVarying, hA] at hc
        · intro _ i hi
          obtain ⟨a, v, hW, hg⟩ := hlow i hi
          exact ⟨a, v, hW, by rw [hg, SimdReg.setVarying_true_get hrvs hi]⟩
  · rw [if_neg hA]
    obtain ⟨t0, x0, ht0, hx0⟩ := hlanes 0 h0
    simp only [SimdReg.getTable, SimdReg.getFloat, ht0, hx0, ok_bind, ok_bind_fn,
      Val.toTable, Val.toFloat, SimdReg.setVarying_false_set hrvs hn, pure_eq_ok]
    refine ⟨_, rfl,
      Builtin.Post.of_single K .interpolateCubic1D mask xc (-4) rfl rv _ hrv ?_ ?_ ?_ ?_⟩
    · rw [hany]; simp [SimdReg.isVarying, hA]
    · simp [SimdReg.shaped]
    · intro _
      exact ⟨_, hkernel 0 t0 x0 ht0 hx0, by simp [SimdReg.get, SimdReg.slot]⟩
    · intro hc
      rw [hany] at hc
      simp [SimdReg.isVarying, hA] at hc

theorem simdLookup3D_f3_post (K : Kernels F H) (mask : SimdBoolMask) (xc : SimdXContext F H)
    (h : Builtin.wellFormed .lookup3D_f3 mask xc = true) :
    ∃ xc', simdLookup3D_f3 K mask xc = .ok xc' ∧ Builtin.Post K .lookup3D_f3 mask xc xc' := by
  simp only [Builtin.wellFormed, Builtin.sizeOffsets, Builtin.argOffsets, Builtin.outOffsets,
    List.all_cons, List.all_nil, Bool.and_true, Bool.and_eq_true, decide_eq_true_eq,
    SimdXContext.regOk_iff, Bool.not_eq_true'] at h
  obtain ⟨⟨⟨⟨hn, hm⟩, ⟨size0, hsz0, hsz0s, hsz0v, hsz0t⟩, ⟨size1, hsz1, hsz1s, hsz1v, hsz1t⟩,
    size2, hsz2, hsz2s, hsz2v, hsz2t⟩, ⟨table, ht, hts, htt⟩, ⟨pMin, hpm, hpms, hpmt⟩,
    ⟨pMax, hpx, hpxs, hpxt⟩, p, hp, hps, hpt⟩, rv, hrv, hrvs, -⟩ := h
  have h0 : 0 < xc.regSize := hn
  obtain ⟨s0, hs0⟩ := SimdReg.getInt_of_shaped hsz0s hsz0t h0
  obtain ⟨s1, hs1⟩ := SimdReg.getInt_of_shaped hsz1s hsz1t h0
  obtain ⟨s2, hs2⟩ := SimdReg.getInt_of_shaped hsz2s hsz2t h0
  have hany : Builtin.anyVarying .lookup3D_f3 xc =
      (table.isVarying || pMin.isVarying || pMax.isVarying || p.isVarying) := by
    simp [Builtin.anyVarying, Builtin.argOffsets, SimdXContext.flag, ht, hpm, hpx, hp,
      SimdReg.isVarying, Bool.or_assoc]
  unfold simdLookup3D_f3
  simp only [hsz0, hsz1, hsz2, ht, hpm, hpx, hp, hrv, ok_bind, SimdReg.isVarying, hsz0v,
    hsz1v, hsz2v, Bool.not_false, Bool.and_self, assert_true, SimdReg.getInt, hs0, hs1, hs2,
    ok_bind_fn, Val.toInt]
  have hrv0v := SimdReg.setVarying_varying xc.regSize rv true
  have hrv0s := SimdReg.setVarying_shaped hrvs hn true
  have hrv0l : (rv.setVarying xc.regSize true).data.length = xc.regSize := by
    simpa [SimdReg.shaped, hrv0v] using hrv0s
  have hlanes : ∀ i, i < xc.regSize → ∃ t a b x, table.get i = .ok (.table t) ∧
      pMin.get i = .ok (.v3f a) ∧ pMax.get i = .ok (.v3f b) ∧ p.get i = .ok (.v3f x) := by
    intro i hi
    obtain ⟨t, ht'⟩ := SimdReg.getTable_of_shaped hts htt hi
    obtain ⟨a, ha'⟩ := SimdReg.getV3f_of_shaped hpms hpmt hi
    obtain ⟨b, hb'⟩ := SimdReg.getV3f_of_shaped hpxs hpxt hi
    obtain ⟨x, hx'⟩ := SimdReg.getV3f_of_shaped hps hpt hi
    exact ⟨t, a, b, x, ht', ha', hb', hx'⟩
  have hkernel : ∀ i t a b x, table.get i = .ok (.table t) →
      pMin.get i = .ok (.v3f a) → pMax.get i = .ok (.v3f b) → p.get i = .ok (.v3f x) →
      Builtin.kernelAt K .lookup3D_f3 xc i =
        .ok [.v3f (K.lookup3D t ⟨s0, s1, s2⟩ a b x)] := by
    intro i t a b x h1 h2 h3 h4
    simp [Builtin.kernelAt, SimdXContext.lane, hsz0, hsz1, hsz2, ht, hpm, hpx, hp, hs0, hs1,
      hs2, h1, h2, h3, h4, Val.toInt, Val.toTable, Val.toV3f]
  by_cases hA : (table.varying || pMin.varying || pMax.varying || p.varying) = true
  · rw [if_pos hA]
    refine bind_ok_exists (forLanes_reg
      (W := fun i a v => Builtin.writesLane .lookup3D_f3 mask xc i = .ok a ∧
        (a = true → Builtin.kernelAt K .lookup3D_f3 xc i = .ok [v]))
      _ xc.regSize xc.regSize _ (Nat.le_refl _) hrv0v hrv0l ?_) ?_
    · intro i hi
      obtain ⟨t, a, b, x, ht', ha', hb', hx'⟩ := hlanes i hi
      obtain ⟨m, hm'⟩ := SimdBoolMask.getMask_of_shaped hm hi
      refine ⟨m, .v3f (K.lookup3D t ⟨s0, s1, s2⟩ a b x), ⟨?_, fun _ => ?_⟩, ?_⟩
      · simp [Builtin.writesLane, Builtin.fastPath, hm']
      · exact hkernel i t a b x ht' ha' hb' hx'
      · intro r
        simp [hm', SimdReg.getTable, SimdReg.getV3f, ht', ha', hb', hx', Val.toV3f,
          Val.toTable]
    · rintro r' ⟨hv', hl', hlow, -⟩
      refine ⟨_, rfl, Builtin.Post.of_single K .lookup3D_f3 mask xc (-8) rfl rv r' hrv
        ?_ ?_ ?_ ?_⟩
      · rw [hv', hany]; simp [SimdReg.isVarying, hA]
      · simp [SimdReg.shaped, hv', hl']
      · intro hc
        rw [hany] at hc
        simp [SimdReg.isVarying, hA] at hc
      · intro _ i hi
        obtain ⟨a, v, hW, hg⟩ := hlow i hi
        exact ⟨a, v, hW, by rw [hg, SimdReg.setVarying_true_get hrvs hi]⟩
  · rw [if_neg hA]
    obtain ⟨t0, a0, b0, x0, ht0, ha0, hb0, hx0⟩ := hlanes 0 h0
    simp only [SimdReg.getTable, SimdReg.getV3f, ht0, ha0, hb0, hx0, ok_bind, ok_bind_fn,
      Val.toTable, Val.toV3f, SimdReg.setVarying_false_set hrvs hn, pure_eq_ok]
    refine ⟨_, rfl, Builtin.Post.of_single K .lookup3D_f3 mask xc (-8) rfl rv _ hrv
      ?_ ?_ ?_ ?_⟩
    · rw [hany]; simp [SimdReg.isVarying, hA]
    · simp [SimdReg.shaped]
    · intro _
      exact ⟨_, hkernel 0 t0 a0 b0 x0 ht0 ha0 hb0 hx0, by simp [SimdReg.get, SimdReg.slot]⟩
    · intro hc
      rw [hany] at hc
      simp [SimdReg.isVarying, hA] at hc


/-- The post-state of a built-in with the three output registers `q0`, `q1`,
`q2` at the offsets -10, -11 and -12. -/
theorem Builtin.Post.of_triple (K : Kernels F H) (b : Builtin) (mask : SimdBoolMask)
    (xc : SimdXContext F H) (hout : b.outOffsets = [-10, -11, -12]) (q q' : Out3 F H)
    (hq0 : xc.stack.regFpRelative (-10) = .ok q.q0)
    (hq1 : xc.stack.regFpRelative (-11) = .ok q.q1)
    (hq2 : xc.stack.regFpRelative (-12) = .ok q.q2)
    (hflag : q'.q0.varying = b.anyVarying xc ∧ q'.q1.varying = b.anyVarying xc ∧
      q'.q2.varying = b.anyVarying xc)
    (hshape : q'.q0.shaped xc.regSize = true ∧ q'.q1.shaped xc.regSize = true ∧
      q'.q2.shaped xc.regSize = true)
    (huni : b.anyVarying xc = false →
      ∃ v0 v1 v2, b.kernelAt K xc 0 = .ok [v0, v1, v2] ∧ q'.q0.get 0 = .ok v0 ∧
        q'.q1.get 0 = .ok v1 ∧ q'.q2.get 0 = .ok v2)
    (hvar : b.anyVarying xc = true → ∀ i, i < xc.regSize →
      ∃ a v0 v1 v2,
        (b.writesLane mask xc i = .ok a ∧ (a = true → b.kernelAt K xc i = .ok [v0, v1, v2])) ∧
        (q'.q0.get i = if a = true then .ok v0 else q.q0.get i) ∧
        (q'.q1.get i = if a = true then .ok v1 else q.q1.get i) ∧
        (q'.q2.get i = if a = true then .ok v2 else q.q2.get i)) :
    Builtin.Post K b mask xc
      (((xc.setRegFpRelative (-10) q'.q0).setRegFpRelative (-11) q'.q1).setRegFpRelative
        (-12) q'.q2) where
  regSize_eq := rfl
  fp_eq := by simp [SimdXContext.setRegFpRelative]
  length_eq := by simp [SimdXContext.setRegFpRelative]
  frame := by
    intro o ho
    rw [hout] at ho
    simp only [List.mem_cons, List.mem_singleton, List.not_mem_nil, or_false, not_or] at ho
    obtain ⟨h10, h11, h12⟩ := ho
    simp only [SimdXContext.setRegFpRelative]
    rw [SimdStack.regFpRelative_set_other _ (Ne.symm h12),
      SimdStack.regFpRelative_set_other _ (Ne.symm h11),
      SimdStack.regFpRelative_set_other _ (Ne.symm h10)]
  outs := by
    have e0 : (((xc.setRegFpRelative (-10) q'.q0).setRegFpRelative (-11)
        q'.q1).setRegFpRelative (-12) q'.q2).stack.regFpRelative (-10) = .ok q'.q0 := by
      simp only [SimdXContext.setRegFpRelative]
      rw [SimdStack.regFpRelative_set_other _ (by decide),
        SimdStack.regFpRelative_set_other _ (by decide)]
      exact SimdStack.regFpRelative_set_same _ hq0 _
    have e1 : (((xc.setRegFpRelative (-10) q'.q0).setRegFpRelative (-11)
        q'.q1).setRegFpRelative (-12) q'.q2).stack.regFpRelative (-11) = .ok q'.q1 := by
      simp only [SimdXContext.setRegFpRelative]
      rw [SimdStack.regFpRelative_set_other _ (by decide)]
      have hq1' : (xc.stack.setRegFpRelative (-10) q'.q0).regFpRelative (-11) = .ok q.q1 := by
        rw [SimdStack.regFpRelative_set_other _ (by decide)]
        exact hq1
      exact SimdStack.regFpRelative_set_same _ hq1' _
    have e2 : (((xc.setRegFpRelative (-10) q'.q0).setRegFpRelative (-11)
        q'.q1).setRegFpRelative (-12) q'.q2).stack.regFpRelative (-12) = .ok q'.q2 := by
      simp only [SimdXContext.setRegFpRelative]
      have hq2' : ((xc.stack.setRegFpRelative (-10) q'.q0).setRegFpRelative (-11)
          q'.q1).regFpRelative (-12) = .ok q.q2 := by
        rw [SimdStack.regFpRelative_set_other _ (by decide),
          SimdStack.regFpRelative_set_other _ (by decide)]
        exact hq2
      exact SimdStack.regFpRelative_set_same _ hq2' _
    intro k o hk
    rw [hout] at hk
    match k, hk with
    | 0, hk =>
      simp only [List.getElem?_cons_zero, Option.some.injEq] at hk
      subst hk
      refine ⟨q.q0, q'.q0, hq0, e0, hflag.1, hshape.1, ?_, ?_⟩
      · intro h
        obtain ⟨v0, v1, v2, hk, hg0, -, -⟩ := huni h
        exact ⟨[v0, v1, v2], v0, hk, rfl, hg0⟩
      · intro h i hi
        obtain ⟨a, v0, v1, v2, ⟨hw, hk⟩, hg0, -, -⟩ := hvar h i hi
        refine ⟨a, hw, ?_, ?_⟩
        · intro ha
          exact ⟨[v0, v1, v2], v0, hk ha, rfl, by simpa [ha] using hg0⟩
        · intro ha
          simpa [ha] using hg0
    | 1, hk =>
      simp only [List.getElem?_cons_succ, List.getElem?_cons_zero, Option.some.injEq] at hk
      subst hk
      refine ⟨q.q1, q'.q1, hq1, e1, hflag.2.1, hshape.2.1, ?_, ?_⟩
      · intro h
        obtain ⟨v0, v1, v2, hk, -, hg1, -⟩ := huni h
        exact ⟨[v0, v1, v2], v1, hk, rfl, hg1⟩
      · intro h i hi
        obtain ⟨a, v0, v1, v2, ⟨hw, hk⟩, -, hg1, -⟩ := hvar h i hi
        refine ⟨a, hw, ?_, ?_⟩
        · intro ha
          exact ⟨[v0, v1, v2], v1, hk ha, rfl, by simpa [ha] using hg1⟩
        · intro ha
          simpa [ha] using hg1
    | 2, hk =>
      simp only [List.getElem?_cons_succ, List.getElem?_cons_zero, Option.some.injEq] at hk
      subst hk
      refine ⟨q.q2, q'.q2, hq2, e2, hflag.2.2, hshape.2.2, ?_, ?_⟩
      · intro h
        obtain ⟨v0, v1, v2, hk, -, -, hg2⟩ := huni h
        exact ⟨[v0, v1, v2], v2, hk, rfl, hg2⟩
      · intro h i hi
        obtain ⟨a, v0, v1, v2, ⟨hw, hk⟩, -, -, hg2⟩ := hvar h i hi
        refine ⟨a, hw, ?_, ?_⟩
        · intro ha
          exact ⟨[v0, v1, v2], v2, hk ha, rfl, by simpa [ha] using hg2⟩
        · intro ha
          simpa [ha] using hg2
    | k + 3, hk => simp at hk

theorem simdLookup3D_f_post (K : Kernels F H) (mask : SimdBoolMask) (xc : SimdXContext F H)
    (h : Builtin.wellFormed .lookup3D_f mask xc = true) :
    ∃ xc', simdLookup3D_f K mask xc = .ok xc' ∧ Builtin.Post K .lookup3D_f mask xc xc' := by
  simp only [Builtin.wellFormed, Builtin.sizeOffsets, Builtin.argOffsets, Builtin.outOffsets,
    List.all_cons, List.all_nil, Bool.and_true, Bool.and_eq_true, decide_eq_true_eq,
    SimdXContext.regOk_iff, Bool.not_eq_true'] at h
  obtain ⟨⟨⟨⟨hn, hm⟩, ⟨size0, hsz0, hsz0s, hsz0v, hsz0t⟩, ⟨size1, hsz1, hsz1s, hsz1v, hsz1t⟩,
    size2, hsz2, hsz2s, hsz2v, hsz2t⟩, ⟨table, ht, hts, htt⟩, ⟨pMin, hpm, hpms, hpmt⟩,
    ⟨pMax, hpx, hpxs, hpxt⟩, ⟨p0, hp0, hp0s, hp0t⟩, ⟨p1, hp1, hp1s, hp1t⟩,
    p2, hp2, hp2s, hp2t⟩, ⟨q0, hq0, hq0s, -⟩, ⟨q1, hq1, hq1s, -⟩, q2, hq2, hq2s, -⟩ := h
  have h0 : 0 < xc.regSize := hn
  obtain ⟨s0, hs0⟩ := SimdReg.getInt_of_shaped hsz0s hsz0t h0
  obtain ⟨s1, hs1⟩ := SimdReg.getInt_of_shaped hsz1s hsz1t h0
  obtain ⟨s2, hs2⟩ := SimdReg.getInt_of_shaped hsz2s hsz2t h0
  have hany : Builtin.anyVarying .lookup3D_f xc =
      (table.isVarying || pMin.isVarying || pMax.isVarying || p0.isVarying || p1.isVarying ||
        p2.isVarying) := by
    simp [Builtin.anyVarying, Builtin.argOffsets, SimdXContext.flag, ht, hpm, hpx, hp0, hp1,
      hp2, SimdReg.isVarying, Bool.or_assoc]
  unfold simdLookup3D_f
  simp only [hsz0, hsz1, hsz2, ht, hpm, hpx, hp0, hp1, hp2, hq0, hq1, hq2, ok_bind,
    SimdReg.isVarying, hsz0v, hsz1v, hsz2v, Bool.not_false, Bool.and_self, assert_true,
    SimdReg.getInt, hs0, hs1, hs2, ok_bind_fn, Val.toInt]
  have hready : Out3.ready xc.regSize ⟨q0.setVarying xc.regSize true,
      q1.setVarying xc.regSize true, q2.setVarying xc.regSize true⟩ := by
    have hl : ∀ r : SimdReg F H, r.shaped xc.regSize = true →
        (r.setVarying xc.regSize true).varying = true ∧
          (r.setVarying xc.regSize true).data.length = xc.regSize := by
      intro r hr
      have hv := SimdReg.setVarying_varying xc.regSize r true
      exact ⟨hv, by simpa [SimdReg.shaped, hv] using SimdReg.setVarying_shaped hr hn true⟩
    exact ⟨hl q0 hq0s, hl q1 hq1s, hl q2 hq2s⟩
  have hlanes : ∀ i, i < xc.regSize → ∃ t a b x0 x1 x2, table.get i = .ok (.table t) ∧
      pMin.get i = .ok (.v3f a) ∧ pMax.get i = .ok (.v3f b) ∧ p0.get i = .ok (.float x0) ∧
      p1.get i = .ok (.float x1) ∧ p2.get i = .ok (.float x2) := by
    intro i hi
    obtain ⟨t, ht'⟩ := SimdReg.getTable_of_shaped hts htt hi
    obtain ⟨a, ha'⟩ := SimdReg.getV3f_of_shaped hpms hpmt hi
    obtain ⟨b, hb'⟩ := SimdReg.getV3f_of_shaped hpxs hpxt hi
    obtain ⟨x0, hx0'⟩ := SimdReg.getFloat_of_shaped hp0s hp0t hi
    obtain ⟨x1, hx1'⟩ := SimdReg.getFloat_of_shaped hp1s hp1t hi
    obtain ⟨x2, hx2'⟩ := SimdReg.getFloat_of_shaped hp2s hp2t hi
    exact ⟨t, a, b, x0, x1, x2, ht', ha', hb', hx0', hx1', hx2'⟩
  have hkernel : ∀ i t a b x0 x1 x2, table.get i = .ok (.table t) →
      pMin.get i = .ok (.v3f a) → pMax.get i = .ok (.v3f b) → p0.get i = .ok (.float x0) →
      p1.get i = .ok (.float x1) → p2.get i = .ok (.float x2) →
      Builtin.kernelAt K .lookup3D_f xc i =
        .ok [.float (K.lookup3D t ⟨s0, s1, s2⟩ a b ⟨x0, x1, x2⟩).x,
          .float (K.lookup3D t ⟨s0, s1, s2⟩ a b ⟨x0, x1, x2⟩).y,
          .float (K.lookup3D t ⟨s0, s1, s2⟩ a b ⟨x0, x1, x2⟩).z] := by
    intro i t a b x0 x1 x2 h1 h2 h3 h4 h5 h6
    simp [Builtin.kernelAt, SimdXContext.lane, hsz0, hsz1, hsz2, ht, hpm, hpx, hp0, hp1, hp2,
      hs0, hs1, hs2, h1, h2, h3, h4, h5, h6, Val.toInt, Val.toTable, Val.toV3f, Val.toFloat]
  by_cases hA : (table.varying || pMin.varying || pMax.varying || p0.varying || p1.varying ||
      p2.varying) = true
  · rw [if_pos hA]
    refine bind_ok_exists (forLanes_out3
      (W := fun i a v0 v1 v2 => Builtin.writesLane .lookup3D_f mask xc i = .ok a ∧
        (a = true → Builtin.kernelAt K .lookup3D_f xc i = .ok [v0, v1, v2]))
      _ xc.regSize xc.regSize _ (Nat.le_refl _) hready ?_) ?_
    · intro i hi
      obtain ⟨t, a, b, x0, x1, x2, ht', ha', hb', hx0', hx1', hx2'⟩ := hlanes i hi
      obtain ⟨m, hm'⟩ := SimdBoolMask.getMask_of_shaped hm hi
      refine ⟨m, .float (K.lookup3D t ⟨s0, s1, s2⟩ a b ⟨x0, x1, x2⟩).x,
        .float (K.lookup3D t ⟨s0, s1, s2⟩ a b ⟨x0, x1, x2⟩).y,
        .float (K.lookup3D t ⟨s0, s1, s2⟩ a b ⟨x0, x1, x2⟩).z, ⟨?_, fun _ => ?_⟩, ?_⟩
      · simp [Builtin.writesLane, Builtin.fastPath, hm']
      · exact hkernel i t a b x0 x1 x2 ht' ha' hb' hx0' hx1' hx2'
      · intro r
        simp [hm', SimdReg.getTable, SimdReg.getV3f, SimdReg.getFloat, ht', ha', hb', hx0',
          hx1', hx2', Val.toV3f, Val.toTable, Val.toFloat]
    · rintro q' ⟨⟨⟨hv0, hl0⟩, ⟨hv1, hl1⟩, hv2, hl2⟩, hlow, -⟩
      refine ⟨_, rfl, Builtin.Post.of_triple K .lookup3D_f mask xc rfl ⟨q0, q1, q2⟩ q'
        hq0 hq1 hq2 ?_ ?_ ?_ ?_⟩
      · rw [hv0, hv1, hv2, hany]; simp [SimdReg.isVarying, hA]
      · simp [SimdReg.shaped, hv0, hl0, hv1, hl1, hv2, hl2]
      · intro hc
        rw [hany] at hc
        simp [SimdReg.isVarying, hA] at hc
      · intro _ i hi
        obtain ⟨a, v0, v1, v2, hW, hg0, hg1, hg2⟩ := hlow i hi
        refine ⟨a, v0, v1, v2, hW, ?_, ?_, ?_⟩
        · rw [hg0, SimdReg.setVarying_true_get hq0s hi]
        · rw [hg1, SimdReg.setVarying_true_get hq1s hi]
        · rw [hg2, SimdReg.setVarying_true_get hq2s hi]
  · rw [if_neg hA]
    obtain ⟨t0, a0, b0, x0, x1, x2, ht0, ha0, hb0, hx0, hx1, hx2⟩ := hlanes 0 h0
    simp only [SimdReg.getTable, SimdReg.getV3f, SimdReg.getFloat, ht0, ha0, hb0, hx0, hx1,
      hx2, ok_bind, ok_bind_fn, Val.toTable, Val.toV3f, Val.toFloat, Out3.set,
      SimdReg.setVarying_false_set hq0s hn, SimdReg.setVarying_false_set hq1s hn,
      SimdReg.setVarying_false_set hq2s hn, pure_eq_ok]
    refine ⟨_, rfl, Builtin.Post.of_triple K .lookup3D_f mask xc rfl ⟨q0, q1, q2⟩
      ⟨_, _, _⟩ hq0 hq1 hq2 ?_ ?_ ?_ ?_⟩
    · rw [hany]; simp [SimdReg.isVarying, hA]
    · simp [SimdReg.shaped]
    · intro _
      exact ⟨_, _, _, hkernel 0 t0 a0 b0 x0 x1 x2 ht0 ha0 hb0 hx0 hx1 hx2,
        by simp [SimdReg.get, SimdReg.slot], by simp [SimdReg.get, SimdReg.slot],
        by simp [SimdReg.get, SimdReg.slot]⟩
    · intro hc
      rw [hany] at hc
      simp [SimdReg.isVarying, hA] at hc

theorem simdLookup3D_h_post (K : Kernels F H) (mask : SimdBoolMask) (xc : SimdXContext F H)
    (h : Builtin.wellFormed .lookup3D_h mask xc = true) :
    ∃ xc', simdLookup3D_h K mask xc = .ok xc' ∧ Builtin.Post K .lookup3D_h mask xc xc' := by
  simp only [Builtin.wellFormed, Builtin.sizeOffsets, Builtin.argOffsets, Builtin.outOffsets,
    List.all_cons, List.all_nil, Bool.and_true, Bool.and_eq_true, decide_eq_true_eq,
    SimdXContext.regOk_iff, Bool.not_eq_true'] at h
  obtain ⟨⟨⟨⟨hn, hm⟩, ⟨size0, hsz0, hsz0s, hsz0v, hsz0t⟩, ⟨size1, hsz1, hsz1s, hsz1v, hsz1t⟩,
    size2, hsz2, hsz2s, hsz2v, hsz2t⟩, ⟨table, ht, hts, htt⟩, ⟨pMin, hpm, hpms, hpmt⟩,
    ⟨pMax, hpx, hpxs, hpxt⟩, ⟨p0, hp0, hp0s, hp0t⟩, ⟨p1, hp1, hp1s, hp1t⟩,
    p2, hp2, hp2s, hp2t⟩, ⟨q0, hq0, hq0s, -⟩, ⟨q1, hq1, hq1s, -⟩, q2, hq2, hq2s, -⟩ := h
  have h0 : 0 < xc.regSize := hn
  obtain ⟨s0, hs0⟩ := SimdReg.getInt_of_shaped hsz0s hsz0t h0
  obtain ⟨s1, hs1⟩ := SimdReg.getInt_of_shaped hsz1s hsz1t h0
  obtain ⟨s2, hs2⟩ := SimdReg.getInt_of_shaped hsz2s hsz2t h0
  have hany : Builtin.anyVarying .lookup3D_h xc =
      (table.isVarying || pMin.isVarying || pMax.isVarying || p0.isVarying || p1.isVarying ||
        p2.isVarying) := by
    simp [Builtin.anyVarying, Builtin.argOffsets, SimdXContext.flag, ht, hpm, hpx, hp0, hp1,
      hp2, SimdReg.isVarying, Bool.or_assoc]
  unfold simdLookup3D_h
  simp only [hsz0, hsz1, hsz2, ht, hpm, hpx, hp0, hp1, hp2, hq0, hq1, hq2, ok_bind,
    SimdReg.isVarying, hsz0v, hsz1v, hsz2v, Bool.not_false, Bool.and_self, assert_true,
    SimdReg.getInt, hs0, hs1, hs2, ok_bind_fn, Val.toInt]
  have hready : Out3.ready xc.regSize ⟨q0.setVarying xc.regSize true,
      q1.setVarying xc.regSize true, q2.setVarying xc.regSize true⟩ := by
    have hl : ∀ r : SimdReg F H, r.shaped xc.regSize = true →
        (r.setVarying xc.regSize true).varying = true ∧
          (r.setVarying xc.regSize true).data.length = xc.regSize := by
      intro r hr
      have hv := SimdReg.setVarying_varying xc.regSize r true
      exact ⟨hv, by simpa [SimdReg.shaped, hv] using SimdReg.setVarying_shaped hr hn true⟩
    exact ⟨hl q0 hq0s, hl q1 hq1s, hl q2 hq2s⟩
  have hlanes : ∀ i, i < xc.regSize → ∃ t a b x0 x1 x2, table.get i = .ok (.table t) ∧
      pMin.get i = .ok (.v3f a) ∧ pMax.get i = .ok (.v3f b) ∧ p0.get i = .ok (.half x0) ∧
      p1.get i = .ok (.half x1) ∧ p2.get i = .ok (.half x2) := by
    intro i hi
    obtain ⟨t, ht'⟩ := SimdReg.getTable_of_shaped hts htt hi
    obtain ⟨a, ha'⟩ := SimdReg.getV3f_of_shaped hpms hpmt hi
    obtain ⟨b, hb'⟩ := SimdReg.getV3f_of_shaped hpxs hpxt hi
    obtain ⟨x0, hx0'⟩ := SimdReg.getHalf_of_shaped hp0s hp0t hi
    obtain ⟨x1, hx1'⟩ := SimdReg.getHalf_of_shaped hp1s hp1t hi
    obtain ⟨x2, hx2'⟩ := SimdReg.getHalf_of_shaped hp2s hp2t hi
    exact ⟨t, a, b, x0, x1, x2, ht', ha', hb', hx0', hx1', hx2'⟩
  have hkernel : ∀ i t a b x0 x1 x2, table.get i = .ok (.table t) →
      pMin.get i = .ok (.v3f a) → pMax.get i = .ok (.v3f b) → p0.get i = .ok (.half x0) →
      p1.get i = .ok (.half x1) → p2.get i = .ok (.half x2) →
      Builtin.kernelAt K .lookup3D_h xc i =
        .ok [.half (K.floatToHalf (K.lookup3D t ⟨s0, s1, s2⟩ a b
            ⟨K.halfToFloat x0, K.halfToFloat x1, K.halfToFloat x2⟩).x),
          .half (K.floatToHalf (K.lookup3D t ⟨s0, s1, s2⟩ a b
            ⟨K.halfToFloat x0, K.halfToFloat x1, K.halfToFloat x2⟩).y),
          .half (K.floatToHalf (K.lookup3D t ⟨s0, s1, s2⟩ a b
            ⟨K.halfToFloat x0, K.halfToFloat x1, K.halfToFloat x2⟩).z)] := by
    intro i t a b x0 x1 x2 h1 h2 h3 h4 h5 h6
    simp [Builtin.kernelAt, SimdXContext.lane, hsz0, hsz1, hsz2, ht, hpm, hpx, hp0, hp1, hp2,
      hs0, hs1, hs2, h1, h2, h3, h4, h5, h6, Val.toInt, Val.toTable, Val.toV3f, Val.toHalf]
  by_cases hA : (table.varying || pMin.varying || pMax.varying || p0.varying || p1.varying ||
      p2.varying) = true
  · rw [if_pos hA]
    refine bind_ok_exists (forLanes_out3
      (W := fun i a v0 v1 v2 => Builtin.writesLane .lookup3D_h mask xc i = .ok a ∧
        (a = true → Builtin.kernelAt K .lookup3D_h xc i = .ok [v0, v1, v2]))
      _ xc.regSize xc.regSize _ (Nat.le_refl _) hready ?_) ?_
    · intro i hi
      obtain ⟨t, a, b, x0, x1, x2, ht', ha', hb', hx0', hx1', hx2'⟩ := hlanes i hi
      obtain ⟨m, hm'⟩ := SimdBoolMask.getMask_of_shaped hm hi
      refine ⟨m,
        .half (K.floatToHalf (K.lookup3D t ⟨s0, s1, s2⟩ a b
          ⟨K.halfToFloat x0, K.halfToFloat x1, K.halfToFloat x2⟩).x),
        .half (K.floatToHalf (K.lookup3D t ⟨s0, s1, s2⟩ a b
          ⟨K.halfToFloat x0, K.halfToFloat x1, K.halfToFloat x2⟩).y),
        .half (K.floatToHalf (K.lookup3D t ⟨s0, s1, s2⟩ a b
          ⟨K.halfToFloat x0, K.halfToFloat x1, K.halfToFloat x2⟩).z),
        ⟨?_, fun _ => ?_⟩, ?_⟩
      · simp [Builtin.writesLane, Builtin.fastPath, hm']
      · exact hkernel i t a b x0 x1 x2 ht' ha' hb' hx0' hx1' hx2'
      · intro r
        simp [hm', SimdReg.getTable, SimdReg.getV3f, SimdReg.getHalf, ht', ha', hb', hx0',
          hx1', hx2', Val.toV3f, Val.toTable, Val.toHalf]
    · rintro q' ⟨⟨⟨hv0, hl0⟩, ⟨hv1, hl1⟩, hv2, hl2⟩, hlow, -⟩
      refine ⟨_, rfl, Builtin.Post.of_triple K .lookup3D_h mask xc rfl ⟨q0, q1, q2⟩ q'
        hq0 hq1 hq2 ?_ ?_ ?_ ?_⟩
      · rw [hv0, hv1, hv2, hany]; simp [SimdReg.isVarying, hA]
      · simp [SimdReg.shaped, hv0, hl0, hv1, hl1, hv2, hl2]
      · intro hc
        rw [hany] at hc
        simp [SimdReg.isVarying, hA] at hc
      · intro _ i hi
        obtain ⟨a, v0, v1, v2, hW, hg0, hg1, hg2⟩ := hlow i hi
        refine ⟨a, v0, v1, v2, hW, ?_, ?_, ?_⟩
        · rw [hg0, SimdReg.setVarying_true_get hq0s hi]
        · rw [hg1, SimdReg.setVarying_true_get hq1s hi]
        · rw [hg2, SimdReg.setVarying_true_get hq2s hi]
  · rw [if_neg hA]
    obtain ⟨t0, a0, b0, x0, x1, x2, ht0, ha0, hb0, hx0, hx1, hx2⟩ := hlanes 0 h0
    simp only [SimdReg.getTable, SimdReg.getV3f, SimdReg.getHalf, ht0, ha0, hb0, hx0, hx1,
      hx2, ok_bind, ok_bind_fn, Val.toTable, Val.toV3f, Val.toHalf, Out3.set,
      SimdReg.setVarying_false_set hq0s hn, SimdReg.setVarying_false_set hq1s hn,
      SimdReg.setVarying_false_set hq2s hn, pure_eq_ok]
    refine ⟨_, rfl, Builtin.Post.of_triple K .lookup3D_h mask xc rfl ⟨q0, q1, q2⟩
      ⟨_, _, _⟩ hq0 hq1 hq2 ?_ ?_ ?_ ?_⟩
    · rw [hany]; simp [SimdReg.isVarying, hA]
    · simp [SimdReg.shaped]
    · intro _
      exact ⟨_, _, _, hkernel 0 t0 a0 b0 x0 x1 x2 ht0 ha0 hb0 hx0 hx1 hx2,
        by simp [SimdReg.get, SimdReg.slot], by simp [SimdReg.get, SimdReg.slot],
        by simp [SimdReg.get, SimdReg.slot]⟩
    · intro hc
      rw [hany] at hc
      simp [SimdReg.isVarying, hA] at hc


/-- Every well-formed call of a built-in succeeds and leaves the post-state
described by `Builtin.Post`. -/
theorem Builtin.run_post (K : Kernels F H) (b : Builtin) (mask : SimdBoolMask)
    (xc : SimdXContext F H) (h : b.wellFormed mask xc = true) :
    ∃ xc', b.run K mask xc = .ok xc' ∧ Builtin.Post K b mask xc xc' := by
  cases b with
  | lookup1D => exact simdLookup1D_post K mask xc h
  | lookup3D_f3 => exact simdLookup3D_f3_post K mask xc h
  | lookup3D_f => exact simdLookup3D_f_post K mask xc h
  | lookup3D_h => exact simdLookup3D_h_post K mask xc h
  | interpolateLinear1D => exact simdInterpolateLinear1D_post K mask xc h
  | interpolateCubic1D => exact simdInterpolateCubic1D_post K mask xc h

/-! ## Consequences of the post-state -/

theorem Builtin.anyVarying_iff (b : Builtin) (xc : SimdXContext F H) :
    b.anyVarying xc = true ↔
      ∃ a ∈ b.argOffsets, ∃ r, xc.stack.regFpRelative a.1 = .ok r ∧ r.isVarying = true := by
  unfold Builtin.anyVarying
  rw [List.any_eq_true]
  constructor
  · rintro ⟨a, ha, hf⟩
    refine ⟨a, ha, ?_⟩
    unfold SimdXContext.flag at hf
    cases hr : xc.stack.regFpRelative a.1 with
    | ok r => exact ⟨r, rfl, by simpa [hr, SimdReg.isVarying] using hf⟩
    | error e => simp [hr] at hf
  · rintro ⟨a, ha, r, hr, hv⟩
    exact ⟨a, ha, by simpa [SimdXContext.flag, hr, SimdReg.isVarying] using hv⟩

theorem Builtin.outOffsets_index (b : Builtin) {o : Int} (ho : o ∈ b.outOffsets) :
    ∃ k : Nat, b.outOffsets[k]? = some o := by
  obtain ⟨k, hk, e⟩ := List.getElem_of_mem ho
  exact ⟨k, by rw [List.getElem?_eq_getElem hk, e]⟩

/-- The per-lane reference result depends on the frame only through the
broadcast reads of the size registers at lane 0 and of the other inputs at the
lane in question. -/
theorem Builtin.kernelAt_congr (K : Kernels F H) (b : Builtin) (xc₁ xc₂ : SimdXContext F H)
    (i j : Nat) (hs : ∀ o ∈ b.sizeOffsets, xc₁.lane o 0 = xc₂.lane o 0)
    (ha : ∀ a ∈ b.argOffsets, xc₁.lane a.1 i = xc₂.lane a.1 j) :
    b.kernelAt K xc₁ i = b.kernelAt K xc₂ j := by
  cases b <;>
    simp only [Builtin.sizeOffsets, Builtin.argOffsets, List.mem_cons, List.mem_singleton,
      List.not_mem_nil, or_false, forall_eq_or_imp, forall_eq] at hs ha <;>
    simp only [Builtin.kernelAt, hs, ha]

theorem SimdXContext.lane_uniform (xc : SimdXContext F H) (o : Int) (h : xc.flag o = false)
    (i : Nat) : xc.lane o i = xc.lane o 0 := by
  unfold SimdXContext.lane
  unfold SimdXContext.flag at h
  cases hr : xc.stack.regFpRelative o with
  | ok r =>
    rw [hr] at h
    exact SimdReg.get_uniform h i
  | error e => rfl

theorem Builtin.size_flag (b : Builtin) (mask : SimdBoolMask) (xc : SimdXContext F H)
    (h : b.wellFormed mask xc = true) : ∀ o ∈ b.sizeOffsets, xc.flag o = false := by
  intro o ho
  simp only [Builtin.wellFormed, Bool.and_eq_true, List.all_eq_true,
    SimdXContext.regOk_iff, Bool.not_eq_true'] at h
  obtain ⟨r, hr, -, hv, -⟩ := h.1.1.2 o ho
  simp [SimdXContext.flag, hr, hv]

theorem Builtin.anyVarying_eq_false (b : Builtin) (xc : SimdXContext F H)
    (h : b.anyVarying xc = false) : ∀ a ∈ b.argOffsets, xc.flag a.1 = false := by
  intro a ha
  unfold Builtin.anyVarying at h
  rw [List.any_eq_false] at h
  simpa using h a ha

theorem clamp_zero_unit : clamp (0 : ℚ) 0 1 = 0 := by
  unfold clamp
  norm_num

theorem clamp_one_unit : clamp (1 : ℚ) 0 1 = 1 := by
  unfold clamp
  norm_num

theorem lookup1D_linear_example : lookup1D [0, 1, 2, 3] 4 0 3 (3 / 2) = 3 / 2 := by
  have h1 : clamp ((3 / 2 - 0) / (3 - 0) : ℚ) 0 1 = 1 / 2 := by
    unfold clamp
    norm_num
  have hx : (1 / 2 : ℚ) * (((4 : Int) : ℚ) - 1) = 3 / 2 := by norm_num
  have h2 : ⌊(3 / 2 : ℚ)⌋ = 1 := by
    rw [Int.floor_eq_iff]
    norm_num
  have h3 : clamp (1 : Int) 0 (4 - 2) = 1 := by decide
  have hne : ¬ ((3 / 2 : ℚ) = ((4 : Int) : ℚ) - 1) := by norm_num
  have hr : ¬ ((3 : ℚ) = 0) := by norm_num
  unfold lookup1D
  rw [if_neg hr]
  simp only [h1, hx, h2, if_neg hne, h3]
  have e1 : tableAt [0, 1, 2, 3] 1 = 1 := rfl
  have e2 : tableAt [0, 1, 2, 3] (1 + 1) = 2 := rfl
  rw [e1, e2]
  norm_num

theorem lookup1D_at_pMin (table : List ℚ) (size : Int) (pMin pMax : ℚ) (hs : 2 ≤ size)
    (h : pMin < pMax) : lookup1D table size pMin pMax pMin = tableAt table 0 := by
  have hne : ¬ (pMax = pMin) := ne_of_gt h
  have hsz : ¬ ((0 : ℚ) = (size : ℚ) - 1) := by
    have : (2 : ℚ) ≤ (size : ℚ) := by exact_mod_cast hs
    intro e
    linarith
  have hc : clamp (0 : Int) 0 (size - 2) = 0 := by
    unfold clamp
    rw [if_neg (by omega), if_neg (by omega)]
  unfold lookup1D
  rw [if_neg hne]
  simp only [sub_self, zero_div, clamp_zero_unit, zero_mul, Int.floor_zero, if_neg hsz, hc,
    Int.cast_zero, sub_zero, mul_one, mul_zero, add_zero]

theorem lookup1D_at_pMax (table : List ℚ) (size : Int) (pMin pMax : ℚ)
    (h : pMin < pMax) : lookup1D table size pMin pMax pMax = tableAt table (size - 1) := by
  have hne : ¬ (pMax = pMin) := ne_of_gt h
  have hd : pMax - pMin ≠ 0 := sub_ne_zero.mpr hne
  have hfl : (⌊(size : ℚ) - 1⌋ : ℚ) = (size : ℚ) - 1 := by
    have e : ((size : ℚ) - 1) = ((size - 1 : Int) : ℚ) := by
      push_cast
      ring
    rw [e, Int.floor_intCast]
  unfold lookup1D
  rw [if_neg hne]
  simp only [div_self hd, clamp_one_unit, one_mul, hfl, if_true, sub_self, sub_zero, mul_one,
    mul_zero, add_zero]

/-- At a lane whose mask entry is true every path of a built-in leaves the
kernel of the broadcast reads at that lane in the output registers. -/
theorem Builtin.Post.active_lane {K : Kernels F H} {b : Builtin} {mask : SimdBoolMask}
    {xc xc' : SimdXContext F H} (hp : Builtin.Post K b mask xc xc') {i : Nat}
    (hi : i < xc.regSize) (hm : mask.get i = .ok true) {k : Nat} {o : Int}
    (hk : b.outOffsets[k]? = some o) :
    ∃ r' vs v, xc'.stack.regFpRelative o = .ok r' ∧ b.kernelAt K xc i = .ok vs ∧
      vs[k]? = some v ∧ r'.get i = .ok v := by
  obtain ⟨_, r', -, hr', hf, -, huni, hvar⟩ := hp.outs k o hk
  cases hc : b.anyVarying xc with
  | false =>
    obtain ⟨vs, v, hk0, hv, hg⟩ := huni hc
    have hK : b.kernelAt K xc i = b.kernelAt K xc 0 := by
      apply Builtin.kernelAt_congr K b xc xc i 0 (fun _ _ => rfl)
      intro a ha
      exact SimdXContext.lane_uniform xc a.1 (b.anyVarying_eq_false xc hc a ha) i
    refine ⟨r', vs, v, hr', by rw [hK, hk0], hv, ?_⟩
    rw [SimdReg.get_uniform (by rw [hf, hc]) i, hg]
  | true =>
    obtain ⟨a, hw, hon, -⟩ := hvar hc i hi
    have ha : a = true := by
      unfold Builtin.writesLane at hw
      split at hw
      · exact (Except.ok.inj hw).symm
      · rw [hm] at hw
        exact (Except.ok.inj hw).symm
    obtain ⟨vs, v, hk', hv, hg⟩ := hon ha
    exact ⟨r', vs, v, hr', hk', hv, hg⟩

/-! ## The claims -/

/-- C1. After a well-formed call (size registers uniform) under any mask, each
output register is marked varying if and only if at least one of the non-size
input registers (table, pMin, pMax, position arguments) is varying, and the
flag is the same under any other mask. -/
theorem output_varying_iff_some_input_varying (K : Kernels F H) (b : Builtin)
    (mask mask' : SimdBoolMask) (xc : SimdXContext F H)
    (h : b.wellFormed mask xc = true) (h' : b.wellFormed mask' xc = true) :
    ∃ xc₁ xc₂, b.run K mask xc = .ok xc₁ ∧ b.run K mask' xc = .ok xc₂ ∧
      ∀ o ∈ b.outOffsets, ∃ r₁ r₂, xc₁.stack.regFpRelative o = .ok r₁ ∧
        xc₂.stack.regFpRelative o = .ok r₂ ∧ r₁.isVarying = r₂.isVarying ∧
        (r₁.isVarying = true ↔
          ∃ a ∈ b.argOffsets, ∃ r, xc.stack.regFpRelative a.1 = .ok r ∧
            r.isVarying = true) := by
  obtain ⟨xc₁, hrun₁, hp₁⟩ := Builtin.run_post K b mask xc h
  obtain ⟨xc₂, hrun₂, hp₂⟩ := Builtin.run_post K b mask' xc h'
  refine ⟨xc₁, xc₂, hrun₁, hrun₂, ?_⟩
  intro o ho
  obtain ⟨k, hk⟩ := b.outOffsets_index ho
  obtain ⟨_, r₁, -, hr₁, hf₁, -⟩ := hp₁.outs k o hk
  obtain ⟨_, r₂, -, hr₂, hf₂, -⟩ := hp₂.outs k o hk
  refine ⟨r₁, r₂, hr₁, hr₂, ?_, ?_⟩
  · simp [SimdReg.isVarying, hf₁, hf₂]
  · rw [← Builtin.anyVarying_iff]
    simp [SimdReg.isVarying, hf₁]

/-- The flag statement applied to `lookup1D` on the sample frame, under a varying and a
non-varying mask. -/
theorem output_varying_iff_some_input_varying_witness :
    Builtin.lookup1D.wellFormed demoMask demoFrame1D = true ∧
    Builtin.lookup1D.wellFormed ⟨false, [true]⟩ demoFrame1D = true ∧
    ∃ xc₁ xc₂, Builtin.lookup1D.run demoKernels demoMask demoFrame1D = .ok xc₁ ∧
      Builtin.lookup1D.run demoKernels ⟨false, [true]⟩ demoFrame1D = .ok xc₂ ∧
      ∀ o ∈ Builtin.lookup1D.outOffsets, ∃ r₁ r₂, xc₁.stack.regFpRelative o = .ok r₁ ∧
        xc₂.stack.regFpRelative o = .ok r₂ ∧ r₁.isVarying = r₂.isVarying ∧
        (r₁.isVarying = true ↔
          ∃ a ∈ Builtin.lookup1D.argOffsets, ∃ r,
            demoFrame1D.stack.regFpRelative a.1 = .ok r ∧ r.isVarying = true) :=
  ⟨by decide, by decide,
    output_varying_iff_some_input_varying demoKernels .lookup1D demoMask ⟨false, [true]⟩
      demoFrame1D (by decide) (by decide)⟩

/-- C2. Mask respect: on the general per-lane path (some non-size input
varying, and the fast-path condition false) every output register exposes at a
lane whose mask entry is false the value it exposed before the call. -/
theorem masked_off_lane_unchanged (K : Kernels F H) (b : Builtin) (mask : SimdBoolMask)
    (xc : SimdXContext F H) (h : b.wellFormed mask xc = true)
    (hany : ∃ a ∈ b.argOffsets, ∃ r, xc.stack.regFpRelative a.1 = .ok r ∧ r.isVarying = true)
    (hgen : b.fastPath mask xc = false) (i : Nat) (hi : i < xc.regSize)
    (hm : mask.get i = .ok false) :
    ∃ xc', b.run K mask xc = .ok xc' ∧
      ∀ o ∈ b.outOffsets, ∃ r r', xc.stack.regFpRelative o = .ok r ∧
        xc'.stack.regFpRelative o = .ok r' ∧ r'.get i = r.get i := by
  obtain ⟨xc', hrun, hp⟩ := Builtin.run_post K b mask xc h
  refine ⟨xc', hrun, ?_⟩
  intro o ho
  obtain ⟨k, hk⟩ := b.outOffsets_index ho
  obtain ⟨r, r', hr, hr', -, -, -, hvar⟩ := hp.outs k o hk
  refine ⟨r, r', hr, hr', ?_⟩
  obtain ⟨a, hw, -, hoff⟩ := hvar ((Builtin.anyVarying_iff b xc).mpr hany) i hi
  have ha : a = false := by
    simpa [Builtin.writesLane, hgen, hm] using hw.symm
  exact hoff ha

/-- Mask respect applied to `lookup1D` on the sample frame at the inactive lane 1. -/
theorem masked_off_lane_unchanged_witness :
    Builtin.lookup1D.wellFormed demoMask demoFrame1D = true ∧
    Builtin.lookup1D.fastPath demoMask demoFrame1D = false ∧
    demoMask.get 1 = .ok false ∧
    ∃ xc', Builtin.lookup1D.run demoKernels demoMask demoFrame1D = .ok xc' ∧
      ∀ o ∈ Builtin.lookup1D.outOffsets, ∃ r r', demoFrame1D.stack.regFpRelative o = .ok r ∧
        xc'.stack.regFpRelative o = .ok r' ∧ r'.get 1 = r.get 1 :=
  ⟨by decide, by decide, by decide,
    masked_off_lane_unchanged demoKernels .lookup1D demoMask demoFrame1D (by decide)
      ⟨(-5, .float), by decide, ⟨true, [.float 1, .float 2, .float 3]⟩, by decide, rfl⟩
      (by decide) 1 (by decide) (by decide)⟩

/-- C3. General-path result: when some non-size input is varying, every output
register holds at a lane whose mask entry is true the kernel applied to the
broadcast reads of the inputs at that lane. -/
theorem active_lane_holds_kernel (K : Kernels F H) (b : Builtin) (mask : SimdBoolMask)
    (xc : SimdXContext F H) (h : b.wellFormed mask xc = true)
    (hany : ∃ a ∈ b.argOffsets, ∃ r, xc.stack.regFpRelative a.1 = .ok r ∧ r.isVarying = true)
    (i : Nat) (hi : i < xc.regSize) (hm : mask.get i = .ok true) :
    ∃ xc' vs, b.run K mask xc = .ok xc' ∧ b.kernelAt K xc i = .ok vs ∧
      ∀ (k : Nat) (o : Int), b.outOffsets[k]? = some o →
        ∃ r' v, xc'.stack.regFpRelative o = .ok r' ∧ vs[k]? = some v ∧ r'.get i = .ok v := by
  obtain ⟨xc', hrun, hp⟩ := Builtin.run_post K b mask xc h
  have hA := (Builtin.anyVarying_iff b xc).mpr hany
  have hw : b.writesLane mask xc i = .ok true := by
    unfold Builtin.writesLane
    split
    · rfl
    · exact hm
  have hne : ∃ o, b.outOffsets[0]? = some o := by cases b <;> exact ⟨_, rfl⟩
  obtain ⟨o₀, ho₀⟩ := hne
  obtain ⟨_, _, -, -, -, -, -, hvar₀⟩ := hp.outs 0 o₀ ho₀
  obtain ⟨a₀, hw₀, hon₀, -⟩ := hvar₀ hA i hi
  have ha₀ : a₀ = true := by
    rw [hw] at hw₀
    cases hw₀
    rfl
  obtain ⟨vs, -, hk₀, -, -⟩ := hon₀ ha₀
  refine ⟨xc', vs, hrun, hk₀, ?_⟩
  intro k o hk
  obtain ⟨_, r', -, hr', -, -, -, hvar⟩ := hp.outs k o hk
  obtain ⟨a, hw', hon, -⟩ := hvar hA i hi
  have ha : a = true := by
    rw [hw] at hw'
    cases hw'
    rfl
  obtain ⟨vs', v, hk', hv, hg⟩ := hon ha
  rw [hk₀] at hk'
  cases hk'
  exact ⟨r', v, hr', hv, hg⟩

/-- The general-path result applied to `lookup1D` on the sample frame at the active lane 2. -/
theorem active_lane_holds_kernel_witness :
    Builtin.lookup1D.wellFormed demoMask demoFrame1D = true ∧
    demoMask.get 2 = .ok true ∧
    ∃ xc' vs, Builtin.lookup1D.run demoKernels demoMask demoFrame1D = .ok xc' ∧
      Builtin.lookup1D.kernelAt demoKernels demoFrame1D 2 = .ok vs ∧
      ∀ (k : Nat) (o : Int), Builtin.lookup1D.outOffsets[k]? = some o →
        ∃ r' v, xc'.stack.regFpRelative o = .ok r' ∧ vs[k]? = some v ∧ r'.get 2 = .ok v :=
  ⟨by decide, by decide,
    active_lane_holds_kernel demoKernels .lookup1D demoMask demoFrame1D (by decide)
      ⟨(-5, .float), by decide, ⟨true, [.float 1, .float 2, .float 3]⟩, by decide, rfl⟩
      2 (by decide) (by decide)⟩

/-- C4. Fast-path equivalence: when a built-in with a fast path is called on a
frame whose position argument varies and whose table and range arguments are
uniform, the call with a non-varying mask (fast path) and the call with a
varying all-true mask (general path) leave the same value in every lane of the
return register. -/
theorem fast_path_eq_general_path (K : Kernels F H) (b : Builtin) (mask₁ mask₂ : SimdBoolMask)
    (xc : SimdXContext F H) (h₁ : b.wellFormed mask₁ xc = true)
    (h₂ : b.wellFormed mask₂ xc = true)
    (hany : ∃ a ∈ b.argOffsets, ∃ r, xc.stack.regFpRelative a.1 = .ok r ∧ r.isVarying = true)
    (hfast : b.fastPath mask₁ xc = true) (hm₂ : mask₂.isVarying = true)
    (hall : ∀ i, i < xc.regSize → mask₂.get i = .ok true) :
    ∃ xc₁ xc₂, b.run K mask₁ xc = .ok xc₁ ∧ b.run K mask₂ xc = .ok xc₂ ∧
      ∀ o ∈ b.outOffsets, ∃ r₁ r₂, xc₁.stack.regFpRelative o = .ok r₁ ∧
        xc₂.stack.regFpRelative o = .ok r₂ ∧ r₁.isVarying = true ∧ r₂.isVarying = true ∧
        ∀ i, i < xc.regSize → ∃ v, r₁.get i = .ok v ∧ r₂.get i = .ok v := by
  obtain ⟨xc₁, hrun₁, hp₁⟩ := Builtin.run_post K b mask₁ xc h₁
  obtain ⟨xc₂, hrun₂, hp₂⟩ := Builtin.run_post K b mask₂ xc h₂
  have hA := (Builtin.anyVarying_iff b xc).mpr hany
  refine ⟨xc₁, xc₂, hrun₁, hrun₂, ?_⟩
  intro o ho
  obtain ⟨k, hk⟩ := b.outOffsets_index ho
  obtain ⟨_, r₁, -, hr₁, hf₁, -, -, hvar₁⟩ := hp₁.outs k o hk
  obtain ⟨_, r₂, -, hr₂, hf₂, -, -, hvar₂⟩ := hp₂.outs k o hk
  refine ⟨r₁, r₂, hr₁, hr₂, by simp [SimdReg.isVarying, hf₁, hA],
    by simp [SimdReg.isVarying, hf₂, hA], ?_⟩
  intro i hi
  obtain ⟨a₁, hw₁, hon₁, -⟩ := hvar₁ hA i hi
  obtain ⟨a₂, hw₂, hon₂, -⟩ := hvar₂ hA i hi
  have ha₁ : a₁ = true := by
    simpa [Builtin.writesLane, hfast] using hw₁.symm
  have ha₂ : a₂ = true := by
    have hnf : b.fastPath mask₂ xc = false := by
      have hv : mask₂.varying = true := hm₂
      cases b <;> simp [Builtin.fastPath, hv]
    simpa [Builtin.writesLane, hnf, hall i hi] using hw₂.symm
  obtain ⟨vs₁, v₁, hk₁, hv₁, hg₁⟩ := hon₁ ha₁
  obtain ⟨vs₂, v₂, hk₂, hv₂, hg₂⟩ := hon₂ ha₂
  rw [hk₁] at hk₂
  cases hk₂
  rw [hv₁] at hv₂
  cases hv₂
  exact ⟨v₁, hg₁, hg₂⟩

/-- Fast-path equivalence applied to `lookup1D` on the sample frame: the non-varying mask
against the varying all-true mask. -/
theorem fast_path_eq_general_path_witness :
    Builtin.lookup1D.wellFormed demoMaskUniform demoFrame1D = true ∧
    Builtin.lookup1D.wellFormed demoMaskAll demoFrame1D = true ∧
    Builtin.lookup1D.fastPath demoMaskUniform demoFrame1D = true ∧
    demoMaskAll.isVarying = true ∧
    (∀ i, i < demoFrame1D.regSize → demoMaskAll.get i = .ok true) ∧
    ∃ xc₁ xc₂, Builtin.lookup1D.run demoKernels demoMaskUniform demoFrame1D = .ok xc₁ ∧
      Builtin.lookup1D.run demoKernels demoMaskAll demoFrame1D = .ok xc₂ ∧
      ∀ o ∈ Builtin.lookup1D.outOffsets, ∃ r₁ r₂, xc₁.stack.regFpRelative o = .ok r₁ ∧
        xc₂.stack.regFpRelative o = .ok r₂ ∧ r₁.isVarying = true ∧ r₂.isVarying = true ∧
        ∀ i, i < demoFrame1D.regSize → ∃ v, r₁.get i = .ok v ∧ r₂.get i = .ok v :=
  ⟨by decide, by decide, by decide, by decide, by decide,
    fast_path_eq_general_path demoKernels .lookup1D demoMaskUniform demoMaskAll demoFrame1D
      (by decide) (by decide)
      ⟨(-5, .float), by decide, ⟨true, [.float 1, .float 2, .float 3]⟩, by decide, rfl⟩
      (by decide) (by decide)
      (by decide)⟩

/-- C5. Uniform/varying equivalence: if the all-uniform call yields a uniform
result, the call in which the same scalars are supplied in varying registers
(every lane holding that scalar) under an all-true mask yields a varying output
whose every lane equals that result. -/
theorem uniform_call_eq_replicated_call (K : Kernels F H) (b : Builtin)
    (maskU maskV : SimdBoolMask) (xcU xcV : SimdXContext F H)
    (hU : b.wellFormed maskU xcU = true) (hV : b.wellFormed maskV xcV = true)
    (hsize : ∀ o ∈ b.sizeOffsets, xcV.stack.regFpRelative o = xcU.stack.regFpRelative o)
    (hargs : ∀ a ∈ b.argOffsets, ∃ v, xcU.stack.regFpRelative a.1 = .ok ⟨false, [v]⟩ ∧
      xcV.stack.regFpRelative a.1 = .ok ⟨true, List.replicate xcV.regSize v⟩)
    (hmask : ∀ i, i < xcV.regSize → maskV.get i = .ok true) :
    ∃ xcU' xcV', b.run K maskU xcU = .ok xcU' ∧ b.run K maskV xcV = .ok xcV' ∧
      ∀ o ∈ b.outOffsets, ∃ rU rV v, xcU'.stack.regFpRelative o = .ok rU ∧
        xcV'.stack.regFpRelative o = .ok rV ∧ rU.isVarying = false ∧ rU.get 0 = .ok v ∧
        rV.isVarying = true ∧ ∀ i, i < xcV.regSize → rV.get i = .ok v := by
  obtain ⟨xcU', hrunU, hpU⟩ := Builtin.run_post K b maskU xcU hU
  obtain ⟨xcV', hrunV, hpV⟩ := Builtin.run_post K b maskV xcV hV
  have hAU : b.anyVarying xcU = false := by
    unfold Builtin.anyVarying
    rw [List.any_eq_false]
    intro a ha
    obtain ⟨v, hu, -⟩ := hargs a ha
    simp [SimdXContext.flag, hu]
  have hAV : b.anyVarying xcV = true := by
    have hne : ∃ a, a ∈ b.argOffsets := by cases b <;> exact ⟨_, List.mem_cons_self _ _⟩
    obtain ⟨a, ha⟩ := hne
    obtain ⟨v, -, hv⟩ := hargs a ha
    exact (Builtin.anyVarying_iff b xcV).mpr ⟨a, ha, _, hv, rfl⟩
  have hkern : ∀ i, i < xcV.regSize → b.kernelAt K xcV i = b.kernelAt K xcU 0 := by
    intro i hi
    apply Builtin.kernelAt_congr
    · intro o ho
      simp [SimdXContext.lane, hsize o ho]
    · intro a ha
      obtain ⟨v, hu, hv⟩ := hargs a ha
      simp [SimdXContext.lane, hu, hv, SimdReg.get, SimdReg.slot, hi]
  refine ⟨xcU', xcV', hrunU, hrunV, ?_⟩
  intro o ho
  obtain ⟨k, hk⟩ := b.outOffsets_index ho
  obtain ⟨_, rU, -, hrU, hfU, -, huni, -⟩ := hpU.outs k o hk
  obtain ⟨_, rV, -, hrV, hfV, -, -, hvar⟩ := hpV.outs k o hk
  obtain ⟨vs, v, hkU, hv, hgU⟩ := huni hAU
  refine ⟨rU, rV, v, hrU, hrV, by simp [SimdReg.isVarying, hfU, hAU], hgU,
    by simp [SimdReg.isVarying, hfV, hAV], ?_⟩
  intro i hi
  obtain ⟨a, hw, hon, -⟩ := hvar hAV i hi
  have ha : a = true := by
    unfold Builtin.writesLane at hw
    split at hw
    · cases hw
      rfl
    · rw [hmask i hi] at hw
      cases hw
      rfl
  obtain ⟨vs', v', hkV, hv', hgV⟩ := hon ha
  rw [hkern i hi, hkU] at hkV
  cases hkV
  rw [hv] at hv'
  cases hv'
  exact hgV

/-- Uniform/varying equivalence applied to `lookup1D` on the uniform sample frame and its
replicated varying counterpart. -/
theorem uniform_call_eq_replicated_call_witness :
    Builtin.lookup1D.wellFormed demoMaskUniform demoUniform1D = true ∧
    Builtin.lookup1D.wellFormed demoMaskAll demoReplicated1D = true ∧
    (∀ i, i < demoReplicated1D.regSize → demoMaskAll.get i = .ok true) ∧
    ∃ xcU' xcV', Builtin.lookup1D.run demoKernels demoMaskUniform demoUniform1D = .ok xcU' ∧
      Builtin.lookup1D.run demoKernels demoMaskAll demoReplicated1D = .ok xcV' ∧
      ∀ o ∈ Builtin.lookup1D.outOffsets, ∃ rU rV v, xcU'.stack.regFpRelative o = .ok rU ∧
        xcV'.stack.regFpRelative o = .ok rV ∧ rU.isVarying = false ∧ rU.get 0 = .ok v ∧
        rV.isVarying = true ∧ ∀ i, i < demoReplicated1D.regSize → rV.get i = .ok v :=
  ⟨by decide, by decide, by decide,
    uniform_call_eq_replicated_call demoKernels .lookup1D demoMaskUniform demoMaskAll
      demoUniform1D demoReplicated1D (by decide) (by decide) (by decide)
      (by
        intro a ha
        simp only [Builtin.argOffsets, List.mem_cons, List.mem_singleton, List.not_mem_nil,
          or_false] at ha
        rcases ha with rfl | rfl | rfl | rfl
        · exact ⟨_, rfl, rfl⟩
        · exact ⟨_, rfl, rfl⟩
        · exact ⟨_, rfl, rfl⟩
        · exact ⟨_, rfl, rfl⟩)
      (by decide)⟩

/-- C6. Multi-component output consistency: after a call of `lookup3D_f` or
`lookup3D_h` the output registers `q0`, `q1`, `q2` carry the same varying flag,
and on the per-lane path each lane is stored in all three registers (mask
true: the three components of the kernel result) or in none of them (mask
false: all three keep their previous value). -/
theorem split_outputs_consistent (K : Kernels F H) (b : Builtin) (mask : SimdBoolMask)
    (xc : SimdXContext F H) (hb : b = .lookup3D_f ∨ b = .lookup3D_h)
    (h : b.wellFormed mask xc = true) :
    ∃ xc' q0 q1 q2 q0' q1' q2', b.run K mask xc = .ok xc' ∧
      xc.stack.regFpRelative (-10) = .ok q0 ∧ xc.stack.regFpRelative (-11) = .ok q1 ∧
      xc.stack.regFpRelative (-12) = .ok q2 ∧
      xc'.stack.regFpRelative (-10) = .ok q0' ∧ xc'.stack.regFpRelative (-11) = .ok q1' ∧
      xc'.stack.regFpRelative (-12) = .ok q2' ∧
      q0'.isVarying = q1'.isVarying ∧ q1'.isVarying = q2'.isVarying ∧
      (q0'.isVarying = true → ∀ i, i < xc.regSize → ∃ m, mask.get i = .ok m ∧
        (m = true → ∃ vs v0 v1 v2, b.kernelAt K xc i = .ok vs ∧ vs[0]? = some v0 ∧
          vs[1]? = some v1 ∧ vs[2]? = some v2 ∧ q0'.get i = .ok v0 ∧ q1'.get i = .ok v1 ∧
          q2'.get i = .ok v2) ∧
        (m = false → q0'.get i = q0.get i ∧ q1'.get i = q1.get i ∧
          q2'.get i = q2.get i)) := by
  obtain ⟨xc', hrun, hp⟩ := Builtin.run_post K b mask xc h
  have hout : b.outOffsets = [-10, -11, -12] := by
    rcases hb with rfl | rfl <;> rfl
  have hnf : b.fastPath mask xc = false := by
    rcases hb with rfl | rfl <;> rfl
  obtain ⟨q0, q0', hq0, hq0', hf0, -, -, hvar0⟩ := hp.outs 0 (-10) (by rw [hout]; rfl)
  obtain ⟨q1, q1', hq1, hq1', hf1, -, -, hvar1⟩ := hp.outs 1 (-11) (by rw [hout]; rfl)
  obtain ⟨q2, q2', hq2, hq2', hf2, -, -, hvar2⟩ := hp.outs 2 (-12) (by rw [hout]; rfl)
  refine ⟨xc', q0, q1, q2, q0', q1', q2', hrun, hq0, hq1, hq2, hq0', hq1', hq2',
    by simp [SimdReg.isVarying, hf0, hf1], by simp [SimdReg.isVarying, hf1, hf2], ?_⟩
  intro hv i hi
  have hA : b.anyVarying xc = true := by
    rw [← hf0]
    exact hv
  obtain ⟨a0, hw0, hon0, hoff0⟩ := hvar0 hA i hi
  obtain ⟨a1, hw1, hon1, hoff1⟩ := hvar1 hA i hi
  obtain ⟨a2, hw2, hon2, hoff2⟩ := hvar2 hA i hi
  rw [hw0] at hw1 hw2
  cases hw1
  cases hw2
  refine ⟨a0, by simpa [Builtin.writesLane, hnf] using hw0, ?_, ?_⟩
  · intro ha
    obtain ⟨vs, v0, hk0, hv0, hg0⟩ := hon0 ha
    obtain ⟨vs1, v1, hk1, hv1, hg1⟩ := hon1 ha
    obtain ⟨vs2, v2, hk2, hv2, hg2⟩ := hon2 ha
    rw [hk0] at hk1 hk2
    cases hk1
    cases hk2
    exact ⟨vs, v0, v1, v2, hk0, hv0, hv1, hv2, hg0, hg1, hg2⟩
  · intro ha
    exact ⟨hoff0 ha, hoff1 ha, hoff2 ha⟩

/-- Output consistency applied to `lookup3D_f` on the sample frame with two lanes. -/
theorem split_outputs_consistent_witness :
    Builtin.lookup3D_f.wellFormed demoMaskTwo demoFrame3D = true ∧
    ∃ xc' q0 q1 q2 q0' q1' q2', Builtin.lookup3D_f.run demoKernels demoMaskTwo demoFrame3D =
        .ok xc' ∧
      demoFrame3D.stack.regFpRelative (-10) = .ok q0 ∧
      demoFrame3D.stack.regFpRelative (-11) = .ok q1 ∧
      demoFrame3D.stack.regFpRelative (-12) = .ok q2 ∧
      xc'.stack.regFpRelative (-10) = .ok q0' ∧ xc'.stack.regFpRelative (-11) = .ok q1' ∧
      xc'.stack.regFpRelative (-12) = .ok q2' ∧
      q0'.isVarying = q1'.isVarying ∧ q1'.isVarying = q2'.isVarying ∧
      (q0'.isVarying = true → ∀ i, i < demoFrame3D.regSize → ∃ m, demoMaskTwo.get i = .ok m ∧
        (m = true → ∃ vs v0 v1 v2,
          Builtin.lookup3D_f.kernelAt demoKernels demoFrame3D i = .ok vs ∧
          vs[0]? = some v0 ∧ vs[1]? = some v1 ∧ vs[2]? = some v2 ∧ q0'.get i = .ok v0 ∧
          q1'.get i = .ok v1 ∧ q2'.get i = .ok v2) ∧
        (m = false → q0'.get i = q0.get i ∧ q1'.get i = q1.get i ∧
          q2'.get i = q2.get i)) :=
  ⟨by decide,
    split_outputs_consistent demoKernels .lookup3D_f demoMaskTwo demoFrame3D (Or.inl rfl)
      (by decide)⟩

/-- C7. Lane independence: two calls whose inputs, mask and previous output
contents agree at lane `i` (broadcast reads, so that uniform registers are
equal), and in which every register and the mask is uniform in both calls or
varying in both, or else lane `i` is active, leave the same value in lane `i`
of every output register, whatever the other lanes hold. -/
theorem lane_independent (K : Kernels F H) (b : Builtin) (mask₁ mask₂ : SimdBoolMask)
    (xc₁ xc₂ : SimdXContext F H) (h₁ : b.wellFormed mask₁ xc₁ = true)
    (h₂ : b.wellFormed mask₂ xc₂ = true) (i : Nat) (hi₁ : i < xc₁.regSize)
    (hi₂ : i < xc₂.regSize) (hmask : mask₁.get i = mask₂.get i)
    (hin : ∀ o ∈ b.inputOffsets, xc₁.lane o i = xc₂.lane o i)
    (hout : ∀ o ∈ b.outOffsets, xc₁.lane o i = xc₂.lane o i)
    (hshape : mask₁.get i = .ok true ∨
      (mask₁.isVarying = mask₂.isVarying ∧ ∀ o ∈ b.inputOffsets, xc₁.flag o = xc₂.flag o)) :
    ∃ xc₁' xc₂', b.run K mask₁ xc₁ = .ok xc₁' ∧ b.run K mask₂ xc₂ = .ok xc₂' ∧
      ∀ o ∈ b.outOffsets, xc₁'.lane o i = xc₂'.lane o i := by
  obtain ⟨xc₁', hrun₁, hp₁⟩ := Builtin.run_post K b mask₁ xc₁ h₁
  obtain ⟨xc₂', hrun₂, hp₂⟩ := Builtin.run_post K b mask₂ xc₂ h₂
  have hsz : ∀ o ∈ b.sizeOffsets, xc₁.lane o i = xc₂.lane o i :=
    fun o ho => hin o (by simp [Builtin.inputOffsets, ho])
  have harg : ∀ a ∈ b.argOffsets, xc₁.lane a.1 i = xc₂.lane a.1 i :=
    fun a ha => hin a.1 (by
      simp only [Builtin.inputOffsets, List.mem_append, List.mem_map]
      exact Or.inr ⟨a, ha, rfl⟩)
  have hsz0 : ∀ o ∈ b.sizeOffsets, xc₁.lane o 0 = xc₂.lane o 0 := by
    intro o ho
    rw [← SimdXContext.lane_uniform xc₁ o (b.size_flag mask₁ xc₁ h₁ o ho) i,
      ← SimdXContext.lane_uniform xc₂ o (b.size_flag mask₂ xc₂ h₂ o ho) i]
    exact hsz o ho
  have hK : b.kernelAt K xc₁ i = b.kernelAt K xc₂ i :=
    Builtin.kernelAt_congr K b xc₁ xc₂ i i hsz0 harg
  refine ⟨xc₁', xc₂', hrun₁, hrun₂, ?_⟩
  intro o ho
  obtain ⟨k, hk⟩ := b.outOffsets_index ho
  rcases hshape with hact | ⟨hmflag, hflag⟩
  · obtain ⟨r₁', vs₁, v₁, hr₁', hk₁, hv₁, hg₁⟩ := hp₁.active_lane hi₁ hact hk
    obtain ⟨r₂', vs₂, v₂, hr₂', hk₂, hv₂, hg₂⟩ :=
      hp₂.active_lane hi₂ (by rw [← hmask]; exact hact) hk
    rw [hK, hk₂] at hk₁
    cases hk₁
    rw [hv₂] at hv₁
    cases hv₁
    simp only [SimdXContext.lane, hr₁', hr₂', ok_bind_fn, hg₁, hg₂]
  · have hfarg : ∀ a ∈ b.argOffsets, xc₁.flag a.1 = xc₂.flag a.1 :=
      fun a ha => hflag a.1 (by
        simp only [Builtin.inputOffsets, List.mem_append, List.mem_map]
        exact Or.inr ⟨a, ha, rfl⟩)
    have hA : b.anyVarying xc₁ = b.anyVarying xc₂ := by
      unfold Builtin.anyVarying
      rw [Bool.eq_iff_iff]
      simp only [List.any_eq_true]
      constructor
      · rintro ⟨a, ha, hf⟩
        exact ⟨a, ha, by rw [← hfarg a ha]; exact hf⟩
      · rintro ⟨a, ha, hf⟩
        exact ⟨a, ha, by rw [hfarg a ha]; exact hf⟩
    have hF : b.fastPath mask₁ xc₁ = b.fastPath mask₂ xc₂ := by
      have hmv : mask₁.varying = mask₂.varying := hmflag
      cases b <;>
        simp only [Builtin.argOffsets, List.mem_cons, List.mem_singleton, List.not_mem_nil,
          or_false, forall_eq_or_imp, forall_eq] at hfarg <;>
        simp [Builtin.fastPath, hmv, hfarg]
    have hW : b.writesLane mask₁ xc₁ i = b.writesLane mask₂ xc₂ i := by
      simp [Builtin.writesLane, hF, hmask]
    obtain ⟨r₁, r₁', hr₁, hr₁', hf₁, -, huni₁, hvar₁⟩ := hp₁.outs k o hk
    obtain ⟨r₂, r₂', hr₂, hr₂', hf₂, -, huni₂, hvar₂⟩ := hp₂.outs k o hk
    have hprev : r₁.get i = r₂.get i := by
      simpa [SimdXContext.lane, hr₁, hr₂] using hout o ho
    simp only [SimdXContext.lane, hr₁', hr₂', ok_bind_fn]
    cases hc : b.anyVarying xc₁ with
    | false =>
      have hc₂ : b.anyVarying xc₂ = false := by rw [← hA]; exact hc
      obtain ⟨vs₁, v₁, hk₁, hv₁, hg₁⟩ := huni₁ hc
      obtain ⟨vs₂, v₂, hk₂, hv₂, hg₂⟩ := huni₂ hc₂
      have hK0 : b.kernelAt K xc₁ 0 = b.kernelAt K xc₂ 0 := by
        apply Builtin.kernelAt_congr K b xc₁ xc₂ 0 0 hsz0
        intro a ha
        rw [← SimdXContext.lane_uniform xc₁ a.1 (b.anyVarying_eq_false xc₁ hc a ha) i,
          ← SimdXContext.lane_uniform xc₂ a.1 (b.anyVarying_eq_false xc₂ hc₂ a ha) i]
        exact harg a ha
      rw [hK0, hk₂] at hk₁
      cases hk₁
      rw [hv₂] at hv₁
      cases hv₁
      rw [SimdReg.get_uniform (by rw [hf₁, hc]) i, SimdReg.get_uniform (by rw [hf₂, hc₂]) i,
        hg₁, hg₂]
    | true =>
      have hc₂ : b.anyVarying xc₂ = true := by rw [← hA]; exact hc
      obtain ⟨a₁, hw₁, hon₁, hoff₁⟩ := hvar₁ hc i hi₁
      obtain ⟨a₂, hw₂, hon₂, hoff₂⟩ := hvar₂ hc₂ i hi₂
      have e : a₁ = a₂ := by
        rw [hW, hw₂] at hw₁
        exact (Except.ok.inj hw₁).symm
      subst e
      cases a₁ with
      | false => rw [hoff₁ rfl, hoff₂ rfl, hprev]
      | true =>
        obtain ⟨vs₁, v₁, hk₁, hv₁, hg₁⟩ := hon₁ rfl
        obtain ⟨vs₂, v₂, hk₂, hv₂, hg₂⟩ := hon₂ rfl
        rw [hK, hk₂] at hk₁
        cases hk₁
        rw [hv₂] at hv₁
        cases hv₁
        rw [hg₁, hg₂]

/-- Lane independence applied to `lookup1D` at lane 2 of two sample frames that
differ in the lanes 0 and 1. -/
theorem lane_independent_witness :
    Builtin.lookup1D.wellFormed demoMask demoFrame1D = true ∧
    Builtin.lookup1D.wellFormed demoMaskAlt demoFrame1DAlt = true ∧
    demoMask.get 2 = demoMaskAlt.get 2 ∧
    (∀ o ∈ Builtin.lookup1D.inputOffsets, demoFrame1D.lane o 2 = demoFrame1DAlt.lane o 2) ∧
    (∀ o ∈ Builtin.lookup1D.outOffsets, demoFrame1D.lane o 2 = demoFrame1DAlt.lane o 2) ∧
    (demoMask.get 2 = .ok true ∨ (demoMask.isVarying = demoMaskAlt.isVarying ∧
      ∀ o ∈ Builtin.lookup1D.inputOffsets, demoFrame1D.flag o = demoFrame1DAlt.flag o)) ∧
    ∃ xc₁' xc₂', Builtin.lookup1D.run demoKernels demoMask demoFrame1D = .ok xc₁' ∧
      Builtin.lookup1D.run demoKernels demoMaskAlt demoFrame1DAlt = .ok xc₂' ∧
      ∀ o ∈ Builtin.lookup1D.outOffsets, xc₁'.lane o 2 = xc₂'.lane o 2 :=
  ⟨by decide, by decide, by decide, by decide, by decide, by decide,
    lane_independent demoKernels .lookup1D demoMask demoMaskAlt demoFrame1D demoFrame1DAlt
      (by decide) (by decide) 2 (by decide) (by decide) (by decide) (by decide) (by decide)
      (by decide)⟩

/-- C8. Frame effect: a call changes nothing but its output registers: the
lane count, the frame pointer and the stack height are unchanged, and so is the
register at every frame offset other than the output offsets (-6 for
`lookup1D`, -8 for `lookup3D_f3`, -10, -11, -12 for `lookup3D_f` and
`lookup3D_h`, -4 for the interpolations), in particular the size, table, range
and position registers. -/
theorem only_outputs_change (K : Kernels F H) (b : Builtin) (mask : SimdBoolMask)
    (xc : SimdXContext F H) (h : b.wellFormed mask xc = true) :
    ∃ xc', b.run K mask xc = .ok xc' ∧ xc'.regSize = xc.regSize ∧
      xc'.stack.fp = xc.stack.fp ∧ xc'.stack.regs.length = xc.stack.regs.length ∧
      (∀ o : Int, o ∉ b.outOffsets → xc'.stack.regFpRelative o = xc.stack.regFpRelative o) ∧
      (∀ o ∈ b.inputOffsets, xc'.stack.regFpRelative o = xc.stack.regFpRelative o) := by
  obtain ⟨xc', hrun, hp⟩ := Builtin.run_post K b mask xc h
  refine ⟨xc', hrun, hp.regSize_eq, hp.fp_eq, hp.length_eq, hp.frame, ?_⟩
  intro o ho
  apply hp.frame
  revert o
  cases b <;> decide


/-- The frame effect applied to `lookup3D_f` on the sample frame with two lanes. -/
theorem only_outputs_change_witness :
    Builtin.lookup3D_f.wellFormed demoMaskTwo demoFrame3D = true ∧
    ∃ xc', Builtin.lookup3D_f.run demoKernels demoMaskTwo demoFrame3D = .ok xc' ∧
      xc'.regSize = demoFrame3D.regSize ∧ xc'.stack.fp = demoFrame3D.stack.fp ∧
      xc'.stack.regs.length = demoFrame3D.stack.regs.length ∧
      (∀ o : Int, o ∉ Builtin.lookup3D_f.outOffsets →
        xc'.stack.regFpRelative o = demoFrame3D.stack.regFpRelative o) ∧
      (∀ o ∈ Builtin.lookup3D_f.inputOffsets,
        xc'.stack.regFpRelative o = demoFrame3D.stack.regFpRelative o) :=
  ⟨by decide,
    only_outputs_change demoKernels .lookup3D_f demoMaskTwo demoFrame3D (by decide)⟩

/-- C9 (as amended). Frame layout: every input of a built-in is bound at a
negative frame offset, and every output register is bound at a negative offset
below (numerically less than) the offsets of all inputs of that built-in. -/
theorem outputs_below_inputs (b : Builtin) :
    (∀ i ∈ b.inputOffsets, i < 0) ∧
      ∀ o ∈ b.outOffsets, o < 0 ∧ ∀ i ∈ b.inputOffsets, o < i := by
  cases b <;> decide

/-- C9 (counterexample). The call of `lookup1D` on a sample frame writes the
register at offset -6 and leaves the inputs alone, and -6 is not above the
input offsets -1, ..., -5. -/
theorem lookup1D_return_not_above_inputs :
    (∃ xc', simdLookup1D demoKernels demoMask demoFrame1D = .ok xc' ∧
      xc'.stack.regFpRelative (-6) ≠ demoFrame1D.stack.regFpRelative (-6) ∧
      ∀ i ∈ Builtin.lookup1D.inputOffsets,
        xc'.stack.regFpRelative i = demoFrame1D.stack.regFpRelative i) ∧
    ¬ (∀ o ∈ Builtin.lookup1D.outOffsets, ∀ i ∈ Builtin.lookup1D.inputOffsets, i < o) :=
  ⟨⟨_, rfl, by decide, by decide⟩, by decide⟩

/-- C10. Lookup1D boundary: called with all-uniform arguments on a dense table
of size at least 2 and a range `pMin < pMax`, the `lookup1D` built-in returns
`table[0]` at `p = pMin` and `table[size - 1]` at `p = pMax`; for the table
`[0, 1, 2, 3]` over `[0, 3]` it returns `3 / 2` at `p = 3 / 2`. -/
theorem lookup1D_boundary {H : Type} (K : Kernels ℚ H) (hK : K.lookup1D = lookup1D)
    (mask : SimdBoolMask) (xc : SimdXContext ℚ H) (table : List ℚ) (pMin pMax p : ℚ)
    (h : Builtin.wellFormed .lookup1D mask xc = true)
    (hsize : xc.stack.regFpRelative (-1) = .ok ⟨false, [.int table.length]⟩)
    (htable : xc.stack.regFpRelative (-2) = .ok ⟨false, [.table table]⟩)
    (hpMin : xc.stack.regFpRelative (-3) = .ok ⟨false, [.float pMin]⟩)
    (hpMax : xc.stack.regFpRelative (-4) = .ok ⟨false, [.float pMax]⟩)
    (hp : xc.stack.regFpRelative (-5) = .ok ⟨false, [.float p]⟩)
    (hlen : 2 ≤ table.length) (hrange : pMin < pMax) :
    ∃ xc' r', simdLookup1D K mask xc = .ok xc' ∧ xc'.stack.regFpRelative (-6) = .ok r' ∧
      r'.isVarying = false ∧
      (p = pMin → ∀ v, table[0]? = some v → r'.get 0 = .ok (.float v)) ∧
      (p = pMax → ∀ v, table[table.length - 1]? = some v → r'.get 0 = .ok (.float v)) ∧
      (table = [0, 1, 2, 3] → pMin = 0 → pMax = 3 → p = 3 / 2 →
        r'.get 0 = .ok (.float (3 / 2))) := by
  obtain ⟨xc', hrun, hpost⟩ := Builtin.run_post K .lookup1D mask xc h
  have hA : Builtin.anyVarying .lookup1D xc = false := by
    simp [Builtin.anyVarying, Builtin.argOffsets, SimdXContext.flag, htable, hpMin, hpMax, hp]
  obtain ⟨_, r', -, hr', hf, -, huni, -⟩ := hpost.outs 0 (-6) (by decide)
  obtain ⟨vs, v, hk, hv, hg⟩ := huni hA
  have hkern : Builtin.kernelAt K .lookup1D xc 0 =
      .ok [.float (lookup1D table table.length pMin pMax p)] := by
    simp [Builtin.kernelAt, SimdXContext.lane, hsize, htable, hpMin, hpMax, hp, SimdReg.get,
      SimdReg.slot, Val.toInt, Val.toTable, Val.toFloat, hK]
  rw [hkern] at hk
  cases hk
  simp only [List.getElem?_cons_zero, Option.some.injEq] at hv
  subst hv
  refine ⟨xc', r', hrun, hr', by simp [SimdReg.isVarying, hf, hA], ?_, ?_, ?_⟩
  · intro hp0 v hv
    subst hp0
    rw [hg, lookup1D_at_pMin table table.length p pMax (by exact_mod_cast hlen) hrange]
    simp [tableAt, List.getD_eq_getElem?_getD, hv]
  · intro hp1 v hv
    subst hp1
    rw [hg, lookup1D_at_pMax table table.length pMin p hrange]
    have e : ((table.length : Int) - 1).toNat = table.length - 1 := by omega
    simp [tableAt, List.getD_eq_getElem?_getD, e, hv]
  · intro ht h0 h3 hp'
    subst ht h0 h3 hp'
    rw [hg]
    have e := lookup1D_linear_example
    simp only [List.length_cons, List.length_nil] at e ⊢
    norm_num at e ⊢
    exact e

/-- The boundary statement applied to the table `[0, 1, 2, 3]` over `[0, 3]` at `3 / 2`. -/
theorem lookup1D_boundary_witness :
    Builtin.wellFormed .lookup1D demoMaskUniform demoLinear1D = true ∧
    (2 ≤ [(0 : ℚ), 1, 2, 3].length) ∧ ((0 : ℚ) < 3) ∧
    ∃ xc' r', simdLookup1D demoKernelsQ demoMaskUniform demoLinear1D = .ok xc' ∧
      xc'.stack.regFpRelative (-6) = .ok r' ∧ r'.isVarying = false ∧
      ((3 / 2 : ℚ) = 0 → ∀ v, [(0 : ℚ), 1, 2, 3][0]? = some v → r'.get 0 = .ok (.float v)) ∧
      ((3 / 2 : ℚ) = 3 → ∀ v, [(0 : ℚ), 1, 2, 3][[(0 : ℚ), 1, 2, 3].length - 1]? = some v →
        r'.get 0 = .ok (.float v)) ∧
      ([(0 : ℚ), 1, 2, 3] = [0, 1, 2, 3] → (0 : ℚ) = 0 → (3 : ℚ) = 3 → (3 / 2 : ℚ) = 3 / 2 →
        r'.get 0 = .ok (.float (3 / 2))) :=
  ⟨by decide, by decide, by norm_num,
    lookup1D_boundary demoKernelsQ rfl demoMaskUniform demoLinear1D [0, 1, 2, 3] 0 3 (3 / 2)
      (by decide) rfl rfl rfl rfl rfl (by decide) (by norm_num)⟩

/-! ## Degenerate ranges and linear interpolation -/

/-- The size registers of a well-formed call hold an integer in element 0. -/
theorem Builtin.size_lane (b : Builtin) (mask : SimdBoolMask) (xc : SimdXContext F H)
    (h : b.wellFormed mask xc = true) :
    ∀ o ∈ b.sizeOffsets, ∃ s : Int, xc.lane o 0 = .ok (.int s) := by
  intro o ho
  simp only [Builtin.wellFormed, Bool.and_eq_true, List.all_eq_true,
    SimdXContext.regOk_iff, Bool.not_eq_true', decide_eq_true_eq] at h
  obtain ⟨r, hr, hs, -, ht⟩ := h.1.1.2 o ho
  obtain ⟨s, hs'⟩ := SimdReg.getInt_of_shaped hs (List.all_eq_true.mpr ht) (Nat.lt_of_lt_of_le Nat.zero_lt_one h.1.1.1.1)
  exact ⟨s, by simp [SimdXContext.lane, hr, hs']⟩

/-- The reference result of `lookup1D` at a lane, from the broadcast reads. -/
theorem Builtin.kernelAt_lookup1D (K : Kernels F H) (xc : SimdXContext F H) (i : Nat)
    {s : Int} {t : List F} {a b p : F} (hs : xc.lane (-1) 0 = .ok (.int s))
    (ht : xc.lane (-2) i = .ok (.table t)) (ha : xc.lane (-3) i = .ok (.float a))
    (hb : xc.lane (-4) i = .ok (.float b)) (hp : xc.lane (-5) i = .ok (.float p)) :
    Builtin.kernelAt K .lookup1D xc i = .ok [.float (K.lookup1D t s a b p)] := by
  simp [Builtin.kernelAt, hs, ht, ha, hb, hp, Val.toInt, Val.toTable, Val.toFloat]

theorem lookup1D_degenerate (table : List ℚ) (size : Int) (a p : ℚ) :
    lookup1D table size a a p = tableAt table 0 := by
  simp [lookup1D]

theorem tableAt_zero {table : List ℚ} {v : ℚ} (h : table[0]? = some v) :
    tableAt table 0 = v := by
  simp [tableAt, List.getD_eq_getElem?_getD, h]

/-- C11. Degenerate range: with the kernel modelled from the spec, a call of the
`lookup1D` built-in whose range is degenerate (`pMin == pMax`) returns
`table[0]` for every table, size and `p`: in the single element of the uniform
result on the all-uniform path, and in every active lane when some input is
varying.  The call completes; no error is raised. -/
theorem lookup1D_degenerate_range {H : Type} (K : Kernels ℚ H) (hK : K.lookup1D = lookup1D)
    (mask : SimdBoolMask) (xc : SimdXContext ℚ H)
    (h : Builtin.wellFormed .lookup1D mask xc = true) :
    ∃ xc' r', simdLookup1D K mask xc = .ok xc' ∧ xc'.stack.regFpRelative (-6) = .ok r' ∧
      (Builtin.anyVarying .lookup1D xc = false → ∀ (t : List ℚ) (a p v : ℚ),
        xc.lane (-2) 0 = .ok (.table t) → xc.lane (-3) 0 = .ok (.float a) →
        xc.lane (-4) 0 = .ok (.float a) → xc.lane (-5) 0 = .ok (.float p) →
        t[0]? = some v → r'.isVarying = false ∧ r'.get 0 = .ok (.float v)) ∧
      (Builtin.anyVarying .lookup1D xc = true → ∀ i, i < xc.regSize →
        mask.get i = .ok true → ∀ (t : List ℚ) (a p v : ℚ),
        xc.lane (-2) i = .ok (.table t) → xc.lane (-3) i = .ok (.float a) →
        xc.lane (-4) i = .ok (.float a) → xc.lane (-5) i = .ok (.float p) →
        t[0]? = some v → r'.isVarying = true ∧ r'.get i = .ok (.float v)) := by
  obtain ⟨xc', hrun, hpost⟩ := Builtin.run_post K .lookup1D mask xc h
  obtain ⟨s, hs⟩ := Builtin.size_lane .lookup1D mask xc h (-1) (by decide)
  obtain ⟨_, r', -, hr', hf, -, huni, -⟩ := hpost.outs 0 (-6) (by decide)
  refine ⟨xc', r', hrun, hr', ?_, ?_⟩
  · intro hA t a p v ht ha hb hp hv
    obtain ⟨vs, w, hk, hw, hg⟩ := huni hA
    rw [Builtin.kernelAt_lookup1D K xc 0 hs ht ha hb hp] at hk
    cases hk
    simp only [List.getElem?_cons_zero, Option.some.injEq] at hw
    subst hw
    refine ⟨by simp [SimdReg.isVarying, hf, hA], ?_⟩
    rw [hg, hK, lookup1D_degenerate, tableAt_zero hv]
  · intro hA i hi hm t a p v ht ha hb hp hv
    obtain ⟨r'', vs, w, hr'', hk, hw, hg⟩ :=
      hpost.active_lane hi hm (k := 0) (o := -6) (by decide)
    rw [hr'] at hr''
    cases hr''
    rw [Builtin.kernelAt_lookup1D K xc i hs ht ha hb hp] at hk
    cases hk
    simp only [List.getElem?_cons_zero, Option.some.injEq] at hw
    subst hw
    refine ⟨by simp [SimdReg.isVarying, hf, hA], ?_⟩
    rw [hg, hK, lookup1D_degenerate, tableAt_zero hv]

/-- The degenerate-range statement applied to `lookup1D` on a sample frame with
`pMin = pMax = 1`. -/
theorem lookup1D_degenerate_range_witness :
    Builtin.wellFormed .lookup1D demoMaskTwoAll demoDegenerate1D = true ∧
    ∃ xc' r', simdLookup1D demoKernelsQ demoMaskTwoAll demoDegenerate1D = .ok xc' ∧
      xc'.stack.regFpRelative (-6) = .ok r' ∧
      (Builtin.anyVarying .lookup1D demoDegenerate1D = false → ∀ (t : List ℚ) (a p v : ℚ),
        demoDegenerate1D.lane (-2) 0 = .ok (.table t) →
        demoDegenerate1D.lane (-3) 0 = .ok (.float a) →
        demoDegenerate1D.lane (-4) 0 = .ok (.float a) →
        demoDegenerate1D.lane (-5) 0 = .ok (.float p) →
        t[0]? = some v → r'.isVarying = false ∧ r'.get 0 = .ok (.float v)) ∧
      (Builtin.anyVarying .lookup1D demoDegenerate1D = true → ∀ i,
        i < demoDegenerate1D.regSize → demoMaskTwoAll.get i = .ok true →
        ∀ (t : List ℚ) (a p v : ℚ),
        demoDegenerate1D.lane (-2) i = .ok (.table t) →
        demoDegenerate1D.lane (-3) i = .ok (.float a) →
        demoDegenerate1D.lane (-4) i = .ok (.float a) →
        demoDegenerate1D.lane (-5) i = .ok (.float p) →
        t[0]? = some v → r'.isVarying = true ∧ r'.get i = .ok (.float v)) :=
  ⟨by decide,
    lookup1D_degenerate_range demoKernelsQ rfl demoMaskTwoAll demoDegenerate1D (by decide)⟩

/-- The binary search returns an interval `r` with `lo ≤ r < hi` whose left
knot is not above `p`; its right knot is above `p` when the knot `hi` is, and it
is the last interval when no knot below `hi` is above `p`. -/
theorem bracket_spec (table : List ℚ) (p : ℚ) :
    ∀ (d lo hi : Nat), hi - lo = d → lo < hi → knotX table lo ≤ p →
      lo ≤ bracket table p lo hi ∧ bracket table p lo hi < hi ∧
      knotX table (bracket table p lo hi) ≤ p ∧
      (p < knotX table hi → p < knotX table (bracket table p lo hi + 1)) ∧
      ((∀ m, m < hi → knotX table m ≤ p) → bracket table p lo hi + 1 = hi) := by
  intro d
  induction d using Nat.strong_induction_on with
  | _ d ih =>
    intro lo hi hd hlt hlo
    rw [bracket]
    by_cases h1 : lo + 1 < hi
    · rw [if_pos h1]
      by_cases h2 : knotX table ((lo + hi) / 2) ≤ p
      · rw [if_pos h2]
        obtain ⟨a1, a2, a3, a4, a5⟩ :=
          ih (hi - (lo + hi) / 2) (by omega) ((lo + hi) / 2) hi rfl (by omega) h2
        exact ⟨by omega, a2, a3, a4, a5⟩
      · rw [if_neg h2]
        obtain ⟨a1, a2, a3, a4, a5⟩ :=
          ih ((lo + hi) / 2 - lo) (by omega) lo ((lo + hi) / 2) rfl (by omega) hlo
        refine ⟨a1, by omega, a3, fun _ => a4 (lt_of_not_le h2), ?_⟩
        intro hall
        exact absurd (hall ((lo + hi) / 2) (by omega)) h2
    · rw [if_neg h1]
      have e : lo + 1 = hi := by omega
      refine ⟨Nat.le_refl _, hlt, hlo, ?_, fun _ => e⟩
      intro hp
      rw [e]
      exact hp

theorem knotX_mono {table : List ℚ} {n : Nat}
    (hmono : ∀ i j, i < j → j < n → knotX table i < knotX table j) {i j : Nat} (hij : i ≤ j)
    (hj : j < n) : knotX table i ≤ knotX table j := by
  rcases Nat.lt_or_eq_of_le hij with h | h
  · exact le_of_lt (hmono i j h hj)
  · rw [h]

theorem lerp_zero (a b : ℚ) : lerp a b 0 = a := by
  simp [lerp]

theorem lerp_one (a b : ℚ) : lerp a b 1 = b := by
  simp [lerp]

/-- At or below the first knot the interpolation yields the first `y`. -/
theorem interpolateLinear1D_below (table : List ℚ) (size : Int) (p : ℚ)
    (hsize : 2 ≤ size.toNat)
    (hmono : ∀ i j, i < j → j < size.toNat → knotX table i < knotX table j)
    (hp : p ≤ knotX table 0) : interpolateLinear1D table size p = knotY table 0 := by
  have hlast : knotX table 0 < knotX table (size.toNat - 1) :=
    hmono 0 (size.toNat - 1) (by omega) (by omega)
  have hq : clamp p (knotX table 0) (knotX table (size.toNat - 1)) = knotX table 0 := by
    unfold clamp
    by_cases h : p < knotX table 0
    · rw [if_pos h]
    · have e : p = knotX table 0 := le_antisymm hp (not_lt.mp h)
      rw [if_neg h, if_neg (by rw [e]; exact not_lt.mpr (le_of_lt hlast)), e]
  obtain ⟨-, b2, b3, b4, -⟩ := bracket_spec table (knotX table 0) (size.toNat - 1) 0
    (size.toNat - 1) rfl (by omega) (le_refl _)
  have hk : bracket table (knotX table 0) 0 (size.toNat - 1) = 0 := by
    by_contra hne
    have hpos : 0 < bracket table (knotX table 0) 0 (size.toNat - 1) := Nat.pos_of_ne_zero hne
    have := hmono 0 _ hpos (by omega)
    exact absurd b3 (not_le.mpr this)
  unfold interpolateLinear1D
  simp only [hq, hk, sub_self, zero_div, lerp_zero]

/-- At or above the last knot the interpolation yields the last `y`. -/
theorem interpolateLinear1D_above (table : List ℚ) (size : Int) (p : ℚ)
    (hsize : 2 ≤ size.toNat)
    (hmono : ∀ i j, i < j → j < size.toNat → knotX table i < knotX table j)
    (hp : knotX table (size.toNat - 1) ≤ p) :
    interpolateLinear1D table size p = knotY table (size.toNat - 1) := by
  have hlast : knotX table 0 < knotX table (size.toNat - 1) :=
    hmono 0 (size.toNat - 1) (by omega) (by omega)
  have hq : clamp p (knotX table 0) (knotX table (size.toNat - 1)) =
      knotX table (size.toNat - 1) := by
    unfold clamp
    rw [if_neg (not_lt.mpr (le_trans (le_of_lt hlast) hp))]
    by_cases h : knotX table (size.toNat - 1) < p
    · rw [if_pos h]
    · rw [if_neg h]
      exact le_antisymm (not_lt.mp h) hp
  obtain ⟨-, -, -, -, b5⟩ := bracket_spec table (knotX table (size.toNat - 1))
    (size.toNat - 1) 0 (size.toNat - 1) rfl (by omega) (le_of_lt hlast)
  have hk := b5 (fun m hm => le_of_lt (hmono m (size.toNat - 1) hm (by omega)))
  unfold interpolateLinear1D
  simp only [hq]
  generalize bracket table (knotX table (size.toNat - 1)) 0 (size.toNat - 1) = r at hk
  have hne : knotX table (r + 1) - knotX table r ≠ 0 :=
    sub_ne_zero.mpr (ne_of_gt (hmono r (r + 1) (Nat.lt_succ_self r) (by omega)))
  rw [← hk, div_self hne, lerp_one]

/-- Between two neighbouring knots the interpolation is the `lerp` of their
`y` values. -/
theorem interpolateLinear1D_between (table : List ℚ) (size : Int) (p : ℚ) (k : Nat)
    (hmono : ∀ i j, i < j → j < size.toNat → knotX table i < knotX table j)
    (hk : k + 1 < size.toNat) (hlo : knotX table k ≤ p) (hhi : p < knotX table (k + 1)) :
    interpolateLinear1D table size p =
      lerp (knotY table k) (knotY table (k + 1))
        ((p - knotX table k) / (knotX table (k + 1) - knotX table k)) := by
  have h0 : knotX table 0 ≤ p := le_trans (knotX_mono hmono (Nat.zero_le k) (by omega)) hlo
  have hlast : p < knotX table (size.toNat - 1) :=
    lt_of_lt_of_le hhi (knotX_mono hmono (by omega) (by omega))
  have hq : clamp p (knotX table 0) (knotX table (size.toNat - 1)) = p := by
    unfold clamp
    rw [if_neg (not_lt.mpr h0), if_neg (not_lt.mpr (le_of_lt hlast))]
  obtain ⟨-, b2, b3, b4, -⟩ := bracket_spec table p (size.toNat - 1) 0
    (size.toNat - 1) rfl (by omega) h0
  have b4' := b4 hlast
  have hr : bracket table p 0 (size.toNat - 1) = k := by
    rcases Nat.lt_trichotomy (bracket table p 0 (size.toNat - 1)) k with h | h | h
    · have := knotX_mono hmono (Nat.succ_le_of_lt h) (by omega : k < size.toNat)
      exact absurd (lt_of_lt_of_le b4' this) (not_lt.mpr hlo)
    · exact h
    · have := knotX_mono hmono (Nat.succ_le_of_lt h)
        (by omega : bracket table p 0 (size.toNat - 1) < size.toNat)
      exact absurd (lt_of_lt_of_le hhi this) (not_lt.mpr b3)
  unfold interpolateLinear1D
  simp only [hq, hr]

/-- The reference result of `interpolateLinear1D` at a lane, from the broadcast
reads. -/
theorem Builtin.kernelAt_interpolateLinear1D (K : Kernels F H) (xc : SimdXContext F H)
    (i : Nat) {s : Int} {t : List F} {p : F} (hs : xc.lane (-1) 0 = .ok (.int s))
    (ht : xc.lane (-2) i = .ok (.table t)) (hp : xc.lane (-3) i = .ok (.float p)) :
    Builtin.kernelAt K .interpolateLinear1D xc i =
      .ok [.float (K.interpolateLinear1D t s p)] := by
  simp [Builtin.kernelAt, hs, ht, hp, Val.toInt, Val.toTable, Val.toFloat]

theorem demoKnots_values :
    knotX demoKnots 0 = 0 ∧ knotX demoKnots 1 = 1 ∧ knotX demoKnots 2 = 2 ∧
    knotY demoKnots 0 = 0 ∧ knotY demoKnots 1 = 10 ∧ knotY demoKnots 2 = 10 :=
  ⟨rfl, rfl, rfl, rfl, rfl, rfl⟩

theorem demoKnots_increasing :
    ∀ i j, i < j → j < 3 → knotX demoKnots i < knotX demoKnots j := by
  obtain ⟨x0, x1, x2, -⟩ := demoKnots_values
  intro i j hij hj
  interval_cases j
  · omega
  · have : i = 0 := by omega
    subst this
    rw [x0, x1]
    norm_num
  · rcases (by omega : i = 0 ∨ i = 1) with rfl | rfl
    · rw [x0, x2]
      norm_num
    · rw [x1, x2]
      norm_num

/-- C12. Clamping and interpolation of `interpolateLinear1D`: with the kernel
modelled from the spec, for a control-point table with strictly increasing `x`
and at least two knots the built-in returns `table[0].y` for `p <= table[0].x`,
`table[size-1].y` for `p >= table[size-1].x`, and for
`table[k].x <= p < table[k+1].x` the `lerp` of `table[k].y` and `table[k+1].y`
at `(p - table[k].x) / (table[k+1].x - table[k].x)`; for the table
`[(0,0), (1,10), (2,10)]` it yields 5 at 1/2, 10 at 3/2, 0 at -1 and 10 at 5. -/
theorem interpolateLinear1D_clamps_and_interpolates {H : Type} (K : Kernels ℚ H)
    (hK : K.interpolateLinear1D = interpolateLinear1D) (mask : SimdBoolMask)
    (xc : SimdXContext ℚ H) (table : List ℚ) (size : Nat) (p : ℚ)
    (h : Builtin.wellFormed .interpolateLinear1D mask xc = true)
    (hsize : xc.stack.regFpRelative (-1) = .ok ⟨false, [.int size]⟩)
    (htable : xc.stack.regFpRelative (-2) = .ok ⟨false, [.table table]⟩)
    (hp : xc.stack.regFpRelative (-3) = .ok ⟨false, [.float p]⟩)
    (hlen : 2 ≤ size)
    (hmono : ∀ i j, i < j → j < size → knotX table i < knotX table j) :
    ∃ xc' r', simdInterpolateLinear1D K mask xc = .ok xc' ∧
      xc'.stack.regFpRelative (-4) = .ok r' ∧ r'.isVarying = false ∧
      (p ≤ knotX table 0 → r'.get 0 = .ok (.float (knotY table 0))) ∧
      (knotX table (size - 1) ≤ p → r'.get 0 = .ok (.float (knotY table (size - 1)))) ∧
      (∀ k, k + 1 < size → knotX table k ≤ p → p < knotX table (k + 1) →
        r'.get 0 = .ok (.float (lerp (knotY table k) (knotY table (k + 1))
          ((p - knotX table k) / (knotX table (k + 1) - knotX table k))))) ∧
      (table = demoKnots → size = 3 →
        (p = 1 / 2 → r'.get 0 = .ok (.float 5)) ∧ (p = 3 / 2 → r'.get 0 = .ok (.float 10)) ∧
        (p = -1 → r'.get 0 = .ok (.float 0)) ∧ (p = 5 → r'.get 0 = .ok (.float 10))) := by
  obtain ⟨xc', hrun, hpost⟩ := Builtin.run_post K .interpolateLinear1D mask xc h
  have hA : Builtin.anyVarying .interpolateLinear1D xc = false := by
    simp [Builtin.anyVarying, Builtin.argOffsets, SimdXContext.flag, htable, hp]
  obtain ⟨_, r', -, hr', hf, -, huni, -⟩ := hpost.outs 0 (-4) (by decide)
  obtain ⟨vs, v, hk, hv, hg⟩ := huni hA
  have hkern := Builtin.kernelAt_interpolateLinear1D K xc 0 (s := (size : Int)) (t := table)
    (p := p) (by simp [SimdXContext.lane, hsize, SimdReg.get, SimdReg.slot])
    (by simp [SimdXContext.lane, htable, SimdReg.get, SimdReg.slot])
    (by simp [SimdXContext.lane, hp, SimdReg.get, SimdReg.slot])
  rw [hkern] at hk
  cases hk
  simp only [List.getElem?_cons_zero, Option.some.injEq] at hv
  subst hv
  rw [hK] at hg
  have hn : (size : Int).toNat = size := Int.toNat_ofNat size
  have hmono' : ∀ i j, i < j → j < (size : Int).toNat → knotX table i < knotX table j := by
    rw [hn]
    exact hmono
  have hbelow : p ≤ knotX table 0 → r'.get 0 = .ok (.float (knotY table 0)) := by
    intro hp0
    rw [hg, interpolateLinear1D_below table size p (by rw [hn]; exact hlen) hmono' hp0]
  have habove : knotX table (size - 1) ≤ p →
      r'.get 0 = .ok (.float (knotY table (size - 1))) := by
    intro hp1
    rw [hg, interpolateLinear1D_above table size p (by rw [hn]; exact hlen) hmono'
      (by rw [hn]; exact hp1), hn]
  have hmid : ∀ k, k + 1 < size → knotX table k ≤ p → p < knotX table (k + 1) →
      r'.get 0 = .ok (.float (lerp (knotY table k) (knotY table (k + 1))
        ((p - knotX table k) / (knotX table (k + 1) - knotX table k)))) := by
    intro k hk hlo hhi
    rw [hg, interpolateLinear1D_between table size p k hmono' (by rw [hn]; exact hk) hlo hhi]
  refine ⟨xc', r', hrun, hr', by simp [SimdReg.isVarying, hf, hA], hbelow, habove, hmid, ?_⟩
  intro ht hs3
  subst ht hs3
  obtain ⟨x0, x1, x2, y0, y1, y2⟩ := demoKnots_values
  refine ⟨?_, ?_, ?_, ?_⟩
  · intro e
    rw [hmid 0 (by decide) (by rw [x0, e]; norm_num) (by rw [x1, e]; norm_num), x0, x1, y0,
      y1, e]
    norm_num [lerp]
  · intro e
    rw [hmid 1 (by decide) (by rw [x1, e]; norm_num) (by rw [x2, e]; norm_num), x1, x2, y1,
      y2, e]
    norm_num [lerp]
  · intro e
    rw [hbelow (by rw [x0, e]; norm_num), y0]
  · intro e
    rw [habove (by rw [x2, e]; norm_num), y2]

/-- The interpolation statement applied to the table `[(0,0), (1,10), (2,10)]`
queried at `1 / 2`. -/
theorem interpolateLinear1D_clamps_and_interpolates_witness :
    Builtin.wellFormed .interpolateLinear1D demoMaskUniform demoKnotsFrame = true ∧
    (2 ≤ 3) ∧ (∀ i j, i < j → j < 3 → knotX demoKnots i < knotX demoKnots j) ∧
    ∃ xc' r', simdInterpolateLinear1D demoKernelsLinear demoMaskUniform demoKnotsFrame =
        .ok xc' ∧
      xc'.stack.regFpRelative (-4) = .ok r' ∧ r'.isVarying = false ∧
      ((1 / 2 : ℚ) ≤ knotX demoKnots 0 → r'.get 0 = .ok (.float (knotY demoKnots 0))) ∧
      (knotX demoKnots (3 - 1) ≤ (1 / 2 : ℚ) →
        r'.get 0 = .ok (.float (knotY demoKnots (3 - 1)))) ∧
      (∀ k, k + 1 < 3 → knotX demoKnots k ≤ (1 / 2 : ℚ) → (1 / 2 : ℚ) < knotX demoKnots (k + 1) →
        r'.get 0 = .ok (.float (lerp (knotY demoKnots k) (knotY demoKnots (k + 1))
          (((1 / 2 : ℚ) - knotX demoKnots k) /
            (knotX demoKnots (k + 1) - knotX demoKnots k))))) ∧
      (demoKnots = demoKnots → 3 = 3 →
        ((1 / 2 : ℚ) = 1 / 2 → r'.get 0 = .ok (.float 5)) ∧
        ((1 / 2 : ℚ) = 3 / 2 → r'.get 0 = .ok (.float 10)) ∧
        ((1 / 2 : ℚ) = -1 → r'.get 0 = .ok (.float 0)) ∧
        ((1 / 2 : ℚ) = 5 → r'.get 0 = .ok (.float 10))) :=
  ⟨by decide, by decide, demoKnots_increasing,
    interpolateLinear1D_clamps_and_interpolates demoKernelsLinear rfl demoMaskUniform
      demoKnotsFrame demoKnots 3 (1 / 2) (by decide) rfl rfl rfl (by decide)
      demoKnots_increasing⟩

/-! ## Mask independence of the fast path -/

/-- The fast-path condition looks at the mask only through its varying flag. -/
theorem Builtin.fastPath_congr (b : Builtin) (mask mask' : SimdBoolMask) (xc : SimdXContext F H)
    (h : mask.isVarying = mask'.isVarying) : b.fastPath mask xc = b.fastPath mask' xc := by
  have hv : mask.varying = mask'.varying := h
  cases b <;> simp [Builtin.fastPath, hv]

theorem Builtin.fastPath_mask (b : Builtin) (mask : SimdBoolMask) (xc : SimdXContext F H)
    (h : b.fastPath mask xc = true) : mask.isVarying = false := by
  cases b <;> simp [Builtin.fastPath] at h <;> simp [SimdBoolMask.isVarying, h]

/-- C13 (as amended). Mask-independent fast path of `lookup1D`,
`interpolateLinear1D` and `interpolateCubic1D`: whenever the fast-path
condition holds (the built-in is one of these three, the mask is not varying,
table and ranges are uniform) and the position argument varies, every lane of
the output holds the kernel of the broadcast reads at that lane (element 0 of
table, size and ranges, element `i` of `p`), and the same holds under any other
non-varying mask, whatever element it stores. -/
theorem fast_path_ignores_mask (K : Kernels F H) (b : Builtin) (mask mask' : SimdBoolMask)
    (xc : SimdXContext F H) (h : b.wellFormed mask xc = true)
    (h' : b.wellFormed mask' xc = true)
    (hany : ∃ a ∈ b.argOffsets, ∃ r, xc.stack.regFpRelative a.1 = .ok r ∧ r.isVarying = true)
    (hfast : b.fastPath mask xc = true) (hm' : mask'.isVarying = false) :
    ∃ xc₁ xc₂, b.run K mask xc = .ok xc₁ ∧ b.run K mask' xc = .ok xc₂ ∧
      ∀ (k : Nat) (o : Int), b.outOffsets[k]? = some o →
        ∃ r₁ r₂, xc₁.stack.regFpRelative o = .ok r₁ ∧ xc₂.stack.regFpRelative o = .ok r₂ ∧
          ∀ i, i < xc.regSize → ∃ vs v, b.kernelAt K xc i = .ok vs ∧ vs[k]? = some v ∧
            r₁.get i = .ok v ∧ r₂.get i = .ok v := by
  obtain ⟨xc₁, hrun₁, hp₁⟩ := Builtin.run_post K b mask xc h
  obtain ⟨xc₂, hrun₂, hp₂⟩ := Builtin.run_post K b mask' xc h'
  have hA := (Builtin.anyVarying_iff b xc).mpr hany
  have hfast' : b.fastPath mask' xc = true := by
    rw [← Builtin.fastPath_congr b mask mask' xc
      (by rw [Builtin.fastPath_mask b mask xc hfast, hm'])]
    exact hfast
  refine ⟨xc₁, xc₂, hrun₁, hrun₂, ?_⟩
  intro k o hk
  obtain ⟨_, r₁, -, hr₁, -, -, -, hvar₁⟩ := hp₁.outs k o hk
  obtain ⟨_, r₂, -, hr₂, -, -, -, hvar₂⟩ := hp₂.outs k o hk
  refine ⟨r₁, r₂, hr₁, hr₂, ?_⟩
  intro i hi
  obtain ⟨a₁, hw₁, hon₁, -⟩ := hvar₁ hA i hi
  obtain ⟨a₂, hw₂, hon₂, -⟩ := hvar₂ hA i hi
  have ha₁ : a₁ = true := by
    simpa [Builtin.writesLane, hfast] using hw₁.symm
  have ha₂ : a₂ = true := by
    simpa [Builtin.writesLane, hfast'] using hw₂.symm
  obtain ⟨vs₁, v₁, hk₁, hv₁, hg₁⟩ := hon₁ ha₁
  obtain ⟨vs₂, v₂, hk₂, hv₂, hg₂⟩ := hon₂ ha₂
  rw [hk₁] at hk₂
  cases hk₂
  rw [hv₁] at hv₂
  cases hv₂
  exact ⟨vs₁, v₁, hk₁, hv₁, hg₁, hg₂⟩

/-- The fast-path statement applied to `lookup1D` on the sample frame, under the
non-varying masks holding true and false. -/
theorem fast_path_ignores_mask_witness :
    Builtin.lookup1D.wellFormed demoMaskUniform demoFrame1D = true ∧
    Builtin.lookup1D.wellFormed demoMaskUniformFalse demoFrame1D = true ∧
    Builtin.lookup1D.fastPath demoMaskUniform demoFrame1D = true ∧
    demoMaskUniformFalse.isVarying = false ∧
    ∃ xc₁ xc₂, Builtin.lookup1D.run demoKernels demoMaskUniform demoFrame1D = .ok xc₁ ∧
      Builtin.lookup1D.run demoKernels demoMaskUniformFalse demoFrame1D = .ok xc₂ ∧
      ∀ (k : Nat) (o : Int), Builtin.lookup1D.outOffsets[k]? = some o →
        ∃ r₁ r₂, xc₁.stack.regFpRelative o = .ok r₁ ∧ xc₂.stack.regFpRelative o = .ok r₂ ∧
          ∀ i, i < demoFrame1D.regSize → ∃ vs v,
            Builtin.lookup1D.kernelAt demoKernels demoFrame1D i = .ok vs ∧ vs[k]? = some v ∧
            r₁.get i = .ok v ∧ r₂.get i = .ok v :=
  ⟨by decide, by decide, by decide, by decide,
    fast_path_ignores_mask demoKernels .lookup1D demoMaskUniform demoMaskUniformFalse
      demoFrame1D (by decide) (by decide)
      ⟨(-5, .float), by decide, ⟨true, [.float 1, .float 2, .float 3]⟩, by decide, rfl⟩
      (by decide) (by decide)⟩

/-- C13 (counterexample). `lookup3D_f` has no fast path: on a frame in which
only the position `p0` varies, under a non-varying mask whose element is false
no lane is written (lane 0 of `q0` keeps 11 instead of the kernel value 7),
while under the non-varying true mask lane 0 of `q0` becomes 7: the output
depends on the element stored in the non-varying mask. -/
theorem lookup3D_f_tests_uniform_mask :
    Builtin.lookup3D_f.wellFormed demoMaskUniformFalse demoFrame3D = true ∧
    demoMaskUniformFalse.isVarying = false ∧
    Builtin.lookup3D_f.argOffsets.map (fun a => demoFrame3D.flag a.1) =
      [false, false, false, true, false, false] ∧
    Builtin.lookup3D_f.kernelAt demoKernels demoFrame3D 0 =
      .ok [.float 7, .float 8, .float 37] ∧
    (∃ xc', simdLookup3D_f demoKernels demoMaskUniformFalse demoFrame3D = .ok xc' ∧
      xc'.lane (-10) 0 = .ok (.float 11)) ∧
    (∃ xc', simdLookup3D_f demoKernels demoMaskUniform demoFrame3D = .ok xc' ∧
      xc'.lane (-10) 0 = .ok (.float 7)) :=
  ⟨by decide, by decide, by decide, by decide, ⟨_, rfl, by decide⟩, ⟨_, rfl, by decide⟩⟩

/-! ## The all-uniform path -/

theorem simdLookup1D_uniform_mask (K : Kernels F H) (mask mask₀ : SimdBoolMask)
    (xc : SimdXContext F H) (h : Builtin.wellFormed .lookup1D mask₀ xc = true)
    (hA : Builtin.anyVarying .lookup1D xc = false) :
    simdLookup1D K mask xc = simdLookup1D K mask₀ xc := by
  simp only [Builtin.wellFormed, Builtin.sizeOffsets, Builtin.argOffsets, Builtin.outOffsets,
    List.all_cons, List.all_nil, Bool.and_true, Bool.and_eq_true, decide_eq_true_eq,
    SimdXContext.regOk_iff, Bool.not_eq_true'] at h
  obtain ⟨⟨⟨⟨hn, hm⟩, size, hsz, hszs, hszv, hszt⟩, ⟨table, ht, hts, htt⟩,
    ⟨pMin, hpm, hpms, hpmt⟩, ⟨pMax, hpx, hpxs, hpxt⟩, p, hp, hps, hpt⟩, rv, hrv, hrvs, -⟩ := h
  simp only [Builtin.anyVarying, Builtin.argOffsets, List.any_cons, List.any_nil,
    SimdXContext.flag, ht, hpm, hpx, hp, Bool.or_false, Bool.or_eq_false_iff] at hA
  unfold simdLookup1D
  simp only [hsz, ht, hpm, hpx, hp, hrv, ok_bind, SimdReg.isVarying, hA,
    Bool.or_self, Bool.false_eq_true, if_false]

theorem simdLookup3D_f3_uniform_mask (K : Kernels F H) (mask mask₀ : SimdBoolMask)
    (xc : SimdXContext F H) (h : Builtin.wellFormed .lookup3D_f3 mask₀ xc = true)
    (hA : Builtin.anyVarying .lookup3D_f3 xc = false) :
    simdLookup3D_f3 K mask xc = simdLookup3D_f3 K mask₀ xc := by
  simp only [Builtin.wellFormed, Builtin.sizeOffsets, Builtin.argOffsets, Builtin.outOffsets,
    List.all_cons, List.all_nil, Bool.and_true, Bool.and_eq_true, decide_eq_true_eq,
    SimdXContext.regOk_iff, Bool.not_eq_true'] at h
  obtain ⟨⟨⟨⟨hn, hm⟩, ⟨size0, hsz0, hsz0s, hsz0v, hsz0t⟩, ⟨size1, hsz1, hsz1s, hsz1v, hsz1t⟩,
    size2, hsz2, hsz2s, hsz2v, hsz2t⟩, ⟨table, ht, hts, htt⟩, ⟨pMin, hpm, hpms, hpmt⟩,
    ⟨pMax, hpx, hpxs, hpxt⟩, p, hp, hps, hpt⟩, rv, hrv, hrvs, -⟩ := h
  simp only [Builtin.anyVarying, Builtin.argOffsets, List.any_cons, List.any_nil,
    SimdXContext.flag, ht, hpm, hpx, hp, Bool.or_false, Bool.or_eq_false_iff] at hA
  unfold simdLookup3D_f3
  simp only [hsz0, hsz1, hsz2, ht, hpm, hpx, hp, hrv, ok_bind, SimdReg.isVarying, hA,
    Bool.or_self, Bool.false_eq_true, if_false]

theorem simdLookup3D_f_uniform_mask (K : Kernels F H) (mask mask₀ : SimdBoolMask)
    (xc : SimdXContext F H) (h : Builtin.wellFormed .lookup3D_f mask₀ xc = true)
    (hA : Builtin.anyVarying .lookup3D_f xc = false) :
    simdLookup3D_f K mask xc = simdLookup3D_f K mask₀ xc := by
  simp only [Builtin.wellFormed, Builtin.sizeOffsets, Builtin.argOffsets, Builtin.outOffsets,
    List.all_cons, List.all_nil, Bool.and_true, Bool.and_eq_true, decide_eq_true_eq,
    SimdXContext.regOk_iff, Bool.not_eq_true'] at h
  obtain ⟨⟨⟨⟨hn, hm⟩, ⟨size0, hsz0, hsz0s, hsz0v, hsz0t⟩, ⟨size1, hsz1, hsz1s, hsz1v, hsz1t⟩,
    size2, hsz2, hsz2s, hsz2v, hsz2t⟩, ⟨table, ht, hts, htt⟩, ⟨pMin, hpm, hpms, hpmt⟩,
    ⟨pMax, hpx, hpxs, hpxt⟩, ⟨p0, hp0, hp0s, hp0t⟩, ⟨p1, hp1, hp1s, hp1t⟩,
    p2, hp2, hp2s, hp2t⟩, ⟨q0, hq0, hq0s, -⟩, ⟨q1, hq1, hq1s, -⟩, q2, hq2, hq2s, -⟩ := h
  simp only [Builtin.anyVarying, Builtin.argOffsets, List.any_cons, List.any_nil,
    SimdXContext.flag, ht, hpm, hpx, hp0, hp1, hp2, Bool.or_false, Bool.or_eq_false_iff] at hA
  unfold simdLookup3D_f
  simp only [hsz0, hsz1, hsz2, ht, hpm, hpx, hp0, hp1, hp2, hq0, hq1, hq2, ok_bind, SimdReg.isVarying, hA,
    Bool.or_self, Bool.false_eq_true, if_false]

theorem simdLookup3D_h_uniform_mask (K : Kernels F H) (mask mask₀ : SimdBoolMask)
    (xc : SimdXContext F H) (h : Builtin.wellFormed .lookup3D_h mask₀ xc = true)
    (hA : Builtin.anyVarying .lookup3D_h xc = false) :
    simdLookup3D_h K mask xc = simdLookup3D_h K mask₀ xc := by
  simp only [Builtin.wellFormed, Builtin.sizeOffsets, Builtin.argOffsets, Builtin.outOffsets,
    List.all_cons, List.all_nil, Bool.and_true, Bool.and_eq_true, decide_eq_true_eq,
    SimdXContext.regOk_iff, Bool.not_eq_true'] at h
  obtain ⟨⟨⟨⟨hn, hm⟩, ⟨size0, hsz0, hsz0s, hsz0v, hsz0t⟩, ⟨size1, hsz1, hsz1s, hsz1v, hsz1t⟩,
    size2, hsz2, hsz2s, hsz2v, hsz2t⟩, ⟨table, ht, hts, htt⟩, ⟨pMin, hpm, hpms, hpmt⟩,
    ⟨pMax, hpx, hpxs, hpxt⟩, ⟨p0, hp0, hp0s, hp0t⟩, ⟨p1, hp1, hp1s, hp1t⟩,
    p2, hp2, hp2s, hp2t⟩, ⟨q0, hq0, hq0s, -⟩, ⟨q1, hq1, hq1s, -⟩, q2, hq2, hq2s, -⟩ := h
  simp only [Builtin.anyVarying, Builtin.argOffsets, List.any_cons, List.any_nil,
    SimdXContext.flag, ht, hpm, hpx, hp0, hp1, hp2, Bool.or_false, Bool.or_eq_false_iff] at hA
  unfold simdLookup3D_h
  simp only [hsz0, hsz1, hsz2, ht, hpm, hpx, hp0, hp1, hp2, hq0, hq1, hq2, ok_bind, SimdReg.isVarying, hA,
    Bool.or_self, Bool.false_eq_true, if_false]

theorem simdInterpolateLinear1D_uniform_mask (K : Kernels F H) (mask mask₀ : SimdBoolMask)
    (xc : SimdXContext F H) (h : Builtin.wellFormed .interpolateLinear1D mask₀ xc = true)
    (hA : Builtin.anyVarying .interpolateLinear1D xc = false) :
    simdInterpolateLinear1D K mask xc = simdInterpolateLinear1D K mask₀ xc := by
  simp only [Builtin.wellFormed, Builtin.sizeOffsets, Builtin.argOffsets, Builtin.outOffsets,
    List.all_cons, List.all_nil, Bool.and_true, Bool.and_eq_true, decide_eq_true_eq,
    SimdXContext.regOk_iff, Bool.not_eq_true'] at h
  obtain ⟨⟨⟨⟨hn, hm⟩, size, hsz, hszs, hszv, hszt⟩, ⟨table, ht, hts, htt⟩, p, hp, hps, hpt⟩,
    rv, hrv, hrvs, -⟩ := h
  simp only [Builtin.anyVarying, Builtin.argOffsets, List.any_cons, List.any_nil,
    SimdXContext.flag, ht, hp, Bool.or_false, Bool.or_eq_false_iff] at hA
  unfold simdInterpolateLinear1D
  simp only [hsz, ht, hp, hrv, ok_bind, SimdReg.isVarying, hA,
    Bool.or_self, Bool.false_eq_true, if_false]

theorem simdInterpolateCubic1D_uniform_mask (K : Kernels F H) (mask mask₀ : SimdBoolMask)
    (xc : SimdXContext F H) (h : Builtin.wellFormed .interpolateCubic1D mask₀ xc = true)
    (hA : Builtin.anyVarying .interpolateCubic1D xc = false) :
    simdInterpolateCubic1D K mask xc = simdInterpolateCubic1D K mask₀ xc := by
  simp only [Builtin.wellFormed, Builtin.sizeOffsets, Builtin.argOffsets, Builtin.outOffsets,
    List.all_cons, List.all_nil, Bool.and_true, Bool.and_eq_true, decide_eq_true_eq,
    SimdXContext.regOk_iff, Bool.not_eq_true'] at h
  obtain ⟨⟨⟨⟨hn, hm⟩, size, hsz, hszs, hszv, hszt⟩, ⟨table, ht, hts, htt⟩, p, hp, hps, hpt⟩,
    rv, hrv, hrvs, -⟩ := h
  simp only [Builtin.anyVarying, Builtin.argOffsets, List.any_cons, List.any_nil,
    SimdXContext.flag, ht, hp, Bool.or_false, Bool.or_eq_false_iff] at hA
  unfold simdInterpolateCubic1D
  simp only [hsz, ht, hp, hrv, ok_bind, SimdReg.isVarying, hA,
    Bool.or_self, Bool.false_eq_true, if_false]

/-- When every input register is uniform the call does not consult the mask. -/
theorem Builtin.run_uniform_mask (K : Kernels F H) (b : Builtin) (mask mask₀ : SimdBoolMask)
    (xc : SimdXContext F H) (h : b.wellFormed mask₀ xc = true)
    (hA : b.anyVarying xc = false) : b.run K mask xc = b.run K mask₀ xc := by
  cases b with
  | lookup1D => exact simdLookup1D_uniform_mask K mask mask₀ xc h hA
  | lookup3D_f3 => exact simdLookup3D_f3_uniform_mask K mask mask₀ xc h hA
  | lookup3D_f => exact simdLookup3D_f_uniform_mask K mask mask₀ xc h hA
  | lookup3D_h => exact simdLookup3D_h_uniform_mask K mask mask₀ xc h hA
  | interpolateLinear1D => exact simdInterpolateLinear1D_uniform_mask K mask mask₀ xc h hA
  | interpolateCubic1D => exact simdInterpolateCubic1D_uniform_mask K mask mask₀ xc h hA

/-- A uniform register of the right shape that exposes `v` stores exactly `v`. -/
theorem SimdReg.data_of_uniform {n : Nat} {r : SimdReg F H} {v : Val F H}
    (hv : r.varying = false) (hs : r.shaped n = true) (hg : r.get 0 = .ok v) :
    r.data = [v] := by
  unfold SimdReg.shaped at hs
  simp only [hv, Bool.false_eq_true, if_false, beq_iff_eq] at hs
  match hd : r.data, hs with
  | [w], _ =>
    simp only [SimdReg.get, SimdReg.slot, hv, hd, Bool.false_eq_true, if_false,
      List.getElem?_cons_zero, Except.ok.injEq] at hg
    rw [hg]

/-- C14. All-uniform path: if every input register of a well-formed frame is
uniform, then under every mask whatsoever (also a varying mask whose lanes are
all false, or a mask of any other shape) the call completes, each output
register is uniform, and its single element is the kernel applied once to the
lane-0 elements of the inputs. -/
theorem uniform_call_ignores_mask (K : Kernels F H) (b : Builtin) (mask : SimdBoolMask)
    (xc : SimdXContext F H) (h : b.frameWellFormed xc = true)
    (huni : ∀ a ∈ b.argOffsets, ∀ r, xc.stack.regFpRelative a.1 = .ok r →
      r.isVarying = false) :
    ∃ xc' vs, b.run K mask xc = .ok xc' ∧ b.kernelAt K xc 0 = .ok vs ∧
      ∀ (k : Nat) (o : Int), b.outOffsets[k]? = some o →
        ∃ r' v, xc'.stack.regFpRelative o = .ok r' ∧ r'.isVarying = false ∧
          vs[k]? = some v ∧ r'.data = [v] := by
  have hA : b.anyVarying xc = false := by
    cases hc : b.anyVarying xc with
    | false => rfl
    | true =>
      obtain ⟨a, ha, r, hr, hv⟩ := (Builtin.anyVarying_iff b xc).mp hc
      rw [huni a ha r hr] at hv
      cases hv
  obtain ⟨xc', hrun, hp⟩ := Builtin.run_post K b SimdBoolMask.allTrue xc h
  have hne : ∃ o, b.outOffsets[0]? = some o := by cases b <;> exact ⟨_, rfl⟩
  obtain ⟨o₀, ho₀⟩ := hne
  obtain ⟨_, _, -, -, -, -, huni₀, -⟩ := hp.outs 0 o₀ ho₀
  obtain ⟨vs, -, hk₀, -, -⟩ := huni₀ hA
  refine ⟨xc', vs, ?_, hk₀, ?_⟩
  · rw [Builtin.run_uniform_mask K b mask SimdBoolMask.allTrue xc h hA]
    exact hrun
  · intro k o hk
    obtain ⟨_, r', -, hr', hf, hs, huni', -⟩ := hp.outs k o hk
    obtain ⟨vs', v, hk', hv, hg⟩ := huni' hA
    rw [hk₀] at hk'
    cases hk'
    have hfv : r'.varying = false := by rw [hf, hA]
    exact ⟨r', v, hr', hfv, hv, SimdReg.data_of_uniform hfv hs hg⟩

/-- The all-uniform statement applied to `lookup1D` on the uniform sample frame
under a varying mask whose lanes are all false. -/
theorem uniform_call_ignores_mask_witness :
    Builtin.lookup1D.frameWellFormed demoUniform1D = true ∧
    (∀ a ∈ Builtin.lookup1D.argOffsets, ∀ r,
      demoUniform1D.stack.regFpRelative a.1 = .ok r → r.isVarying = false) ∧
    ∃ xc' vs, Builtin.lookup1D.run demoKernels demoMaskNone demoUniform1D = .ok xc' ∧
      Builtin.lookup1D.kernelAt demoKernels demoUniform1D 0 = .ok vs ∧
      ∀ (k : Nat) (o : Int), Builtin.lookup1D.outOffsets[k]? = some o →
        ∃ r' v, xc'.stack.regFpRelative o = .ok r' ∧ r'.isVarying = false ∧
          vs[k]? = some v ∧ r'.data = [v] :=
  have huni : ∀ a ∈ Builtin.lookup1D.argOffsets, ∀ r,
      demoUniform1D.stack.regFpRelative a.1 = .ok r → r.isVarying = false := by
    intro a ha r hr
    simp only [Builtin.argOffsets, List.mem_cons, List.mem_singleton, List.not_mem_nil,
      or_false] at ha
    rcases ha with rfl | rfl | rfl | rfl <;> cases hr <;> rfl
  ⟨by decide, huni,
    uniform_call_ignores_mask demoKernels .lookup1D demoMaskNone demoUniform1D (by decide) huni⟩

/-! ## The size assertion and the register shape invariant -/

@[simp] theorem assert_false : assert false = Except.error Err.assertionFailed := rfl

/-- A call that is well formed up to its size registers and whose size
registers are uniform is well formed. -/
theorem Builtin.wellFormed_of_upToSizes (b : Builtin) (mask : SimdBoolMask)
    (xc : SimdXContext F H) (h : b.wellFormedUpToSizes mask xc = true)
    (hs : ∀ o ∈ b.sizeOffsets, xc.flag o = false) : b.wellFormed mask xc = true := by
  simp only [Builtin.wellFormedUpToSizes, Bool.and_eq_true, List.all_eq_true,
    SimdXContext.regOk_iff, decide_eq_true_eq] at h
  simp only [Builtin.wellFormed, Bool.and_eq_true, List.all_eq_true,
    SimdXContext.regOk_iff, decide_eq_true_eq, Bool.not_eq_true']
  refine ⟨⟨⟨h.1.1.1, ?_⟩, h.1.2⟩, h.2⟩
  intro o ho
  obtain ⟨r, hr, hsh, ht⟩ := h.1.1.2 o ho
  have hf := hs o ho
  simp only [SimdXContext.flag, hr] at hf
  exact ⟨r, hr, hsh, hf, ht⟩

theorem Builtin.upToSizes_of_wellFormed (b : Builtin) (mask : SimdBoolMask)
    (xc : SimdXContext F H) (h : b.wellFormed mask xc = true) :
    b.wellFormedUpToSizes mask xc = true := by
  simp only [Builtin.wellFormed, Bool.and_eq_true, List.all_eq_true,
    SimdXContext.regOk_iff, decide_eq_true_eq, Bool.not_eq_true'] at h
  simp only [Builtin.wellFormedUpToSizes, Bool.and_eq_true, List.all_eq_true,
    SimdXContext.regOk_iff, decide_eq_true_eq]
  refine ⟨⟨⟨h.1.1.1, ?_⟩, h.1.2⟩, h.2⟩
  intro o ho
  obtain ⟨r, hr, hsh, -, ht⟩ := h.1.1.2 o ho
  exact ⟨r, hr, hsh, ht⟩

theorem simdLookup1D_assert (K : Kernels F H) (mask : SimdBoolMask)
    (xc : SimdXContext F H) (h : Builtin.wellFormedUpToSizes .lookup1D mask xc = true)
    (hs : (Builtin.sizeOffsets .lookup1D).any (fun o => xc.flag o) = true) :
    simdLookup1D K mask xc = .error .assertionFailed := by
  simp only [Builtin.wellFormedUpToSizes, Builtin.sizeOffsets, Builtin.argOffsets,
    Builtin.outOffsets, List.all_cons, List.all_nil, Bool.and_true, Bool.and_eq_true,
    decide_eq_true_eq, SimdXContext.regOk_iff] at h
  obtain ⟨⟨⟨⟨hn, hm⟩, size, hsz, hszs, hszt⟩, ⟨table, ht, hts, htt⟩,
    ⟨pMin, hpm, hpms, hpmt⟩, ⟨pMax, hpx, hpxs, hpxt⟩, p, hp, hps, hpt⟩, rv, hrv, hrvs, -⟩ := h
  simp only [Builtin.sizeOffsets, List.any_cons, List.any_nil, SimdXContext.flag, hsz,
    Bool.or_false] at hs
  have hc : (!size.varying) = false := by simp [hs]
  unfold simdLookup1D
  simp only [hsz, ht, hpm, hpx, hp, hrv, ok_bind, SimdReg.isVarying, hc, assert_false, error_bind]

theorem simdLookup3D_f3_assert (K : Kernels F H) (mask : SimdBoolMask)
    (xc : SimdXContext F H) (h : Builtin.wellFormedUpToSizes .lookup3D_f3 mask xc = true)
    (hs : (Builtin.sizeOffsets .lookup3D_f3).any (fun o => xc.flag o) = true) :
    simdLookup3D_f3 K mask xc = .error .assertionFailed := by
  simp only [Builtin.wellFormedUpToSizes, Builtin.sizeOffsets, Builtin.argOffsets,
    Builtin.outOffsets, List.all_cons, List.all_nil, Bool.and_true, Bool.and_eq_true,
    decide_eq_true_eq, SimdXContext.regOk_iff] at h
  obtain ⟨⟨⟨⟨hn, hm⟩, ⟨size0, hsz0, hsz0s, hsz0t⟩, ⟨size1, hsz1, hsz1s, hsz1t⟩,
    size2, hsz2, hsz2s, hsz2t⟩, ⟨table, ht, hts, htt⟩, ⟨pMin, hpm, hpms, hpmt⟩,
    ⟨pMax, hpx, hpxs, hpxt⟩, p, hp, hps, hpt⟩, rv, hrv, hrvs, -⟩ := h
  simp only [Builtin.sizeOffsets, List.any_cons, List.any_nil, SimdXContext.flag, hsz0, hsz1,
    hsz2, Bool.or_false] at hs
  have hc : (!size0.varying && !size1.varying && !size2.varying) = false := by
    cases h0 : size0.varying <;> cases h1 : size1.varying <;> cases h2 : size2.varying <;>
      simp [h0, h1, h2] at hs ⊢
  unfold simdLookup3D_f3
  simp only [hsz0, hsz1, hsz2, ht, hpm, hpx, hp, hrv, ok_bind, SimdReg.isVarying, hc, assert_false, error_bind]

theorem simdLookup3D_f_assert (K : Kernels F H) (mask : SimdBoolMask)
    (xc : SimdXContext F H) (h : Builtin.wellFormedUpToSizes .lookup3D_f mask xc = true)
    (hs : (Builtin.sizeOffsets .lookup3D_f).any (fun o => xc.flag o) = true) :
    simdLookup3D_f K mask xc = .error .assertionFailed := by
  simp only [Builtin.wellFormedUpToSizes, Builtin.sizeOffsets, Builtin.argOffsets,
    Builtin.outOffsets, List.all_cons, List.all_nil, Bool.and_true, Bool.and_eq_true,
    decide_eq_true_eq, SimdXContext.regOk_iff] at h
  obtain ⟨⟨⟨⟨hn, hm⟩, ⟨size0, hsz0, hsz0s, hsz0t⟩, ⟨size1, hsz1, hsz1s, hsz1t⟩,
    size2, hsz2, hsz2s, hsz2t⟩, ⟨table, ht, hts, htt⟩, ⟨pMin, hpm, hpms, hpmt⟩,
    ⟨pMax, hpx, hpxs, hpxt⟩, ⟨p0, hp0, hp0s, hp0t⟩, ⟨p1, hp1, hp1s, hp1t⟩,
    p2, hp2, hp2s, hp2t⟩, ⟨q0, hq0, hq0s, -⟩, ⟨q1, hq1, hq1s, -⟩, q2, hq2, hq2s, -⟩ := h
  simp only [Builtin.sizeOffsets, List.any_cons, List.any_nil, SimdXContext.flag, hsz0, hsz1,
    hsz2, Bool.or_false] at hs
  have hc : (!size0.varying && !size1.varying && !size2.varying) = false := by
    cases h0 : size0.varying <;> cases h1 : size1.varying <;> cases h2 : size2.varying <;>
      simp [h0, h1, h2] at hs ⊢
  unfold simdLookup3D_f
  simp only [hsz0, hsz1, hsz2, ht, hpm, hpx, hp0, hp1, hp2, hq0, hq1, hq2, ok_bind, SimdReg.isVarying, hc, assert_false, error_bind]

theorem simdLookup3D_h_assert (K : Kernels F H) (mask : SimdBoolMask)
    (xc : SimdXContext F H) (h : Builtin.wellFormedUpToSizes .lookup3D_h mask xc = true)
    (hs : (Builtin.sizeOffsets .lookup3D_h).any (fun o => xc.flag o) = true) :
    simdLookup3D_h K mask xc = .error .assertionFailed := by
  simp only [Builtin.wellFormedUpToSizes, Builtin.sizeOffsets, Builtin.argOffsets,
    Builtin.outOffsets, List.all_cons, List.all_nil, Bool.and_true, Bool.and_eq_true,
    decide_eq_true_eq, SimdXContext.regOk_iff] at h
  obtain ⟨⟨⟨⟨hn, hm⟩, ⟨size0, hsz0, hsz0s, hsz0t⟩, ⟨size1, hsz1, hsz1s, hsz1t⟩,
    size2, hsz2, hsz2s, hsz2t⟩, ⟨table, ht, hts, htt⟩, ⟨pMin, hpm, hpms, hpmt⟩,
    ⟨pMax, hpx, hpxs, hpxt⟩, ⟨p0, hp0, hp0s, hp0t⟩, ⟨p1, hp1, hp1s, hp1t⟩,
    p2, hp2, hp2s, hp2t⟩, ⟨q0, hq0, hq0s, -⟩, ⟨q1, hq1, hq1s, -⟩, q2, hq2, hq2s, -⟩ := h
  simp only [Builtin.sizeOffsets, List.any_cons, List.any_nil, SimdXContext.flag, hsz0, hsz1,
    hsz2, Bool.or_false] at hs
  have hc : (!size0.varying && !size1.varying && !size2.varying) = false := by
    cases h0 : size0.varying <;> cases h1 : size1.varying <;> cases h2 : size2.varying <;>
      simp [h0, h1, h2] at hs ⊢
  unfold simdLookup3D_h
  simp only [hsz0, hsz1, hsz2, ht, hpm, hpx, hp0, hp1, hp2, hq0, hq1, hq2, ok_bind, SimdReg.isVarying, hc, assert_false, error_bind]

theorem simdInterpolateLinear1D_assert (K : Kernels F H) (mask : SimdBoolMask)
    (xc : SimdXContext F H) (h : Builtin.wellFormedUpToSizes .interpolateLinear1D mask xc = true)
    (hs : (Builtin.sizeOffsets .interpolateLinear1D).any (fun o => xc.flag o) = true) :
    simdInterpolateLinear1D K mask xc = .error .assertionFailed := by
  simp only [Builtin.wellFormedUpToSizes, Builtin.sizeOffsets, Builtin.argOffsets,
    Builtin.outOffsets, List.all_cons, List.all_nil, Bool.and_true, Bool.and_eq_true,
    decide_eq_true_eq, SimdXContext.regOk_iff] at h
  obtain ⟨⟨⟨⟨hn, hm⟩, size, hsz, hszs, hszt⟩, ⟨table, ht, hts, htt⟩, p, hp, hps, hpt⟩,
    rv, hrv, hrvs, -⟩ := h
  simp only [Builtin.sizeOffsets, List.any_cons, List.any_nil, SimdXContext.flag, hsz,
    Bool.or_false] at hs
  have hc : (!size.varying) = false := by simp [hs]
  unfold simdInterpolateLinear1D
  simp only [hsz, ht, hp, hrv, ok_bind, SimdReg.isVarying, hc, assert_false, error_bind]

theorem simdInterpolateCubic1D_assert (K : Kernels F H) (mask : SimdBoolMask)
    (xc : SimdXContext F H) (h : Builtin.wellFormedUpToSizes .interpolateCubic1D mask xc = true)
    (hs : (Builtin.sizeOffsets .interpolateCubic1D).any (fun o => xc.flag o) = true) :
    simdInterpolateCubic1D K mask xc = .error .assertionFailed := by
  simp only [Builtin.wellFormedUpToSizes, Builtin.sizeOffsets, Builtin.argOffsets,
    Builtin.outOffsets, List.all_cons, List.all_nil, Bool.and_true, Bool.and_eq_true,
    decide_eq_true_eq, SimdXContext.regOk_iff] at h
  obtain ⟨⟨⟨⟨hn, hm⟩, size, hsz, hszs, hszt⟩, ⟨table, ht, hts, htt⟩, p, hp, hps, hpt⟩,
    rv, hrv, hrvs, -⟩ := h
  simp only [Builtin.sizeOffsets, List.any_cons, List.any_nil, SimdXContext.flag, hsz,
    Bool.or_false] at hs
  have hc : (!size.varying) = false := by simp [hs]
  unfold simdInterpolateCubic1D
  simp only [hsz, ht, hp, hrv, ok_bind, SimdReg.isVarying, hc, assert_false, error_bind]

/-- A call with a varying size register fails its assertion. -/
theorem Builtin.run_assert (K : Kernels F H) (b : Builtin) (mask : SimdBoolMask)
    (xc : SimdXContext F H) (h : b.wellFormedUpToSizes mask xc = true)
    (hs : b.sizeOffsets.any (fun o => xc.flag o) = true) :
    b.run K mask xc = .error .assertionFailed := by
  cases b with
  | lookup1D => exact simdLookup1D_assert K mask xc h hs
  | lookup3D_f3 => exact simdLookup3D_f3_assert K mask xc h hs
  | lookup3D_f => exact simdLookup3D_f_assert K mask xc h hs
  | lookup3D_h => exact simdLookup3D_h_assert K mask xc h hs
  | interpolateLinear1D => exact simdInterpolateLinear1D_assert K mask xc h hs
  | interpolateCubic1D => exact simdInterpolateCubic1D_assert K mask xc h hs

/-- C15. Fatal precondition: a call that is well formed up to its size
registers fails with the assertion failure if and only if one of its size
registers is varying; the failed call yields no context (nothing is stored:
in each built-in the assertion precedes the first `setVarying` and the first
store), and when no size register is varying the call completes without any
error and leaves the post-state `Builtin.Post`, whose kernel results take the
sizes from element 0 of the size registers. -/
theorem assertion_fails_iff_size_varying (K : Kernels F H) (b : Builtin)
    (mask : SimdBoolMask) (xc : SimdXContext F H)
    (h : b.wellFormedUpToSizes mask xc = true) :
    (b.run K mask xc = .error .assertionFailed ↔
      ∃ o ∈ b.sizeOffsets, ∃ r, xc.stack.regFpRelative o = .ok r ∧ r.isVarying = true) ∧
    ((∀ o ∈ b.sizeOffsets, ∀ r, xc.stack.regFpRelative o = .ok r → r.isVarying = false) →
      ∃ xc', b.run K mask xc = .ok xc' ∧ Builtin.Post K b mask xc xc') := by
  have hflag : ∀ o, xc.flag o = true ↔
      ∃ r, xc.stack.regFpRelative o = .ok r ∧ r.isVarying = true := by
    intro o
    unfold SimdXContext.flag
    cases hr : xc.stack.regFpRelative o with
    | ok r => simp [SimdReg.isVarying]
    | error e => simp
  have hok : (∀ o ∈ b.sizeOffsets, xc.flag o = false) →
      ∃ xc', b.run K mask xc = .ok xc' ∧ Builtin.Post K b mask xc xc' :=
    fun hs => Builtin.run_post K b mask xc (b.wellFormed_of_upToSizes mask xc h hs)
  refine ⟨⟨?_, ?_⟩, ?_⟩
  · intro herr
    by_contra hno
    have hs : ∀ o ∈ b.sizeOffsets, xc.flag o = false := by
      intro o ho
      cases hf : xc.flag o with
      | false => rfl
      | true => exact absurd ⟨o, ho, (hflag o).mp hf⟩ hno
    obtain ⟨xc', hrun, -⟩ := hok hs
    rw [hrun] at herr
    cases herr
  · rintro ⟨o, ho, hr⟩
    exact Builtin.run_assert K b mask xc h
      (List.any_eq_true.mpr ⟨o, ho, (hflag o).mpr hr⟩)
  · intro hs
    apply hok
    intro o ho
    cases hf : xc.flag o with
    | false => rfl
    | true =>
      obtain ⟨r, hr, hv⟩ := (hflag o).mp hf
      rw [hs o ho r hr] at hv
      cases hv

/-- The fatal-precondition statement applied to `lookup1D` on a sample frame
whose size register is varying. -/
theorem assertion_fails_iff_size_varying_witness :
    Builtin.lookup1D.wellFormedUpToSizes demoMask demoVaryingSize1D = true ∧
    Builtin.lookup1D.run demoKernels demoMask demoVaryingSize1D = .error .assertionFailed ∧
    (Builtin.lookup1D.run demoKernels demoMask demoVaryingSize1D = .error .assertionFailed ↔
      ∃ o ∈ Builtin.lookup1D.sizeOffsets, ∃ r,
        demoVaryingSize1D.stack.regFpRelative o = .ok r ∧ r.isVarying = true) ∧
    ((∀ o ∈ Builtin.lookup1D.sizeOffsets, ∀ r,
        demoVaryingSize1D.stack.regFpRelative o = .ok r → r.isVarying = false) →
      ∃ xc', Builtin.lookup1D.run demoKernels demoMask demoVaryingSize1D = .ok xc' ∧
        Builtin.Post demoKernels .lookup1D demoMask demoVaryingSize1D xc') :=
  ⟨by decide, by decide,
    assertion_fails_iff_size_varying demoKernels .lookup1D demoMask demoVaryingSize1D
      (by decide)⟩

/-- C16. Register shape invariant: after a well-formed call (every register of
the frame has storage length 1 when uniform and the lane count when varying)
every register of the frame, each output register included, again has storage
length 1 when uniform and the lane count when varying; and if every register of
the stack has that shape before the call, every register of the stack has it
after the call. -/
theorem shape_invariant_preserved (K : Kernels F H) (b : Builtin) (mask : SimdBoolMask)
    (xc : SimdXContext F H) (h : b.wellFormed mask xc = true) :
    ∃ xc', b.run K mask xc = .ok xc' ∧ xc'.regSize = xc.regSize ∧
      (∀ o ∈ b.inputOffsets ++ b.outOffsets, ∃ r', xc'.stack.regFpRelative o = .ok r' ∧
        r'.data.length = if r'.isVarying = true then xc'.regSize else 1) ∧
      ((∀ o r, xc.stack.regFpRelative o = .ok r →
          r.data.length = if r.isVarying = true then xc.regSize else 1) →
        ∀ o r', xc'.stack.regFpRelative o = .ok r' →
          r'.data.length = if r'.isVarying = true then xc'.regSize else 1) := by
  obtain ⟨xc', hrun, hp⟩ := Builtin.run_post K b mask xc h
  have hshape : ∀ (n : Nat) (r : SimdReg F H), r.shaped n = true →
      r.data.length = if r.isVarying = true then n else 1 := by
    intro n r hr
    simpa [SimdReg.shaped, SimdReg.isVarying] using hr
  have hout : ∀ o ∈ b.outOffsets, ∃ r', xc'.stack.regFpRelative o = .ok r' ∧
      r'.data.length = if r'.isVarying = true then xc'.regSize else 1 := by
    intro o ho
    obtain ⟨k, hk⟩ := b.outOffsets_index ho
    obtain ⟨_, r', -, hr', -, hs, -, -⟩ := hp.outs k o hk
    exact ⟨r', hr', by rw [hp.regSize_eq]; exact hshape _ _ hs⟩
  have hwf := h
  simp only [Builtin.wellFormed, Bool.and_eq_true, List.all_eq_true,
    SimdXContext.regOk_iff, decide_eq_true_eq, Bool.not_eq_true'] at hwf
  refine ⟨xc', hrun, hp.regSize_eq, ?_, ?_⟩
  · intro o ho
    by_cases hmem : o ∈ b.outOffsets
    · exact hout o hmem
    · rw [hp.frame o hmem, hp.regSize_eq]
      rcases List.mem_append.mp ho with hin | hin
      · simp only [Builtin.inputOffsets, List.mem_append, List.mem_map] at hin
        rcases hin with hin | ⟨a, ha, rfl⟩
        · obtain ⟨r, hr, hs, -⟩ := hwf.1.1.2 o hin
          exact ⟨r, hr, hshape _ _ hs⟩
        · obtain ⟨r, hr, hs, -⟩ := hwf.1.2 a ha
          exact ⟨r, hr, hshape _ _ hs⟩
      · exact absurd hin hmem
  · intro hall o r' hr'
    by_cases hmem : o ∈ b.outOffsets
    · obtain ⟨r'', hr'', hl⟩ := hout o hmem
      rw [hr'] at hr''
      cases hr''
      exact hl
    · rw [hp.frame o hmem] at hr'
      rw [hp.regSize_eq]
      exact hall o r' hr'

/-- The shape statement applied to `lookup3D_f` on the sample frame, whose
uniform output registers become varying. -/
theorem shape_invariant_preserved_witness :
    Builtin.lookup3D_f.wellFormed demoMaskTwo demoFrame3D = true ∧
    ∃ xc', Builtin.lookup3D_f.run demoKernels demoMaskTwo demoFrame3D = .ok xc' ∧
      xc'.regSize = demoFrame3D.regSize ∧
      (∀ o ∈ Builtin.lookup3D_f.inputOffsets ++ Builtin.lookup3D_f.outOffsets,
        ∃ r', xc'.stack.regFpRelative o = .ok r' ∧
          r'.data.length = if r'.isVarying = true then xc'.regSize else 1) ∧
      ((∀ o r, demoFrame3D.stack.regFpRelative o = .ok r →
          r.data.length = if r.isVarying = true then demoFrame3D.regSize else 1) →
        ∀ o r', xc'.stack.regFpRelative o = .ok r' →
          r'.data.length = if r'.isVarying = true then xc'.regSize else 1) :=
  ⟨by decide,
    shape_invariant_preserved demoKernels .lookup3D_f demoMaskTwo demoFrame3D (by decide)⟩

/-! ## Index safety -/

theorem inBounds_ok {α : Type} {P : α → Prop} {a : α} (h : P a) :
    inBounds P (Except.ok a : Except Err α) := h

theorem inBounds_pure {α : Type} {P : α → Prop} {a : α} (h : P a) :
    inBounds P (pure a : Except Err α) := h

theorem inBounds_bind {α β : Type} {Q : α → Prop} {P : β → Prop} {x : Except Err α}
    {f : α → Except Err β} (hx : inBounds Q x) (hf : ∀ a, Q a → inBounds P (f a)) :
    inBounds P (x >>= f) := by
  cases x with
  | ok a => exact hf a hx
  | error e => exact hx

theorem inBounds_bind_fn {α β : Type} {Q : α → Prop} {P : β → Prop} {x : Except Err α}
    {f : α → Except Err β} (hx : inBounds Q x) (hf : ∀ a, Q a → inBounds P (f a)) :
    inBounds P (x.bind f) := by
  cases x with
  | ok a => exact hf a hx
  | error e => exact hx

theorem inBounds_mono {α : Type} {Q P : α → Prop} {x : Except Err α} (hx : inBounds Q x)
    (h : ∀ a, Q a → P a) : inBounds P x := by
  cases x with
  | ok a => exact h a hx
  | error e => exact hx

theorem inBounds_ne {α : Type} {P : α → Prop} {x : Except Err α} (h : inBounds P x) :
    x ≠ .error .outOfRange := by
  intro e
  rw [e] at h
  exact h rfl

theorem inBounds_assert (c : Bool) : inBounds (fun _ => True) (assert c) := by
  cases c
  · intro e
    cases e
  · trivial

theorem Val.inBounds_cast {α : Type} (f : Val F H → Except Err α)
    (hf : ∀ v e, f v = .error e → e = .badCast) (v : Val F H) :
    inBounds (fun _ => True) (f v) := by
  cases h : f v with
  | ok a => trivial
  | error e =>
    rw [hf v e h]
    intro e'
    cases e'

/-- In a shaped register the read of a lane below the lane count is in bounds. -/
theorem SimdReg.inBounds_get {n : Nat} {r : SimdReg F H} (hs : r.shaped n = true) {i : Nat}
    (hi : i < n) : inBounds (fun _ => True) (r.get i) := by
  have hlt := SimdReg.slot_lt hs hi
  simp [SimdReg.get, List.getElem?_eq_getElem hlt, inBounds]

theorem SimdReg.inBounds_getInt {n : Nat} {r : SimdReg F H} (hs : r.shaped n = true)
    {i : Nat} (hi : i < n) : inBounds (fun _ => True) (r.getInt i) :=
  inBounds_bind_fn (SimdReg.inBounds_get hs hi) fun v _ =>
    Val.inBounds_cast Val.toInt (by intro v e h; cases v <;> simp [Val.toInt] at h <;> rw [h]) v

theorem SimdReg.inBounds_getFloat {n : Nat} {r : SimdReg F H} (hs : r.shaped n = true)
    {i : Nat} (hi : i < n) : inBounds (fun _ => True) (r.getFloat i) :=
  inBounds_bind_fn (SimdReg.inBounds_get hs hi) fun v _ =>
    Val.inBounds_cast Val.toFloat
      (by intro v e h; cases v <;> simp [Val.toFloat] at h <;> rw [h]) v

theorem SimdReg.inBounds_getHalf {n : Nat} {r : SimdReg F H} (hs : r.shaped n = true)
    {i : Nat} (hi : i < n) : inBounds (fun _ => True) (r.getHalf i) :=
  inBounds_bind_fn (SimdReg.inBounds_get hs hi) fun v _ =>
    Val.inBounds_cast Val.toHalf (by intro v e h; cases v <;> simp [Val.toHalf] at h <;> rw [h]) v

theorem SimdReg.inBounds_getV3f {n : Nat} {r : SimdReg F H} (hs : r.shaped n = true)
    {i : Nat} (hi : i < n) : inBounds (fun _ => True) (r.getV3f i) :=
  inBounds_bind_fn (SimdReg.inBounds_get hs hi) fun v _ =>
    Val.inBounds_cast Val.toV3f (by intro v e h; cases v <;> simp [Val.toV3f] at h <;> rw [h]) v

theorem SimdReg.inBounds_getTable {n : Nat} {r : SimdReg F H} (hs : r.shaped n = true)
    {i : Nat} (hi : i < n) : inBounds (fun _ => True) (r.getTable i) :=
  inBounds_bind_fn (SimdReg.inBounds_get hs hi) fun v _ =>
    Val.inBounds_cast Val.toTable
      (by intro v e h; cases v <;> simp [Val.toTable] at h <;> rw [h]) v

/-- In a shaped mask the read of a lane below the lane count is in bounds. -/
theorem SimdBoolMask.inBounds_getMask {n : Nat} {m : SimdBoolMask} (hs : m.shaped n = true)
    {i : Nat} (hi : i < n) : inBounds (fun _ => True) (m.get i) := by
  obtain ⟨a, ha⟩ := SimdBoolMask.getMask_of_shaped hs hi
  rw [ha]
  trivial

/-- The store to a lane below the lane count of a shaped register is in bounds
and keeps the shape. -/
theorem SimdReg.inBounds_set {n : Nat} {r : SimdReg F H} (hs : r.shaped n = true) {i : Nat}
    (hi : i < n) (v : Val F H) :
    inBounds (fun r' => r'.shaped n = true ∧ r'.varying = r.varying) (r.set i v) := by
  have hlt := SimdReg.slot_lt hs hi
  unfold SimdReg.set
  rw [if_pos hlt]
  refine ⟨?_, rfl⟩
  simpa [SimdReg.shaped] using hs

/-- The lane loop stays in bounds when its body does, for the lanes below `n`
and the states that satisfy an invariant the body keeps. -/
theorem forLanes_inBounds {σ : Type} (P : σ → Prop) (body : Nat → σ → Except Err σ) :
    ∀ (n : Nat) (s : σ), P s → (∀ i, i < n → ∀ s, P s → inBounds P (body i s)) →
      inBounds P (forLanes body n s) := by
  intro n
  induction n with
  | zero =>
    intro s hs _
    exact hs
  | succ n ih =>
    intro s hs hbody
    exact inBounds_bind_fn (hbody n (Nat.lt_succ_self n) s hs)
      (fun s' hs' => ih s' hs' (fun i hi => hbody i (Nat.lt_succ_of_lt hi)))

/-- The lane loop runs its body once for each of the indices `n - 1`, ..., `0`,
in this order: `n` iterations when it completes. -/
theorem forLanes_eq_foldlM {σ : Type} (body : Nat → σ → Except Err σ) :
    ∀ (n : Nat) (s : σ),
      forLanes body n s = (List.range n).reverse.foldlM (fun s i => body i s) s := by
  intro n
  induction n with
  | zero =>
    intro s
    rfl
  | succ n ih =>
    intro s
    rw [List.range_succ, List.reverse_append, List.reverse_singleton, List.singleton_append,
      List.foldlM_cons]
    show (body n s).bind (forLanes body n) = _
    cases h : body n s with
    | ok s' => exact ih s'
    | error e => rfl

theorem simdLookup1D_inBounds (K : Kernels F H) (mask : SimdBoolMask)
    (xc : SimdXContext F H) (h : Builtin.shapeOk .lookup1D mask xc = true) :
    inBounds (fun _ => True) (simdLookup1D K mask xc) := by
  simp only [Builtin.shapeOk, Builtin.sizeOffsets, Builtin.argOffsets, Builtin.outOffsets,
    List.all_cons, List.all_nil, Bool.and_true, Bool.and_eq_true, decide_eq_true_eq,
    SimdXContext.regOk_iff, Bool.not_eq_true'] at h
  obtain ⟨⟨⟨⟨hn, hm⟩, size, hsz, hszs, hszv⟩, ⟨table, ht, hts, -⟩, ⟨pMin, hpm, hpms, -⟩,
    ⟨pMax, hpx, hpxs, -⟩, p, hp, hps, -⟩, rv, hrv, hrvs, -⟩ := h
  have h0 : 0 < xc.regSize := hn
  unfold simdLookup1D
  simp only [hsz, ht, hpm, hpx, hp, hrv, ok_bind]
  refine inBounds_bind (inBounds_assert _) fun _ _ => ?_
  refine inBounds_bind (SimdReg.inBounds_getInt hszs h0) fun _ _ => ?_
  split
  · split
    · refine inBounds_bind (SimdReg.inBounds_getTable hts h0) fun _ _ => ?_
      refine inBounds_bind (SimdReg.inBounds_getFloat hpms h0) fun _ _ => ?_
      refine inBounds_bind (SimdReg.inBounds_getFloat hpxs h0) fun _ _ => ?_
      refine inBounds_bind (forLanes_inBounds (fun r => r.shaped xc.regSize = true) _ _ _
        (SimdReg.setVarying_shaped hrvs hn true) ?_) fun _ _ => inBounds_pure trivial
      intro i hi r hr
      refine inBounds_bind (SimdReg.inBounds_getFloat hps hi) fun _ _ => ?_
      exact inBounds_mono (SimdReg.inBounds_set hr hi _) (fun _ h => h.1)
    · refine inBounds_bind (forLanes_inBounds (fun r => r.shaped xc.regSize = true) _ _ _
        (SimdReg.setVarying_shaped hrvs hn true) ?_) fun _ _ => inBounds_pure trivial
      intro i hi r hr
      refine inBounds_bind (SimdBoolMask.inBounds_getMask hm hi) fun _ _ => ?_
      split
      · refine inBounds_bind (SimdReg.inBounds_getTable hts hi) fun _ _ => ?_
        refine inBounds_bind (SimdReg.inBounds_getFloat hpms hi) fun _ _ => ?_
        refine inBounds_bind (SimdReg.inBounds_getFloat hpxs hi) fun _ _ => ?_
        refine inBounds_bind (SimdReg.inBounds_getFloat hps hi) fun _ _ => ?_
        exact inBounds_mono (SimdReg.inBounds_set hr hi _) (fun _ h => h.1)
      · exact inBounds_pure hr
  · refine inBounds_bind (SimdReg.inBounds_getTable hts h0) fun _ _ => ?_
    refine inBounds_bind (SimdReg.inBounds_getFloat hpms h0) fun _ _ => ?_
    refine inBounds_bind (SimdReg.inBounds_getFloat hpxs h0) fun _ _ => ?_
    refine inBounds_bind (SimdReg.inBounds_getFloat hps h0) fun _ _ => ?_
    exact inBounds_bind (SimdReg.inBounds_set (SimdReg.setVarying_shaped hrvs hn false) h0 _)
      fun _ _ => inBounds_pure trivial

theorem simdLookup3D_f3_inBounds (K : Kernels F H) (mask : SimdBoolMask)
    (xc : SimdXContext F H) (h : Builtin.shapeOk .lookup3D_f3 mask xc = true) :
    inBounds (fun _ => True) (simdLookup3D_f3 K mask xc) := by
  simp only [Builtin.shapeOk, Builtin.sizeOffsets, Builtin.argOffsets, Builtin.outOffsets,
    List.all_cons, List.all_nil, Bool.and_true, Bool.and_eq_true, decide_eq_true_eq,
    SimdXContext.regOk_iff, Bool.not_eq_true'] at h
  obtain ⟨⟨⟨⟨hn, hm⟩, ⟨size0, hsz0, hsz0s, hsz0v⟩, ⟨size1, hsz1, hsz1s, hsz1v⟩,
    size2, hsz2, hsz2s, hsz2v⟩, ⟨table, ht, hts, -⟩, ⟨pMin, hpm, hpms, -⟩,
    ⟨pMax, hpx, hpxs, -⟩, p, hp, hps, -⟩, rv, hrv, hrvs, -⟩ := h
  have h0 : 0 < xc.regSize := hn
  unfold simdLookup3D_f3
  simp only [hsz0, hsz1, hsz2, ht, hpm, hpx, hp, hrv, ok_bind]
  refine inBounds_bind (inBounds_assert _) fun _ _ => ?_
  refine inBounds_bind (SimdReg.inBounds_getInt hsz0s h0) fun _ _ => ?_
  refine inBounds_bind (SimdReg.inBounds_getInt hsz1s h0) fun _ _ => ?_
  refine inBounds_bind (SimdReg.inBounds_getInt hsz2s h0) fun _ _ => ?_
  split
  · refine inBounds_bind (forLanes_inBounds (fun r => r.shaped xc.regSize = true) _ _ _
      (SimdReg.setVarying_shaped hrvs hn true) ?_) fun _ _ => inBounds_pure trivial
    intro i hi r hr
    refine inBounds_bind (SimdBoolMask.inBounds_getMask hm hi) fun _ _ => ?_
    split
    · refine inBounds_bind (SimdReg.inBounds_getTable hts hi) fun _ _ => ?_
      refine inBounds_bind (SimdReg.inBounds_getV3f hpms hi) fun _ _ => ?_
      refine inBounds_bind (SimdReg.inBounds_getV3f hpxs hi) fun _ _ => ?_
      refine inBounds_bind (SimdReg.inBounds_getV3f hps hi) fun _ _ => ?_
      exact inBounds_mono (SimdReg.inBounds_set hr hi _) (fun _ h => h.1)
    · exact inBounds_pure hr
  · refine inBounds_bind (SimdReg.inBounds_getTable hts h0) fun _ _ => ?_
    refine inBounds_bind (SimdReg.inBounds_getV3f hpms h0) fun _ _ => ?_
    refine inBounds_bind (SimdReg.inBounds_getV3f hpxs h0) fun _ _ => ?_
    refine inBounds_bind (SimdReg.inBounds_getV3f hps h0) fun _ _ => ?_
    exact inBounds_bind (SimdReg.inBounds_set (SimdReg.setVarying_shaped hrvs hn false) h0 _)
      fun _ _ => inBounds_pure trivial

theorem simdInterpolateLinear1D_inBounds (K : Kernels F H) (mask : SimdBoolMask)
    (xc : SimdXContext F H) (h : Builtin.shapeOk .interpolateLinear1D mask xc = true) :
    inBounds (fun _ => True) (simdInterpolateLinear1D K mask xc) := by
  simp only [Builtin.shapeOk, Builtin.sizeOffsets, Builtin.argOffsets, Builtin.outOffsets,
    List.all_cons, List.all_nil, Bool.and_true, Bool.and_eq_true, decide_eq_true_eq,
    SimdXContext.regOk_iff, Bool.not_eq_true'] at h
  obtain ⟨⟨⟨⟨hn, hm⟩, size, hsz, hszs, hszv⟩, ⟨table, ht, hts, -⟩, p, hp, hps, -⟩,
    rv, hrv, hrvs, -⟩ := h
  have h0 : 0 < xc.regSize := hn
  unfold simdInterpolateLinear1D
  simp only [hsz, ht, hp, hrv, ok_bind]
  refine inBounds_bind (inBounds_assert _) fun _ _ => ?_
  refine inBounds_bind (SimdReg.inBounds_getInt hszs h0) fun _ _ => ?_
  split
  · split
    · refine inBounds_bind (SimdReg.inBounds_getTable hts h0) fun _ _ => ?_
      refine inBounds_bind (forLanes_inBounds (fun r => r.shaped xc.regSize = true) _ _ _
        (SimdReg.setVarying_shaped hrvs hn true) ?_) fun _ _ => inBounds_pure trivial
      intro i hi r hr
      refine inBounds_bind (SimdReg.inBounds_getFloat hps hi) fun _ _ => ?_
      exact inBounds_mono (SimdReg.inBounds_set hr hi _) (fun _ h => h.1)
    · refine inBounds_bind (forLanes_inBounds (fun r => r.shaped xc.regSize = true) _ _ _
        (SimdReg.setVarying_shaped hrvs hn true) ?_) fun _ _ => inBounds_pure trivial
      intro i hi r hr
      refine inBounds_bind (SimdBoolMask.inBounds_getMask hm hi) fun _ _ => ?_
      split
      · refine inBounds_bind (SimdReg.inBounds_getTable hts hi) fun _ _ => ?_
        refine inBounds_bind (SimdReg.inBounds_getFloat hps hi) fun _ _ => ?_
        exact inBounds_mono (SimdReg.inBounds_set hr hi _) (fun _ h => h.1)
      · exact inBounds_pure hr
  · refine inBounds_bind (SimdReg.inBounds_getTable hts h0) fun _ _ => ?_
    refine inBounds_bind (SimdReg.inBounds_getFloat hps h0) fun _ _ => ?_
    exact inBounds_bind (SimdReg.inBounds_set (SimdReg.setVarying_shaped hrvs hn false) h0 _)
      fun _ _ => inBounds_pure trivial

theorem simdInterpolateCubic1D_inBounds (K : Kernels F H) (mask : SimdBoolMask)
    (xc : SimdXContext F H) (h : Builtin.shapeOk .interpolateCubic1D mask xc = true) :
    inBounds (fun _ => True) (simdInterpolateCubic1D K mask xc) := by
  simp only [Builtin.shapeOk, Builtin.sizeOffsets, Builtin.argOffsets, Builtin.outOffsets,
    List.all_cons, List.all_nil, Bool.and_true, Bool.and_eq_true, decide_eq_true_eq,
    SimdXContext.regOk_iff, Bool.not_eq_true'] at h
  obtain ⟨⟨⟨⟨hn, hm⟩, size, hsz, hszs, hszv⟩, ⟨table, ht, hts, -⟩, p, hp, hps, -⟩,
    rv, hrv, hrvs, -⟩ := h
  have h0 : 0 < xc.regSize := hn
  unfold simdInterpolateCubic1D
  simp only [hsz, ht, hp, hrv, ok_bind]
  refine inBounds_bind (inBounds_assert _) fun _ _ => ?_
  refine inBounds_bind (SimdReg.inBounds_getInt hszs h0) fun _ _ => ?_
  split
  · split
    · refine inBounds_bind (SimdReg.inBounds_getTable hts h0) fun _ _ => ?_
      refine inBounds_bind (forLanes_inBounds (fun r => r.shaped xc.regSize = true) _ _ _
        (SimdReg.setVarying_shaped hrvs hn true) ?_) fun _ _ => inBounds_pure trivial
      intro i hi r hr
      refine inBounds_bind (SimdReg.inBounds_getFloat hps hi) fun _ _ => ?_
      exact inBounds_mono (SimdReg.inBounds_set hr hi _) (fun _ h => h.1)
    · refine inBounds_bind (forLanes_inBounds (fun r => r.shaped xc.regSize = true) _ _ _
        (SimdReg.setVarying_shaped hrvs hn true) ?_) fun _ _ => inBounds_pure trivial
      intro i hi r hr
      refine inBounds_bind (SimdBoolMask.inBounds_getMask hm hi) fun _ _ => ?_
      split
      · refine inBounds_bind (SimdReg.inBounds_getTable hts hi) fun _ _ => ?_
        refine inBounds_bind (SimdReg.inBounds_getFloat hps hi) fun _ _ => ?_
        exact inBounds_mono (SimdReg.inBounds_set hr hi _) (fun _ h => h.1)
      · exact inBounds_pure hr
  · refine inBounds_bind (SimdReg.inBounds_getTable hts h0) fun _ _ => ?_
    refine inBounds_bind (SimdReg.inBounds_getFloat hps h0) fun _ _ => ?_
    exact inBounds_bind (SimdReg.inBounds_set (SimdReg.setVarying_shaped hrvs hn false) h0 _)
      fun _ _ => inBounds_pure trivial

/-- The three stores of `lookup3D_f` and `lookup3D_h` to a lane below the lane
count of shaped registers are in bounds and keep the shapes. -/
theorem Out3.inBounds_setOut3 {n : Nat} {q : Out3 F H}
    (hq : q.q0.shaped n = true ∧ q.q1.shaped n = true ∧ q.q2.shaped n = true) {i : Nat}
    (hi : i < n) (a b c : Val F H) :
    inBounds (fun q' : Out3 F H =>
      q'.q0.shaped n = true ∧ q'.q1.shaped n = true ∧ q'.q2.shaped n = true)
      (q.set i a b c) := by
  unfold Out3.set
  refine inBounds_bind (SimdReg.inBounds_set hq.1 hi a) fun r0 h0 => ?_
  refine inBounds_bind (SimdReg.inBounds_set hq.2.1 hi b) fun r1 h1 => ?_
  refine inBounds_bind (SimdReg.inBounds_set hq.2.2 hi c) fun r2 h2 => ?_
  exact inBounds_pure ⟨h0.1, h1.1, h2.1⟩

theorem simdLookup3D_f_inBounds (K : Kernels F H) (mask : SimdBoolMask)
    (xc : SimdXContext F H) (h : Builtin.shapeOk .lookup3D_f mask xc = true) :
    inBounds (fun _ => True) (simdLookup3D_f K mask xc) := by
  simp only [Builtin.shapeOk, Builtin.sizeOffsets, Builtin.argOffsets, Builtin.outOffsets,
    List.all_cons, List.all_nil, Bool.and_true, Bool.and_eq_true, decide_eq_true_eq,
    SimdXContext.regOk_iff, Bool.not_eq_true'] at h
  obtain ⟨⟨⟨⟨hn, hm⟩, ⟨size0, hsz0, hsz0s, hsz0v⟩, ⟨size1, hsz1, hsz1s, hsz1v⟩,
    size2, hsz2, hsz2s, hsz2v⟩, ⟨table, ht, hts, -⟩, ⟨pMin, hpm, hpms, -⟩,
    ⟨pMax, hpx, hpxs, -⟩, ⟨p0, hp0, hp0s, -⟩, ⟨p1, hp1, hp1s, -⟩,
    p2, hp2, hp2s, -⟩, ⟨q0, hq0, hq0s, -⟩, ⟨q1, hq1, hq1s, -⟩, q2, hq2, hq2s, -⟩ := h
  have h0 : 0 < xc.regSize := hn
  unfold simdLookup3D_f
  simp only [hsz0, hsz1, hsz2, ht, hpm, hpx, hp0, hp1, hp2, hq0, hq1, hq2, ok_bind]
  refine inBounds_bind (inBounds_assert _) fun _ _ => ?_
  refine inBounds_bind (SimdReg.inBounds_getInt hsz0s h0) fun _ _ => ?_
  refine inBounds_bind (SimdReg.inBounds_getInt hsz1s h0) fun _ _ => ?_
  refine inBounds_bind (SimdReg.inBounds_getInt hsz2s h0) fun _ _ => ?_
  split
  · refine inBounds_bind (forLanes_inBounds (fun q : Out3 F H =>
        q.q0.shaped xc.regSize = true ∧ q.q1.shaped xc.regSize = true ∧
          q.q2.shaped xc.regSize = true) _ _ _
      ⟨SimdReg.setVarying_shaped hq0s hn true, SimdReg.setVarying_shaped hq1s hn true,
        SimdReg.setVarying_shaped hq2s hn true⟩ ?_) fun _ _ => inBounds_pure trivial
    intro i hi q hq
    refine inBounds_bind (SimdBoolMask.inBounds_getMask hm hi) fun _ _ => ?_
    split
    · refine inBounds_bind (SimdReg.inBounds_getFloat hp0s hi) fun _ _ => ?_
      refine inBounds_bind (SimdReg.inBounds_getFloat hp1s hi) fun _ _ => ?_
      refine inBounds_bind (SimdReg.inBounds_getFloat hp2s hi) fun _ _ => ?_
      refine inBounds_bind (SimdReg.inBounds_getTable hts hi) fun _ _ => ?_
      refine inBounds_bind (SimdReg.inBounds_getV3f hpms hi) fun _ _ => ?_
      refine inBounds_bind (SimdReg.inBounds_getV3f hpxs hi) fun _ _ => ?_
      exact Out3.inBounds_setOut3 hq hi _ _ _
    · exact inBounds_pure hq
  · refine inBounds_bind (SimdReg.inBounds_getFloat hp0s h0) fun _ _ => ?_
    refine inBounds_bind (SimdReg.inBounds_getFloat hp1s h0) fun _ _ => ?_
    refine inBounds_bind (SimdReg.inBounds_getFloat hp2s h0) fun _ _ => ?_
    refine inBounds_bind (SimdReg.inBounds_getTable hts h0) fun _ _ => ?_
    refine inBounds_bind (SimdReg.inBounds_getV3f hpms h0) fun _ _ => ?_
    refine inBounds_bind (SimdReg.inBounds_getV3f hpxs h0) fun _ _ => ?_
    exact inBounds_bind (Out3.inBounds_setOut3
      ⟨SimdReg.setVarying_shaped hq0s hn false, SimdReg.setVarying_shaped hq1s hn false,
        SimdReg.setVarying_shaped hq2s hn false⟩ h0 _ _ _) fun _ _ => inBounds_pure trivial

theorem simdLookup3D_h_inBounds (K : Kernels F H) (mask : SimdBoolMask)
    (xc : SimdXContext F H) (h : Builtin.shapeOk .lookup3D_h mask xc = true) :
    inBounds (fun _ => True) (simdLookup3D_h K mask xc) := by
  simp only [Builtin.shapeOk, Builtin.sizeOffsets, Builtin.argOffsets, Builtin.outOffsets,
    List.all_cons, List.all_nil, Bool.and_true, Bool.and_eq_true, decide_eq_true_eq,
    SimdXContext.regOk_iff, Bool.not_eq_true'] at h
  obtain ⟨⟨⟨⟨hn, hm⟩, ⟨size0, hsz0, hsz0s, hsz0v⟩, ⟨size1, hsz1, hsz1s, hsz1v⟩,
    size2, hsz2, hsz2s, hsz2v⟩, ⟨table, ht, hts, -⟩, ⟨pMin, hpm, hpms, -⟩,
    ⟨pMax, hpx, hpxs, -⟩, ⟨p0, hp0, hp0s, -⟩, ⟨p1, hp1, hp1s, -⟩,
    p2, hp2, hp2s, -⟩, ⟨q0, hq0, hq0s, -⟩, ⟨q1, hq1, hq1s, -⟩, q2, hq2, hq2s, -⟩ := h
  have h0 : 0 < xc.regSize := hn
  unfold simdLookup3D_h
  simp only [hsz0, hsz1, hsz2, ht, hpm, hpx, hp0, hp1, hp2, hq0, hq1, hq2, ok_bind]
  refine inBounds_bind (inBounds_assert _) fun _ _ => ?_
  refine inBounds_bind (SimdReg.inBounds_getInt hsz0s h0) fun _ _ => ?_
  refine inBounds_bind (SimdReg.inBounds_getInt hsz1s h0) fun _ _ => ?_
  refine inBounds_bind (SimdReg.inBounds_getInt hsz2s h0) fun _ _ => ?_
  split
  · refine inBounds_bind (forLanes_inBounds (fun q : Out3 F H =>
        q.q0.shaped xc.regSize = true ∧ q.q1.shaped xc.regSize = true ∧
          q.q2.shaped xc.regSize = true) _ _ _
      ⟨SimdReg.setVarying_shaped hq0s hn true, SimdReg.setVarying_shaped hq1s hn true,
        SimdReg.setVarying_shaped hq2s hn true⟩ ?_) fun _ _ => inBounds_pure trivial
    intro i hi q hq
    refine inBounds_bind (SimdBoolMask.inBounds_getMask hm hi) fun _ _ => ?_
    split
    · refine inBounds_bind (SimdReg.inBounds_getHalf hp0s hi) fun _ _ => ?_
      refine inBounds_bind (SimdReg.inBounds_getHalf hp1s hi) fun _ _ => ?_
      refine inBounds_bind (SimdReg.inBounds_getHalf hp2s hi) fun _ _ => ?_
      refine inBounds_bind (SimdReg.inBounds_getTable hts hi) fun _ _ => ?_
      refine inBounds_bind (SimdReg.inBounds_getV3f hpms hi) fun _ _ => ?_
      refine inBounds_bind (SimdReg.inBounds_getV3f hpxs hi) fun _ _ => ?_
      exact Out3.inBounds_setOut3 hq hi _ _ _
    · exact inBounds_pure hq
  · refine inBounds_bind (SimdReg.inBounds_getHalf hp0s h0) fun _ _ => ?_
    refine inBounds_bind (SimdReg.inBounds_getHalf hp1s h0) fun _ _ => ?_
    refine inBounds_bind (SimdReg.inBounds_getHalf hp2s h0) fun _ _ => ?_
    refine inBounds_bind (SimdReg.inBounds_getTable hts h0) fun _ _ => ?_
    refine inBounds_bind (SimdReg.inBounds_getV3f hpms h0) fun _ _ => ?_
    refine inBounds_bind (SimdReg.inBounds_getV3f hpxs h0) fun _ _ => ?_
    exact inBounds_bind (Out3.inBounds_setOut3
      ⟨SimdReg.setVarying_shaped hq0s hn false, SimdReg.setVarying_shaped hq1s hn false,
        SimdReg.setVarying_shaped hq2s hn false⟩ h0 _ _ _) fun _ _ => inBounds_pure trivial

/-- Under the shape preconditions no step of a built-in leaves through the
out-of-range branch. -/
theorem Builtin.run_inBounds (K : Kernels F H) (b : Builtin) (mask : SimdBoolMask)
    (xc : SimdXContext F H) (h : b.shapeOk mask xc = true) :
    inBounds (fun _ => True) (b.run K mask xc) := by
  cases b with
  | lookup1D => exact simdLookup1D_inBounds K mask xc h
  | lookup3D_f3 => exact simdLookup3D_f3_inBounds K mask xc h
  | lookup3D_f => exact simdLookup3D_f_inBounds K mask xc h
  | lookup3D_h => exact simdLookup3D_h_inBounds K mask xc h
  | interpolateLinear1D => exact simdInterpolateLinear1D_inBounds K mask xc h
  | interpolateCubic1D => exact simdInterpolateCubic1D_inBounds K mask xc h

/-- C17. Index safety: for each of the six built-ins, when there is at least one
lane, every register of the frame has one element if uniform and `regSize`
elements if varying, the mask has the shape of the mask invariant and the size
registers are uniform, no register-element or mask-element access of the call
is out of bounds: the call does not end in the out-of-range branch.  The lane
loop runs its body once for each of the `regSize` indices `regSize - 1`, ...,
`0`, all of them below `regSize`; and when the inputs also hold elements of the
types of the signature the call returns a context. -/
theorem index_safety (K : Kernels F H) (b : Builtin) (mask : SimdBoolMask)
    (xc : SimdXContext F H) (h : b.shapeOk mask xc = true) :
    b.run K mask xc ≠ .error .outOfRange ∧
    (∀ (σ : Type) (body : Nat → σ → Except Err σ) (s : σ),
      forLanes body xc.regSize s =
        (List.range xc.regSize).reverse.foldlM (fun s i => body i s) s) ∧
    (List.range xc.regSize).reverse.length = xc.regSize ∧
    (∀ i ∈ (List.range xc.regSize).reverse, i < xc.regSize) ∧
    (b.wellFormed mask xc = true → ∃ xc', b.run K mask xc = .ok xc') := by
  refine ⟨inBounds_ne (Builtin.run_inBounds K b mask xc h),
    fun σ body s => forLanes_eq_foldlM body xc.regSize s, by simp, ?_, ?_⟩
  · intro i hi
    simpa using hi
  · intro hw
    obtain ⟨xc', hrun, -⟩ := Builtin.run_post K b mask xc hw
    exact ⟨xc', hrun⟩

theorem index_safety_witness :
    Builtin.shapeOk .lookup1D demoMask demoFrame1D = true ∧
    Builtin.run demoKernels .lookup1D demoMask demoFrame1D ≠ .error .outOfRange ∧
    (List.range demoFrame1D.regSize).reverse = [2, 1, 0] ∧
    ∃ xc', Builtin.run demoKernels .lookup1D demoMask demoFrame1D = .ok xc' :=
  ⟨by decide, (index_safety demoKernels .lookup1D demoMask demoFrame1D (by decide)).1,
    by decide,
    (index_safety demoKernels .lookup1D demoMask demoFrame1D (by decide)).2.2.2.2 (by decide)⟩

/-! ## The three 3D lookups -/

theorem SimdXContext.lane_of_reg {xc₁ xc₂ : SimdXContext F H} {o : Int}
    (h : xc₁.stack.regFpRelative o = xc₂.stack.regFpRelative o) (i : Nat) :
    xc₁.lane o i = xc₂.lane o i := by
  unfold SimdXContext.lane
  rw [h]

theorem SimdXContext.flag_of_reg {xc₁ xc₂ : SimdXContext F H} {o : Int}
    (h : xc₁.stack.regFpRelative o = xc₂.stack.regFpRelative o) :
    xc₁.flag o = xc₂.flag o := by
  unfold SimdXContext.flag
  rw [h]

theorem SimdXContext.lane_of_regFp {xc : SimdXContext F H} {o : Int} {r : SimdReg F H}
    (h : xc.stack.regFpRelative o = .ok r) (i : Nat) : xc.lane o i = r.get i := by
  unfold SimdXContext.lane
  rw [h]
  rfl

/-- The split and the packed 3D lookup compute the same vector at a lane where
the packed position holds the three split positions. -/
theorem Builtin.kernelAt_split_packed (K : Kernels F H) (xcF xcP : SimdXContext F H) (i : Nat)
    (hin : ∀ o ∈ ([-1, -2, -3, -4, -5, -6] : List Int),
      xcP.stack.regFpRelative o = xcF.stack.regFpRelative o)
    (hp : ∃ a b c, xcF.lane (-7) i = .ok (.float a) ∧ xcF.lane (-8) i = .ok (.float b) ∧
      xcF.lane (-9) i = .ok (.float c) ∧ xcP.lane (-7) i = .ok (.v3f ⟨a, b, c⟩))
    (vs : List (Val F H)) (h : Builtin.kernelAt K .lookup3D_f xcF i = .ok vs) :
    ∃ v : V3 F, vs = [.float v.x, .float v.y, .float v.z] ∧
      Builtin.kernelAt K .lookup3D_f3 xcP i = .ok [.v3f v] := by
  simp only [List.mem_cons, List.mem_singleton, List.not_mem_nil, or_false,
    forall_eq_or_imp, forall_eq] at hin
  obtain ⟨h1, h2, h3, h4, h5, h6⟩ := hin
  obtain ⟨a, b, c, ha, hb, hc, hv⟩ := hp
  simp only [Builtin.kernelAt, SimdXContext.lane_of_reg h1, SimdXContext.lane_of_reg h2,
    SimdXContext.lane_of_reg h3, SimdXContext.lane_of_reg h4, SimdXContext.lane_of_reg h5,
    SimdXContext.lane_of_reg h6, ha, hb, hc, hv] at h ⊢
  generalize (xcF.lane (-3) 0).bind Val.toInt = e1 at h ⊢
  generalize (xcF.lane (-2) 0).bind Val.toInt = e2 at h ⊢
  generalize (xcF.lane (-1) 0).bind Val.toInt = e3 at h ⊢
  generalize (xcF.lane (-4) i).bind Val.toTable = e4 at h ⊢
  generalize (xcF.lane (-5) i).bind Val.toV3f = e5 at h ⊢
  generalize (xcF.lane (-6) i).bind Val.toV3f = e6 at h ⊢
  rcases e1 with _ | s0
  · cases h
  rcases e2 with _ | s1
  · cases h
  rcases e3 with _ | s2
  · cases h
  rcases e4 with _ | t
  · cases h
  rcases e5 with _ | pMin
  · cases h
  rcases e6 with _ | pMax
  · cases h
  refine ⟨K.lookup3D t ⟨s0, s1, s2⟩ pMin pMax ⟨a, b, c⟩, ?_, rfl⟩
  exact (Except.ok.inj h).symm

/-- The half-precision 3D lookup computes the float-to-half conversions of the
components the float lookup computes at a lane where the float positions are
the half-to-float conversions of the half positions. -/
theorem Builtin.kernelAt_half_float (K : Kernels F H) (xcH xcF : SimdXContext F H) (i : Nat)
    (hin : ∀ o ∈ ([-1, -2, -3, -4, -5, -6] : List Int),
      xcH.stack.regFpRelative o = xcF.stack.regFpRelative o)
    (hp : ∀ o ∈ ([-7, -8, -9] : List Int), ∃ x, xcH.lane o i = .ok (.half x) ∧
      xcF.lane o i = .ok (.float (K.halfToFloat x)))
    (vs : List (Val F H)) (h : Builtin.kernelAt K .lookup3D_f xcF i = .ok vs) :
    ∃ v : V3 F, vs = [.float v.x, .float v.y, .float v.z] ∧
      Builtin.kernelAt K .lookup3D_h xcH i =
        .ok [.half (K.floatToHalf v.x), .half (K.floatToHalf v.y), .half (K.floatToHalf v.z)] := by
  simp only [List.mem_cons, List.mem_singleton, List.not_mem_nil, or_false,
    forall_eq_or_imp, forall_eq] at hin hp
  obtain ⟨h1, h2, h3, h4, h5, h6⟩ := hin
  obtain ⟨⟨a, ha, ha'⟩, ⟨b, hb, hb'⟩, c, hc, hc'⟩ := hp
  simp only [Builtin.kernelAt, SimdXContext.lane_of_reg h1, SimdXContext.lane_of_reg h2,
    SimdXContext.lane_of_reg h3, SimdXContext.lane_of_reg h4, SimdXContext.lane_of_reg h5,
    SimdXContext.lane_of_reg h6, ha, hb, hc, ha', hb', hc'] at h ⊢
  generalize (xcF.lane (-3) 0).bind Val.toInt = e1 at h ⊢
  generalize (xcF.lane (-2) 0).bind Val.toInt = e2 at h ⊢
  generalize (xcF.lane (-1) 0).bind Val.toInt = e3 at h ⊢
  generalize (xcF.lane (-4) i).bind Val.toTable = e4 at h ⊢
  generalize (xcF.lane (-5) i).bind Val.toV3f = e5 at h ⊢
  generalize (xcF.lane (-6) i).bind Val.toV3f = e6 at h ⊢
  rcases e1 with _ | s0
  · cases h
  rcases e2 with _ | s1
  · cases h
  rcases e3 with _ | s2
  · cases h
  rcases e4 with _ | t
  · cases h
  rcases e5 with _ | pMin
  · cases h
  rcases e6 with _ | pMax
  · cases h
  refine ⟨K.lookup3D t ⟨s0, s1, s2⟩ pMin pMax
    ⟨K.halfToFloat a, K.halfToFloat b, K.halfToFloat c⟩, ?_, rfl⟩
  exact (Except.ok.inj h).symm

theorem Builtin.wellFormed_lanes (b : Builtin) (mask : SimdBoolMask) (xc : SimdXContext F H)
    (h : b.wellFormed mask xc = true) : 0 < xc.regSize := by
  simp only [Builtin.wellFormed, Bool.and_eq_true, decide_eq_true_eq] at h
  exact h.1.1.1.1

theorem Builtin.writesLane_lookup3D_f (mask : SimdBoolMask) (xc : SimdXContext F H) (i : Nat) :
    Builtin.writesLane .lookup3D_f mask xc i = mask.get i := by
  simp [Builtin.writesLane, Builtin.fastPath]

theorem Builtin.writesLane_lookup3D_f3 (mask : SimdBoolMask) (xc : SimdXContext F H) (i : Nat) :
    Builtin.writesLane .lookup3D_f3 mask xc i = mask.get i := by
  simp [Builtin.writesLane, Builtin.fastPath]

theorem Builtin.writesLane_lookup3D_h (mask : SimdBoolMask) (xc : SimdXContext F H) (i : Nat) :
    Builtin.writesLane .lookup3D_h mask xc i = mask.get i := by
  simp [Builtin.writesLane, Builtin.fastPath]

/-- C18. Split versus packed 3D lookup: let a frame of `simdLookup3D_f` and a
frame of `simdLookup3D_f3` hold the same sizes, table, `pMin` and `pMax`, let
the packed position hold `(p0[i], p1[i], p2[i])` at every lane `i` (broadcast
reads) and be varying iff one of `p0`, `p1`, `p2` is.  Then under the same mask
both calls return; `q0`, `q1`, `q2` carry the varying flag of the return
register of `simdLookup3D_f3`; both write the same lanes (the single element on
the uniform path, the lanes where the mask is true otherwise, the other lanes
keeping their contents); and at every written lane `q0`, `q1`, `q2` hold the
three components of the vector `simdLookup3D_f3` writes there, which is the
kernel applied to the packed inputs at that lane. -/
theorem split_matches_packed (K : Kernels F H) (mask : SimdBoolMask)
    (xcF xcP : SimdXContext F H)
    (hF : Builtin.wellFormed .lookup3D_f mask xcF = true)
    (hP : Builtin.wellFormed .lookup3D_f3 mask xcP = true)
    (hn : xcP.regSize = xcF.regSize)
    (hin : ∀ o ∈ ([-1, -2, -3, -4, -5, -6] : List Int),
      xcP.stack.regFpRelative o = xcF.stack.regFpRelative o)
    (hflag : xcP.flag (-7) = (xcF.flag (-7) || xcF.flag (-8) || xcF.flag (-9)))
    (hp : ∀ i, i < xcF.regSize → ∃ a b c, xcF.lane (-7) i = .ok (.float a) ∧
      xcF.lane (-8) i = .ok (.float b) ∧ xcF.lane (-9) i = .ok (.float c) ∧
      xcP.lane (-7) i = .ok (.v3f ⟨a, b, c⟩)) :
    ∃ xcF' xcP' q0 q1 q2 r,
      simdLookup3D_f K mask xcF = .ok xcF' ∧ simdLookup3D_f3 K mask xcP = .ok xcP' ∧
      xcF'.stack.regFpRelative (-10) = .ok q0 ∧ xcF'.stack.regFpRelative (-11) = .ok q1 ∧
      xcF'.stack.regFpRelative (-12) = .ok q2 ∧ xcP'.stack.regFpRelative (-8) = .ok r ∧
      q0.isVarying = r.isVarying ∧ q1.isVarying = r.isVarying ∧ q2.isVarying = r.isVarying ∧
      (r.isVarying = false → ∃ v : V3 F,
        Builtin.kernelAt K .lookup3D_f3 xcP 0 = .ok [.v3f v] ∧ r.get 0 = .ok (.v3f v) ∧
        q0.get 0 = .ok (.float v.x) ∧ q1.get 0 = .ok (.float v.y) ∧
        q2.get 0 = .ok (.float v.z)) ∧
      (r.isVarying = true → ∀ i, i < xcF.regSize → ∃ a, mask.get i = .ok a ∧
        (a = true → ∃ v : V3 F,
          Builtin.kernelAt K .lookup3D_f3 xcP i = .ok [.v3f v] ∧ r.get i = .ok (.v3f v) ∧
          q0.get i = .ok (.float v.x) ∧ q1.get i = .ok (.float v.y) ∧
          q2.get i = .ok (.float v.z)) ∧
        (a = false → r.get i = xcP.lane (-8) i ∧ q0.get i = xcF.lane (-10) i ∧
          q1.get i = xcF.lane (-11) i ∧ q2.get i = xcF.lane (-12) i)) := by
  obtain ⟨xcF', hrF, postF⟩ := Builtin.run_post K .lookup3D_f mask xcF hF
  obtain ⟨xcP', hrP, postP⟩ := Builtin.run_post K .lookup3D_f3 mask xcP hP
  obtain ⟨o0, q0, ho0, hq0, hf0, -, hu0, hv0⟩ := postF.outs 0 (-10) (by decide)
  obtain ⟨o1, q1, ho1, hq1, hf1, -, hu1, hv1⟩ := postF.outs 1 (-11) (by decide)
  obtain ⟨o2, q2, ho2, hq2, hf2, -, hu2, hv2⟩ := postF.outs 2 (-12) (by decide)
  obtain ⟨op, r, hop, hr, hfr, -, hur, hvr⟩ := postP.outs 0 (-8) (by decide)
  have h4 := SimdXContext.flag_of_reg (hin (-4) (by simp))
  have h5 := SimdXContext.flag_of_reg (hin (-5) (by simp))
  have h6 := SimdXContext.flag_of_reg (hin (-6) (by simp))
  have hav : Builtin.anyVarying .lookup3D_f xcF = Builtin.anyVarying .lookup3D_f3 xcP := by
    simp only [Builtin.anyVarying, Builtin.argOffsets, List.any_cons, List.any_nil,
      Bool.or_false, h4, h5, h6, hflag, Bool.or_assoc]
  have h0 : 0 < xcF.regSize := Builtin.wellFormed_lanes _ mask xcF hF
  refine ⟨xcF', xcP', q0, q1, q2, r, hrF, hrP, hq0, hq1, hq2, hr, ?_, ?_, ?_, ?_, ?_⟩
  · simp only [SimdReg.isVarying, hf0, hfr, hav]
  · simp only [SimdReg.isVarying, hf1, hfr, hav]
  · simp only [SimdReg.isVarying, hf2, hfr, hav]
  · intro hu
    have hanyP : Builtin.anyVarying .lookup3D_f3 xcP = false := by
      rw [← hfr]
      exact hu
    have hanyF : Builtin.anyVarying .lookup3D_f xcF = false := by rw [hav, hanyP]
    obtain ⟨vsP, vP, hkP, hvP, hgP⟩ := hur hanyP
    obtain ⟨vs0, v0, hk0, hv0, hg0⟩ := hu0 hanyF
    obtain ⟨vs1, v1, hk1, hv1, hg1⟩ := hu1 hanyF
    obtain ⟨vs2, v2, hk2, hv2, hg2⟩ := hu2 hanyF
    obtain ⟨v, e, hk⟩ := Builtin.kernelAt_split_packed K xcF xcP 0 hin (hp 0 h0) vs0 hk0
    have e1 : vs1 = vs0 := Except.ok.inj (hk1.symm.trans hk0)
    have e2 : vs2 = vs0 := Except.ok.inj (hk2.symm.trans hk0)
    have eP : vsP = [.v3f v] := Except.ok.inj (hkP.symm.trans hk)
    subst e1 e2 eP e
    simp only [List.getElem?_cons_zero, List.getElem?_cons_succ, Option.some.injEq] at hvP hv0 hv1 hv2
    subst hvP hv0 hv1 hv2
    exact ⟨v, hk, hgP, hg0, hg1, hg2⟩
  · intro hu i hi
    have hanyP : Builtin.anyVarying .lookup3D_f3 xcP = true := by
      rw [← hfr]
      exact hu
    have hanyF : Builtin.anyVarying .lookup3D_f xcF = true := by rw [hav, hanyP]
    obtain ⟨aP, hwP, honP, hoffP⟩ := hvr hanyP i (by rw [hn]; exact hi)
    obtain ⟨a0, hw0, hon0, hoff0⟩ := hv0 hanyF i hi
    obtain ⟨a1, hw1, hon1, hoff1⟩ := hv1 hanyF i hi
    obtain ⟨a2, hw2, hon2, hoff2⟩ := hv2 hanyF i hi
    rw [Builtin.writesLane_lookup3D_f3] at hwP
    rw [Builtin.writesLane_lookup3D_f] at hw0 hw1 hw2
    have e0 : a0 = aP := Except.ok.inj (hw0.symm.trans hwP)
    have e1 : a1 = aP := Except.ok.inj (hw1.symm.trans hwP)
    have e2 : a2 = aP := Except.ok.inj (hw2.symm.trans hwP)
    refine ⟨aP, hwP, ?_, ?_⟩
    · intro ha
      obtain ⟨vsP, vP, hkP, hvP, hgP⟩ := honP ha
      obtain ⟨vs0, v0, hk0, hv0, hg0⟩ := hon0 (e0.trans ha)
      obtain ⟨vs1, v1, hk1, hv1, hg1⟩ := hon1 (e1.trans ha)
      obtain ⟨vs2, v2, hk2, hv2, hg2⟩ := hon2 (e2.trans ha)
      obtain ⟨v, e, hk⟩ := Builtin.kernelAt_split_packed K xcF xcP i hin (hp i hi) vs0 hk0
      have e1 : vs1 = vs0 := Except.ok.inj (hk1.symm.trans hk0)
      have e2 : vs2 = vs0 := Except.ok.inj (hk2.symm.trans hk0)
      have eP : vsP = [.v3f v] := Except.ok.inj (hkP.symm.trans hk)
      subst e1 e2 eP e
      simp only [List.getElem?_cons_zero, List.getElem?_cons_succ, Option.some.injEq]
        at hvP hv0 hv1 hv2
      subst hvP hv0 hv1 hv2
      exact ⟨v, hk, hgP, hg0, hg1, hg2⟩
    · intro ha
      rw [SimdXContext.lane_of_regFp hop, SimdXContext.lane_of_regFp ho0,
        SimdXContext.lane_of_regFp ho1, SimdXContext.lane_of_regFp ho2]
      exact ⟨hoffP ha, hoff0 (e0.trans ha), hoff1 (e1.trans ha), hoff2 (e2.trans ha)⟩

theorem split_matches_packed_witness :
    Builtin.wellFormed .lookup3D_f demoMaskTwo demoFrame3D = true ∧
    Builtin.wellFormed .lookup3D_f3 demoMaskTwo demoPacked3D = true ∧
    ∃ xcF' xcP' q0 q1 q2 r,
      simdLookup3D_f demoKernels demoMaskTwo demoFrame3D = .ok xcF' ∧
      simdLookup3D_f3 demoKernels demoMaskTwo demoPacked3D = .ok xcP' ∧
      xcF'.stack.regFpRelative (-10) = .ok q0 ∧ xcF'.stack.regFpRelative (-11) = .ok q1 ∧
      xcF'.stack.regFpRelative (-12) = .ok q2 ∧ xcP'.stack.regFpRelative (-8) = .ok r ∧
      q0.isVarying = r.isVarying ∧ q1.isVarying = r.isVarying ∧ q2.isVarying = r.isVarying ∧
      (r.isVarying = false → ∃ v : V3 Int,
        Builtin.kernelAt demoKernels .lookup3D_f3 demoPacked3D 0 = .ok [.v3f v] ∧
        r.get 0 = .ok (.v3f v) ∧
        q0.get 0 = .ok (.float v.x) ∧ q1.get 0 = .ok (.float v.y) ∧
        q2.get 0 = .ok (.float v.z)) ∧
      (r.isVarying = true → ∀ i, i < demoFrame3D.regSize → ∃ a, demoMaskTwo.get i = .ok a ∧
        (a = true → ∃ v : V3 Int,
          Builtin.kernelAt demoKernels .lookup3D_f3 demoPacked3D i = .ok [.v3f v] ∧
          r.get i = .ok (.v3f v) ∧
          q0.get i = .ok (.float v.x) ∧ q1.get i = .ok (.float v.y) ∧
          q2.get i = .ok (.float v.z)) ∧
        (a = false → r.get i = demoPacked3D.lane (-8) i ∧ q0.get i = demoFrame3D.lane (-10) i ∧
          q1.get i = demoFrame3D.lane (-11) i ∧ q2.get i = demoFrame3D.lane (-12) i)) :=
  ⟨by decide, by decide,
    split_matches_packed demoKernels demoMaskTwo demoFrame3D demoPacked3D (by decide)
      (by decide) rfl (by decide) (by decide)
      (by
        intro i hi
        have hi2 : i < 2 := hi
        interval_cases i
        · exact ⟨3, 5, 6, by decide, by decide, by decide, by decide⟩
        · exact ⟨4, 5, 6, by decide, by decide, by decide, by decide⟩)⟩

/-- The entries at one index of the float triple and of its half conversion. -/
theorem half_of_float_index (K : Kernels F H) (v : V3 F) (k : Nat) (vF vH : Val F H)
    (hF : ([.float v.x, .float v.y, .float v.z] : List (Val F H))[k]? = some vF)
    (hH : ([.half (K.floatToHalf v.x), .half (K.floatToHalf v.y),
      .half (K.floatToHalf v.z)] : List (Val F H))[k]? = some vH) :
    ∃ x, vF = .float x ∧ vH = .half (K.floatToHalf x) := by
  rcases k with _ | _ | _ | k
  · simp only [List.getElem?_cons_zero, Option.some.injEq] at hF hH
    exact ⟨v.x, hF.symm, hH.symm⟩
  · simp only [List.getElem?_cons_succ, List.getElem?_cons_zero, Option.some.injEq] at hF hH
    exact ⟨v.y, hF.symm, hH.symm⟩
  · simp only [List.getElem?_cons_succ, List.getElem?_cons_zero, Option.some.injEq] at hF hH
    exact ⟨v.z, hF.symm, hH.symm⟩
  · simp at hF

/-- C19. Half-precision 3D lookup: let a frame of `simdLookup3D_h` and a frame
of `simdLookup3D_f` hold the same sizes, table, `pMin` and `pMax` (floats in
both), and let each float position hold the half-to-float conversion of the
half position at every lane, with the same varying flag.  Then under the same
mask both calls return, each of `q0`, `q1`, `q2` carries the same varying flag
in both, both write the same lanes (the single element on the uniform path,
the lanes where the mask is true otherwise, the other lanes keeping their
contents), and at every written lane the half output holds the float-to-half
conversion of the component the float lookup writes there. -/
theorem half_lookup_converts_float_lookup (K : Kernels F H) (mask : SimdBoolMask)
    (xcH xcF : SimdXContext F H)
    (hH : Builtin.wellFormed .lookup3D_h mask xcH = true)
    (hF : Builtin.wellFormed .lookup3D_f mask xcF = true)
    (hn : xcH.regSize = xcF.regSize)
    (hin : ∀ o ∈ ([-1, -2, -3, -4, -5, -6] : List Int),
      xcH.stack.regFpRelative o = xcF.stack.regFpRelative o)
    (hflag : ∀ o ∈ ([-7, -8, -9] : List Int), xcH.flag o = xcF.flag o)
    (hp : ∀ i, i < xcF.regSize → ∀ o ∈ ([-7, -8, -9] : List Int),
      ∃ x, xcH.lane o i = .ok (.half x) ∧ xcF.lane o i = .ok (.float (K.halfToFloat x))) :
    ∃ xcH' xcF',
      simdLookup3D_h K mask xcH = .ok xcH' ∧ simdLookup3D_f K mask xcF = .ok xcF' ∧
      ∀ (k : Nat) (o : Int), (Builtin.outOffsets .lookup3D_f)[k]? = some o →
        ∃ rH rF, xcH'.stack.regFpRelative o = .ok rH ∧ xcF'.stack.regFpRelative o = .ok rF ∧
          rH.isVarying = rF.isVarying ∧
          (rF.isVarying = false → ∃ vs x,
            Builtin.kernelAt K .lookup3D_f xcF 0 = .ok vs ∧ vs[k]? = some (.float x) ∧
            rF.get 0 = .ok (.float x) ∧ rH.get 0 = .ok (.half (K.floatToHalf x))) ∧
          (rF.isVarying = true → ∀ i, i < xcF.regSize → ∃ a, mask.get i = .ok a ∧
            (a = true → ∃ vs x,
              Builtin.kernelAt K .lookup3D_f xcF i = .ok vs ∧ vs[k]? = some (.float x) ∧
              rF.get i = .ok (.float x) ∧ rH.get i = .ok (.half (K.floatToHalf x))) ∧
            (a = false → rH.get i = xcH.lane o i ∧ rF.get i = xcF.lane o i)) := by
  obtain ⟨xcH', hrH, postH⟩ := Builtin.run_post K .lookup3D_h mask xcH hH
  obtain ⟨xcF', hrF, postF⟩ := Builtin.run_post K .lookup3D_f mask xcF hF
  have h4 := SimdXContext.flag_of_reg (hin (-4) (by simp))
  have h5 := SimdXContext.flag_of_reg (hin (-5) (by simp))
  have h6 := SimdXContext.flag_of_reg (hin (-6) (by simp))
  have h7 := hflag (-7) (by simp)
  have h8 := hflag (-8) (by simp)
  have h9 := hflag (-9) (by simp)
  have hav : Builtin.anyVarying .lookup3D_h xcH = Builtin.anyVarying .lookup3D_f xcF := by
    simp only [Builtin.anyVarying, Builtin.argOffsets, List.any_cons, List.any_nil,
      Bool.or_false, h4, h5, h6, h7, h8, h9]
  have h0 : 0 < xcF.regSize := Builtin.wellFormed_lanes _ mask xcF hF
  refine ⟨xcH', xcF', hrH, hrF, ?_⟩
  intro k o hk
  obtain ⟨oH, rH, hoH, hqH, hfH, -, huH, hvH⟩ := postH.outs k o hk
  obtain ⟨oF, rF, hoF, hqF, hfF, -, huF, hvF⟩ := postF.outs k o hk
  refine ⟨rH, rF, hqH, hqF, ?_, ?_, ?_⟩
  · simp only [SimdReg.isVarying, hfH, hfF, hav]
  · intro hu
    have hanyF : Builtin.anyVarying .lookup3D_f xcF = false := by
      rw [← hfF]
      exact hu
    have hanyH : Builtin.anyVarying .lookup3D_h xcH = false := by rw [hav, hanyF]
    obtain ⟨vsH, vH, hkH, hiH, hgH⟩ := huH hanyH
    obtain ⟨vsF, vF, hkF, hiF, hgF⟩ := huF hanyF
    obtain ⟨v, e, hkh⟩ := Builtin.kernelAt_half_float K xcH xcF 0 hin (hp 0 h0) vsF hkF
    have eH := Except.ok.inj (hkH.symm.trans hkh)
    subst eH e
    obtain ⟨x, ex, ey⟩ := half_of_float_index K v k vF vH hiF hiH
    subst ex ey
    exact ⟨_, x, hkF, hiF, hgF, hgH⟩
  · intro hu i hi
    have hanyF : Builtin.anyVarying .lookup3D_f xcF = true := by
      rw [← hfF]
      exact hu
    have hanyH : Builtin.anyVarying .lookup3D_h xcH = true := by rw [hav, hanyF]
    obtain ⟨aH, hwH, honH, hoffH⟩ := hvH hanyH i (by rw [hn]; exact hi)
    obtain ⟨aF, hwF, honF, hoffF⟩ := hvF hanyF i hi
    rw [Builtin.writesLane_lookup3D_h] at hwH
    rw [Builtin.writesLane_lookup3D_f] at hwF
    have ea : aH = aF := Except.ok.inj (hwH.symm.trans hwF)
    refine ⟨aF, hwF, ?_, ?_⟩
    · intro ha
      obtain ⟨vsH, vH, hkH, hiH, hgH⟩ := honH (ea.trans ha)
      obtain ⟨vsF, vF, hkF, hiF, hgF⟩ := honF ha
      obtain ⟨v, e, hkh⟩ := Builtin.kernelAt_half_float K xcH xcF i hin (hp i hi) vsF hkF
      have eH := Except.ok.inj (hkH.symm.trans hkh)
      subst eH e
      obtain ⟨x, ex, ey⟩ := half_of_float_index K v k vF vH hiF hiH
      subst ex ey
      exact ⟨_, x, hkF, hiF, hgF, hgH⟩
    · intro ha
      rw [SimdXContext.lane_of_regFp hoH, SimdXContext.lane_of_regFp hoF]
      exact ⟨hoffH (ea.trans ha), hoffF ha⟩

theorem half_lookup_converts_float_lookup_witness :
    Builtin.wellFormed .lookup3D_h demoMaskTwo demoHalf3D = true ∧
    Builtin.wellFormed .lookup3D_f demoMaskTwo demoFloat3D = true ∧
    ∃ xcH' xcF',
      simdLookup3D_h demoKernels demoMaskTwo demoHalf3D = .ok xcH' ∧
      simdLookup3D_f demoKernels demoMaskTwo demoFloat3D = .ok xcF' ∧
      ∀ (k : Nat) (o : Int), (Builtin.outOffsets .lookup3D_f)[k]? = some o →
        ∃ rH rF, xcH'.stack.regFpRelative o = .ok rH ∧ xcF'.stack.regFpRelative o = .ok rF ∧
          rH.isVarying = rF.isVarying ∧
          (rF.isVarying = false → ∃ vs x,
            Builtin.kernelAt demoKernels .lookup3D_f demoFloat3D 0 = .ok vs ∧
            vs[k]? = some (.float x) ∧
            rF.get 0 = .ok (.float x) ∧ rH.get 0 = .ok (.half (demoKernels.floatToHalf x))) ∧
          (rF.isVarying = true → ∀ i, i < demoFloat3D.regSize → ∃ a,
            demoMaskTwo.get i = .ok a ∧
            (a = true → ∃ vs x,
              Builtin.kernelAt demoKernels .lookup3D_f demoFloat3D i = .ok vs ∧
              vs[k]? = some (.float x) ∧
              rF.get i = .ok (.float x) ∧ rH.get i = .ok (.half (demoKernels.floatToHalf x))) ∧
            (a = false → rH.get i = demoHalf3D.lane o i ∧ rF.get i = demoFloat3D.lane o i)) :=
  ⟨by decide, by decide,
    half_lookup_converts_float_lookup demoKernels demoMaskTwo demoHalf3D demoFloat3D
      (by decide) (by decide) rfl (by decide) (by decide)
      (by
        intro i hi
        have hi2 : i < 2 := hi
        interval_cases i
        · intro o ho
          simp only [List.mem_cons, List.mem_singleton, List.not_mem_nil, or_false] at ho
          rcases ho with rfl | rfl | rfl
          · exact ⟨1, by decide, by decide⟩
          · exact ⟨3, by decide, by decide⟩
          · exact ⟨4, by decide, by decide⟩
        · intro o ho
          simp only [List.mem_cons, List.mem_singleton, List.not_mem_nil, or_false] at ho
          rcases ho with rfl | rfl | rfl
          · exact ⟨2, by decide, by decide⟩
          · exact ⟨3, by decide, by decide⟩
          · exact ⟨4, by decide, by decide⟩)⟩

end Ctl
